import Mathlib

/-!
# Virtual memory, processes and file descriptors of the kernel

A shallow embedding of `kern/arch/mips/vm/generic_vm.c`, `kern/vm/addrspace.c` and
`kern/syscall/sys_sbrk.c` (core map, address space, fault handler, sbrk), of
`kern/proc/proc.c`, `kern/syscall/sys_fork.c`, `kern/syscall/sys_waitpid.c` and
`kern/syscall/sys__exit.c` (PID table, process lifecycle), and of `kern/fd/fd.c`,
`kern/syscall/sys_open.c`, `kern/syscall/sys_close.c`, `kern/syscall/sys_dup2.c` and
`kern/syscall/sys_lseek.c` (descriptors and the descriptor table), with the sleep locks
of `kern/thread/synch.c` where a function is entered with a lock held.

Conventions of the embedding.

* `paddr_t`, `vaddr_t`, `unsigned long` and `unsigned` are 32-bit on the MIPS
  target; they are natural numbers here and every C operation that can wrap is
  written with an explicit `% 2 ^ 32`.
* A C array is a `List`; an access outside the array, a dereference of `NULL` and
  a failed `KASSERT` have no defined result, and the embedding returns `none`
  there.
* Spinlocks and the TLB are not part of the state: the functions below are the
  sequential effect of the C functions on the core map and the address space. A sleep
  lock is part of the state where the calling thread itself may hold it at a
  `lock_acquire`; such a call has the outcome `call.sleeps`.
* The kernel heap (`kmalloc`, the growth of a dynamic array) is outside the
  embedding; where the C code tests the result of `kmalloc`, the embedding takes
  the number of heap requests that still succeed as an argument. The descriptor code
  keeps pointers to heap objects, so its embedding carries these objects in a state of
  its own (`kheap`).
-/

namespace Kernel

/-! ## Constants of headers that are not part of the sources -/

/-- Modelled from the spec: `PAGE_SIZE` comes from the architecture header
`mips/vm.h`, which is not among the sources; the spec only calls it the size of a
page frame. The value is the 4 KiB page of the MIPS target. -/
def PAGE_SIZE : Nat := 4096

/-- Modelled from the spec: `PAGE_FRAME` (header `mips/vm.h`, not among the sources)
is the mask of the page-number bits of a 32-bit address, `~(PAGE_SIZE - 1)`. -/
def PAGE_FRAME : Nat := 0xfffff000

/-- Modelled from the spec: `MIPS_KSEG0` (header `mips/vm.h`, not among the sources)
is the base of the kernel-mapped window through which frames are addressed. -/
def MIPS_KSEG0 : Nat := 0x80000000

/-- Modelled from the spec: `USERSTACK` (header `mips/vm.h`, not among the sources)
is the top-of-user-memory constant. -/
def USERSTACK : Nat := 0x80000000

/-- Modelled from the spec: `PADDR_TO_KVADDR` (header `mips/vm.h`, not among the
sources) maps a physical address into the kernel-mapped window; it is the inverse
of `KVADDR_TO_PADDR` of `generic_vm.h`. -/
def PADDR_TO_KVADDR (paddr : Nat) : Nat := (paddr + MIPS_KSEG0) % 2 ^ 32

/-- Modelled from the spec: error code *out-of-memory* of `kern/errno.h`
(not among the sources). -/
def ENOMEM : Nat := 3

/-- Modelled from the spec: error code *fault* (access violation) of
`kern/errno.h` (not among the sources). -/
def EFAULT : Nat := 6

/-- Modelled from the spec: error code *invalid-argument* of `kern/errno.h`
(not among the sources). -/
def EINVAL : Nat := 8

/-- Modelled from the spec: fault kind READ of `vm.h` (not among the sources). -/
def VM_FAULT_READ : Int := 0

/-- Modelled from the spec: fault kind WRITE of `vm.h` (not among the sources). -/
def VM_FAULT_WRITE : Int := 1

/-- Modelled from the spec: fault kind READONLY of `vm.h` (not among the sources). -/
def VM_FAULT_READONLY : Int := 2

/-! ## Definitions of `generic_vm.h` -/

/-- The macro `PAGE_ALLOCATED` (stored in the `bool page_allocated`). -/
def PAGE_ALLOCATED : Bool := true

/-- The macro `PAGE_FREE`. -/
def PAGE_FREE : Bool := false

/-- The macro `READABLE`. -/
def READABLE : Int := 4

/-- The macro `WRITEABLE`. -/
def WRITEABLE : Int := 2

/-- The macro `NOT_WRITEABLE`. -/
def NOT_WRITEABLE : Int := 0

/-- The macro `PADDR_TO_PPAGE`. -/
def PADDR_TO_PPAGE (paddr : Nat) : Nat := paddr &&& PAGE_FRAME

/-- The macro `KVADDR_TO_PADDR`: `(vaddr) - MIPS_KSEG0` on 32-bit unsigned values. -/
def KVADDR_TO_PADDR (vaddr : Nat) : Nat := (vaddr + 2 ^ 32 - MIPS_KSEG0) % 2 ^ 32

/-- The struct `core_map_entry`. -/
structure core_map_entry where
  page_allocated : Bool
  num_pages_track : Nat
  deriving DecidableEq, Repr

/-- The globals of the frame allocator after `vm_bootstrap`: the array `core_map`
(its length is `num_core_map_entries`) and `physical_start`. -/
structure core_map_state where
  core_map : List core_map_entry
  physical_start : Nat
  deriving DecidableEq, Repr

/-- The global `num_core_map_entries`. -/
def num_core_map_entries (s : core_map_state) : Nat := s.core_map.length

/-! ## The frame allocator -/

/-- The contiguity check of `getppages`:
`for (pages_found = 1; pages_found < npages; pages_found++)
   if (core_map[pages_found].page_allocated == PAGE_ALLOCATED)
     { contiguous_found = false; break; }`.
The first argument counts the iterations that are left, `npages - pages_found`.
The loop reads `core_map[pages_found]`, as the source does. -/
def getppages_check (cm : List core_map_entry) :
    Nat → Nat → Bool → Option Bool
  | 0, _, contiguous_found => some contiguous_found
  | left + 1, pages_found, contiguous_found =>
    match cm.get? pages_found with
    | none => none
    | some e =>
      if e.page_allocated = PAGE_ALLOCATED then some false
      else getppages_check cm left (pages_found + 1) contiguous_found

/-- The marking loop of `getppages`:
`for (j = i; j < (i + npages); j++)
   { core_map[j].num_pages_track = npages; core_map[j].page_allocated = PAGE_ALLOCATED;
     npages -= 1; }`.
The list argument is `core_map[j ..]`, the cells at and after `j`; the bound
`i + npages` is read again in every iteration, after `npages` was decremented.
Inside the body `npages >= 1` (the condition with `npages = 0` is `j < i`), so the
decrement does not wrap. -/
def getppages_mark (i : Nat) : List core_map_entry → Nat → Nat → Option (List core_map_entry)
  | [], j, npages => if j < (i + npages) % 2 ^ 32 then none else some []
  | e :: rest, j, npages =>
    if j < (i + npages) % 2 ^ 32 then
      (getppages_mark i rest (j + 1) (npages - 1)).map
        (fun r => { page_allocated := PAGE_ALLOCATED, num_pages_track := npages } :: r)
    else some (e :: rest)

/-- The scan of `getppages`, `for (i = 0; i < cm_entries; i++) ...`. The first
argument counts the iterations that are left, `cm_entries - i`. The result is the
value of `addr` and the core map when the loop is left. -/
def getppages_scan (s : core_map_state) (npages : Nat) :
    Nat → Nat → Nat → Bool → Option (Nat × core_map_state)
  | 0, _, addr, _ => some (addr, s)
  | left + 1, i, addr, contiguous_found =>
    match s.core_map.get? i with
    | none => none
    | some e =>
      if e.page_allocated = PAGE_FREE then
        let addr1 := (s.physical_start + i * PAGE_SIZE) % 2 ^ 32
        match getppages_check s.core_map (npages - 1) 1 contiguous_found with
        | none => none
        | some found =>
          if found then
            (getppages_mark i (s.core_map.drop i) i npages).map
              (fun marked => (addr1, { s with core_map := s.core_map.take i ++ marked }))
          else getppages_scan s npages left (i + 1) addr1 found
      else getppages_scan s npages left (i + 1) addr contiguous_found

/-- The function `getppages` once `vm_bootstrap_complete` is `COMPLETE` (before that it
only forwards to `ram_stealmem` and does not touch the core map): `addr = 0`,
`contiguous_found = true`, then the scan. -/
def getppages (s : core_map_state) (npages : Nat) : Option (Nat × core_map_state) :=
  getppages_scan s npages (num_core_map_entries s) 0 0 true

/-- The function `alloc_kpages`. -/
def alloc_kpages (s : core_map_state) (npages : Nat) : Option (Nat × core_map_state) :=
  if npages = 0 then some (0, s)
  else
    match getppages s npages with
    | none => none
    | some (pa, s1) => if pa = 0 then some (0, s1) else some (PADDR_TO_KVADDR pa, s1)

/-- The loop of `free_kpages`,
`for (i = index; i < index + num_pages_tracked - 1; i++)
   { core_map[i].page_allocated = PAGE_FREE; core_map[i].num_pages_track = 0; }`.
The first argument counts the iterations that are left. -/
def free_kpages_loop : Nat → Nat → List core_map_entry → Option (List core_map_entry)
  | 0, _, cm => some cm
  | left + 1, i, cm =>
    if i < cm.length then
      free_kpages_loop left (i + 1)
        (cm.set i ({ page_allocated := PAGE_FREE, num_pages_track := 0 }))
    else none

/-- The function `free_kpages`. -/
def free_kpages (s : core_map_state) (addr : Nat) : Option core_map_state :=
  let paddr := KVADDR_TO_PADDR addr
  let ppage_number := PADDR_TO_PPAGE paddr
  let actual_paddr := (ppage_number + 2 ^ 32 - s.physical_start) % 2 ^ 32
  let index := actual_paddr / PAGE_SIZE
  match s.core_map.get? index with
  | none => none
  | some e =>
    let num_pages_tracked := e.num_pages_track
    if num_pages_tracked = 1 then
      some { s with core_map := s.core_map.set index { e with page_allocated := PAGE_FREE } }
    else
      let bound := (index + num_pages_tracked + 2 ^ 32 - 1) % 2 ^ 32
      (free_kpages_loop (bound - index) index s.core_map).map
        (fun cm => { s with core_map := cm })

/-- The function `free_page`. -/
def free_page (s : core_map_state) (addr : Nat) : Option core_map_state :=
  if addr = 0 then some s
  else if addr % PAGE_SIZE ≠ 0 then some s
  else
    let actual_paddr := (addr + 2 ^ 32 - s.physical_start) % 2 ^ 32
    let index := actual_paddr / PAGE_SIZE
    match s.core_map.get? index with
    | none => none
    | some e =>
      some { s with core_map := s.core_map.set index { e with page_allocated := PAGE_FREE } }

/-! ## `core_map_init` -/

/-- Modelled from the spec: the early allocator of `ram.c` (`ram_stealmem`,
`ram_getsize`) is not among the sources. It is given by its answers while
`core_map_init` runs: the address that `ram_stealmem(npages)` returns (0 when it cannot
supply the pages; `ram_stealmem(0)` takes nothing) and the value of `ram_getsize()`. -/
structure ram where
  ram_stealmem : Nat → Nat
  ram_getsize : Nat

/-- The globals that `core_map_init` sets on success, the core map and `physical_start`
in `cm`, together with its locals `core_map_paddr` and `core_map_pages`. -/
structure core_map_boot where
  core_map_paddr : Nat
  core_map_pages : Nat
  physical_end : Nat
  cm : core_map_state
  deriving DecidableEq, Repr

/-- The function `core_map_init`: the value it returns and, for 0, what it has set up.
`sizeof_core_map_entry` is `sizeof(struct core_map_entry)`. The `KASSERT` gives `none`
when it fails. -/
def core_map_init (sizeof_core_map_entry : Nat) (r : ram) : Option (Nat × Option core_map_boot) :=
  let start_mem := r.ram_stealmem 0
  let end_mem := r.ram_getsize
  let physical_end := end_mem
  let total_pages := (end_mem + 2 ^ 32 - start_mem) % 2 ^ 32 / PAGE_SIZE
  let core_map_pages :=
    (total_pages * sizeof_core_map_entry + PAGE_SIZE - 1) % 2 ^ 32 / PAGE_SIZE
  let core_map_paddr := r.ram_stealmem core_map_pages
  if core_map_paddr = 0 then some (ENOMEM, none)
  else if PADDR_TO_KVADDR core_map_paddr = 0 then some (ENOMEM, none)
  else
    let physical_start := (core_map_paddr + PAGE_SIZE) % 2 ^ 32
    let num_pages_to_track := (physical_end + 2 ^ 32 - physical_start) % 2 ^ 32 / PAGE_SIZE
    if physical_start < physical_end then
      some (0, some
        { core_map_paddr := core_map_paddr, core_map_pages := core_map_pages,
          physical_end := physical_end,
          cm := { core_map := List.replicate num_pages_to_track
                    { page_allocated := PAGE_FREE, num_pages_track := 0 },
                  physical_start := physical_start } })
    else none

/-! ## The address space (`generic_vm.h`, `addrspace.c`) -/

/-- The struct `segment`. -/
structure segment where
  segment_start : Nat
  segment_end : Nat
  readable : Int
  writeable : Int
  executable : Int
  originally_writeable : Int
  deriving DecidableEq, Repr

/-- The struct `page_table_`, a page-table entry. -/
structure page_table_ where
  virtual_page_number : Nat
  physical_page_number : Nat
  deriving DecidableEq, Repr

/-- Modelled from the spec: `struct addrspace` is declared in `addrspace.h`, which is
not among the sources. These are the members the code reads and writes (the two
spinlocks left out): an ordered list of segments (slot 0 is the heap), the
page-table entries, `stack_base` and `stack_top`. -/
structure addrspace where
  as_segment_array : List segment
  as_pt_array : List page_table_
  as_stack_base : Nat
  as_stack_top : Nat
  deriving DecidableEq, Repr

/-- Modelled from the spec: `kmalloc` is outside the sources; it returns `NULL` when the
kernel heap is exhausted (*out-of-memory*). The argument is the number of requests that
still succeed; the result is `none` for `NULL` and the remaining number otherwise. -/
def kmalloc (heap : Nat) : Option Nat :=
  if heap = 0 then none else some (heap - 1)

/-- The function `as_create`. The outer `none` is a crash (the heap segment is written
through the result of `kmalloc` without a test), the inner `none` is the result `NULL`.
The dynamic arrays are lists and `segmentarray_add` appends. -/
def as_create (heap : Nat) : Option (Option addrspace × Nat) :=
  match kmalloc heap with
  | none => some (none, heap)
  | some heap1 =>
    match kmalloc heap1 with
    | none => none
    | some heap2 =>
      let new_segment_0 : segment :=
        { segment_start := 0, segment_end := 0, readable := READABLE,
          writeable := WRITEABLE, executable := 0, originally_writeable := 0 }
      some (some { as_segment_array := [] ++ [new_segment_0], as_pt_array := [],
                   as_stack_base := USERSTACK, as_stack_top := USERSTACK }, heap2)

/-! ## `as_define_region`, `as_prepare_load`, `as_complete_load` -/

/-- The function `as_define_region`: the value it returns, the address space and the
kernel heap. `vaddr_t` and `size_t` are unsigned 32-bit types, `~(vaddr_t)PAGE_FRAME` is
`2 ^ 32 - 1 - PAGE_FRAME`; `segmentarray_add` appends. -/
def as_define_region (as : addrspace) (vaddr sz : Nat) (readable writeable executable : Int)
    (heap : Nat) : Nat × addrspace × Nat :=
  let sz := (sz + (vaddr &&& (2 ^ 32 - 1 - PAGE_FRAME))) % 2 ^ 32
  let vaddr := vaddr &&& PAGE_FRAME
  let sz := ((sz + PAGE_SIZE - 1) % 2 ^ 32) &&& PAGE_FRAME
  let seg_end := (vaddr + sz) % 2 ^ 32
  match kmalloc heap with
  | none => (ENOMEM, as, heap)
  | some heap1 =>
    let new_segment : segment :=
      { segment_start := vaddr, segment_end := seg_end, readable := readable,
        writeable := writeable, executable := executable,
        originally_writeable := NOT_WRITEABLE }
    (0, { as with as_segment_array := as.as_segment_array ++ [new_segment] }, heap1)

/-- The loop of `as_prepare_load`, `for (i = 1; i < num_regions; i++)`, over the
segments at and after `i`: the segments after the loop and the value of
`largest_vaddr`. -/
def as_prepare_load_loop : List segment → Nat → List segment × Nat
  | [], largest_vaddr => ([], largest_vaddr)
  | curr_segment :: rest, largest_vaddr =>
    let largest_vaddr1 :=
      if curr_segment.segment_end > largest_vaddr then curr_segment.segment_end
      else largest_vaddr
    let curr_segment1 : segment :=
      if curr_segment.executable ≠ 0 then
        { curr_segment with originally_writeable := curr_segment.writeable,
                            writeable := WRITEABLE }
      else curr_segment
    ((curr_segment1 :: (as_prepare_load_loop rest largest_vaddr1).1),
      (as_prepare_load_loop rest largest_vaddr1).2)

/-- The function `as_prepare_load`: the value it returns and the address space.
`segmentarray_get` asserts that slot 0 exists. -/
def as_prepare_load (as : addrspace) : Option (Nat × addrspace) :=
  let r := as_prepare_load_loop (as.as_segment_array.drop 1) 0
  match as.as_segment_array.get? 0 with
  | none => none
  | some heap_segment =>
    some (0, { as with as_segment_array :=
      { heap_segment with segment_start := r.2, segment_end := r.2 } :: r.1 })

/-- The body of the loop of `as_complete_load` on one segment. -/
def as_complete_load_segment (curr_segment : segment) : segment :=
  if curr_segment.executable ≠ 0 then
    { curr_segment with writeable := curr_segment.originally_writeable }
  else curr_segment

/-- The function `as_complete_load`: the value it returns and the address space. The
loop `for (i = 1; i < num_regions; i++)` leaves slot 0 as it is. -/
def as_complete_load (as : addrspace) : Nat × addrspace :=
  (0, { as with as_segment_array :=
    as.as_segment_array.take 1 ++ (as.as_segment_array.drop 1).map as_complete_load_segment })

/-! ## The fault handler -/

/-- The function `check_within_stack`. It may lower `as_stack_top`, so it returns
the address space too. `segmentarray_get` asserts that slot 0 exists. -/
def check_within_stack (as : addrspace) (faultaddress : Nat) : Option (Bool × addrspace) :=
  match as.as_segment_array.get? 0 with
  | none => none
  | some heap_segment =>
    let heap_top := heap_segment.segment_end
    if faultaddress ≥ as.as_stack_top ∧ faultaddress ≤ as.as_stack_base then
      some (true, as)
    else if heap_top ≥ (as.as_stack_top + 2 ^ 32 - PAGE_SIZE) % 2 ^ 32 then
      some (false, as)
    else
      some (true, { as with as_stack_top := (as.as_stack_top + 2 ^ 32 - PAGE_SIZE) % 2 ^ 32 })

/-- The segment scan of `check_readable_segment`: `Except.error e` is the early
`return e`, `Except.ok b` is the value of `within_segment` after the loop. -/
def check_readable_scan (faultaddress : Nat) : List segment → Except Nat Bool
  | [] => .ok false
  | candidate_segment :: rest =>
    if faultaddress ≥ candidate_segment.segment_start
        ∧ faultaddress < candidate_segment.segment_end then
      if candidate_segment.readable = 0 then .error EFAULT else .ok true
    else check_readable_scan faultaddress rest

/-- The function `check_readable_segment`: the error code and the address space
(whose `as_stack_top` the stack check may have lowered). -/
def check_readable_segment (as : addrspace) (faultaddress : Nat) : Option (Nat × addrspace) :=
  let actual_address := faultaddress
  let faultaddress := faultaddress &&& PAGE_FRAME
  match check_readable_scan faultaddress as.as_segment_array with
  | .error e => some (e, as)
  | .ok within_segment =>
    if !within_segment then
      match check_within_stack as actual_address with
      | none => none
      | some (within_stack, as1) => if !within_stack then some (EFAULT, as1) else some (0, as1)
    else some (0, as)

/-- The segment scan of `check_writable_segment`. -/
def check_writable_scan (faultaddress : Nat) : List segment → Except Nat Bool
  | [] => .ok false
  | candidate_segment :: rest =>
    if faultaddress ≥ candidate_segment.segment_start
        ∧ faultaddress < candidate_segment.segment_end then
      if candidate_segment.writeable = 0 then .error EFAULT else .ok true
    else check_writable_scan faultaddress rest

/-- The function `check_writable_segment`. -/
def check_writable_segment (as : addrspace) (faultaddress : Nat) : Option (Nat × addrspace) :=
  let actual_address := faultaddress
  let faultaddress := faultaddress &&& PAGE_FRAME
  match check_writable_scan faultaddress as.as_segment_array with
  | .error e => some (e, as)
  | .ok within_segment =>
    if !within_segment then
      match check_within_stack as actual_address with
      | none => none
      | some (within_stack, as1) => if !within_stack then some (EFAULT, as1) else some (0, as1)
    else some (0, as)

/-- The function `get_page_table_entry`: the first entry of the page table whose
`virtual_page_number` is `faultaddress`, `none` for `NULL`. -/
def get_page_table_entry (as : addrspace) (faultaddress : Nat) : Option page_table_ :=
  as.as_pt_array.find? (fun pte => faultaddress == pte.virtual_page_number)

/-- The function `create_tlb_entry`, its error code only (the TLB is not part of
the state). -/
def create_tlb_entry (faulttype : Int) : Nat :=
  if faulttype = VM_FAULT_READ ∨ faulttype = VM_FAULT_WRITE then 0
  else if faulttype = VM_FAULT_READONLY then EINVAL
  else EINVAL

/-- The function `create_pte_entry`. The argument `new_pte` is `none` for a `NULL`
pointer. The `KASSERT` on the alignment of the frame gives `none` when it fails.
The result of `page_table_array_add` is not looked at by the source; the array is a
list and the entry is appended. -/
def create_pte_entry (faultaddress : Nat) (as : addrspace) (cm : core_map_state)
    (npages : Nat) (new_pte : Option Unit) : Option (Nat × addrspace × core_map_state) :=
  match getppages cm npages with
  | none => none
  | some (ppage, cm1) =>
    if ppage = 0 then some (ENOMEM, as, cm1)
    else if ppage ≠ ppage &&& PAGE_FRAME then none
    else
      match new_pte with
      | none => some (EFAULT, as, cm1)
      | some _ =>
        some (0, { as with as_pt_array := as.as_pt_array ++
                     [{ virtual_page_number := faultaddress, physical_page_number := ppage }] },
              cm1)

/-- The part of `vm_fault_helper` that its READ branch and its WRITE branch have in
common, after the segment check passed: look the entry up; reuse it, or allocate
(`kmalloc`, then `create_pte_entry` with one page) and install. -/
def vm_fault_resolve (faulttype : Int) (faultaddress : Nat) (as : addrspace)
    (cm : core_map_state) (heap : Nat) : Option (Nat × addrspace × core_map_state) :=
  match get_page_table_entry as faultaddress with
  | some _ =>
    let err := create_tlb_entry faulttype
    if err ≠ 0 then some (err, as, cm) else some (0, as, cm)
  | none =>
    match kmalloc heap with
    | none => some (ENOMEM, as, cm)
    | some _ =>
      match create_pte_entry faultaddress as cm 1 (some ()) with
      | none => none
      | some (err, as1, cm1) =>
        if err ≠ 0 then some (err, as1, cm1)
        else
          let err := create_tlb_entry faulttype
          if err ≠ 0 then some (err, as1, cm1) else some (0, as1, cm1)

/-- The function `vm_fault_helper`. In the READONLY branch the entry that
`get_page_table_entry` returns is dereferenced without a test, so a missing entry
has no defined result. -/
def vm_fault_helper (faulttype : Int) (faultaddress : Nat) (as : addrspace)
    (cm : core_map_state) (heap : Nat) : Option (Nat × addrspace × core_map_state) :=
  let actual_address := faultaddress
  let faultaddress := faultaddress &&& PAGE_FRAME
  if faulttype = VM_FAULT_READ then
    match check_readable_segment as actual_address with
    | none => none
    | some (err, as1) =>
      if err ≠ 0 then some (err, as1, cm)
      else vm_fault_resolve faulttype faultaddress as1 cm heap
  else if faulttype = VM_FAULT_WRITE then
    match check_writable_segment as actual_address with
    | none => none
    | some (err, as1) =>
      if err ≠ 0 then some (err, as1, cm)
      else vm_fault_resolve faulttype faultaddress as1 cm heap
  else if faulttype = VM_FAULT_READONLY then
    match check_writable_segment as actual_address with
    | none => none
    | some (err, as1) =>
      if err ≠ 0 then some (err, as1, cm)
      else
        match get_page_table_entry as1 faultaddress with
        | none => none
        | some _ => some (0, as1, cm)
  else some (EINVAL, as, cm)

/-! ## `as_copy` -/

/-- The segment loop of `as_copy`, `for (i = 1; i < num_segments; i++)`: the first
argument is the part of the old segment array that is still to be copied, the last
one the segment array of the new address space. `Except.error e` is `return e`. -/
def as_copy_segments : List segment → Nat → List segment → Except Nat (List segment × Nat)
  | [], heap, new_array => .ok (new_array, heap)
  | curr_segment :: rest, heap, new_array =>
    match kmalloc heap with
    | none => .error ENOMEM
    | some heap1 =>
      let new_segment : segment :=
        { segment_start := curr_segment.segment_start,
          segment_end := curr_segment.segment_end,
          readable := curr_segment.readable,
          writeable := curr_segment.writeable,
          executable := curr_segment.executable,
          originally_writeable := curr_segment.originally_writeable }
      as_copy_segments rest heap1 (new_array ++ [new_segment])

/-- The page-table loop of `as_copy`, `for (i = 0; i < num_pt_entries; i++)`: the
first argument is the part of the old page table that is still to be copied. The
result is the error code, the new page table and the core map; `none` is the failed
`KASSERT` on the alignment of the frame. The contents of frames are not part of the
state, so `memcpy` has no effect here. -/
def as_copy_ptes : List page_table_ → Nat → core_map_state → List page_table_ →
    Option (Nat × List page_table_ × core_map_state)
  | [], _, cm, new_array => some (0, new_array, cm)
  | curr_pte :: rest, heap, cm, new_array =>
    match kmalloc heap with
    | none => some (ENOMEM, new_array, cm)
    | some heap1 =>
      match getppages cm 1 with
      | none => none
      | some (new_paddr, cm1) =>
        if new_paddr = 0 then some (ENOMEM, new_array, cm1)
        else if new_paddr ≠ new_paddr &&& PAGE_FRAME then none
        else
          let new_pte : page_table_ :=
            { virtual_page_number := curr_pte.virtual_page_number,
              physical_page_number := new_paddr }
          as_copy_ptes rest heap1 cm1 (new_array ++ [new_pte])

/-- The function `as_copy`: the error code, the address space stored in `*ret` (`none`
when nothing is stored) and the core map. -/
def as_copy (old : addrspace) (cm : core_map_state) (heap : Nat) :
    Option (Nat × Option addrspace × core_map_state) :=
  match as_create heap with
  | none => none
  | some (none, _) => some (ENOMEM, none, cm)
  | some (some newas, heap1) =>
    match as_copy_segments (old.as_segment_array.drop 1) heap1 newas.as_segment_array with
    | .error e => some (e, none, cm)
    | .ok (new_segments, heap2) =>
      match old.as_segment_array.get? 0, new_segments.get? 0 with
      | some old_heap_segment, some new_heap_segment =>
        let new_heap_segment := { new_heap_segment with
          segment_start := old_heap_segment.segment_start,
          segment_end := old_heap_segment.segment_end }
        let newas := { newas with
          as_segment_array := new_segments.set 0 new_heap_segment,
          as_stack_base := old.as_stack_base,
          as_stack_top := old.as_stack_top }
        match as_copy_ptes old.as_pt_array heap2 cm newas.as_pt_array with
        | none => none
        | some (err, new_ptes, cm1) =>
          if err ≠ 0 then some (err, none, cm1)
          else some (0, some { newas with as_pt_array := new_ptes }, cm1)
      | _, _ => none

/-! ## `as_copy` and the contents of frames

The contents of memory are a function from kernel virtual addresses (the window
through which `as_copy` reaches frames) to bytes. The functions of this section run
the same steps as `as_copy_ptes` and `as_copy` and return what `memcpy` leaves. -/

/-- Modelled from the spec: `memcpy` is a library function outside the sources; it
copies `len` bytes from `src` to `dst`. -/
def memcpy (mem : Nat → Nat) (dst src len : Nat) : Nat → Nat :=
  fun a => if dst ≤ a ∧ a < dst + len then mem (src + (a - dst)) else mem a

/-- The page-table loop of `as_copy` on the contents of memory: every iteration that
reaches `memcpy` copies `PAGE_SIZE` bytes from the old frame to the new one. -/
def as_copy_ptes_memcpy : List page_table_ → Nat → core_map_state → (Nat → Nat) →
    Option (Nat → Nat)
  | [], _, _, mem => some mem
  | curr_pte :: rest, heap, cm, mem =>
    match kmalloc heap with
    | none => some mem
    | some heap1 =>
      match getppages cm 1 with
      | none => none
      | some (new_paddr, cm1) =>
        if new_paddr = 0 then some mem
        else if new_paddr ≠ new_paddr &&& PAGE_FRAME then none
        else
          as_copy_ptes_memcpy rest heap1 cm1
            (memcpy mem (PADDR_TO_KVADDR new_paddr)
              (PADDR_TO_KVADDR curr_pte.physical_page_number) PAGE_SIZE)

/-- The function `as_copy` on the contents of memory. -/
def as_copy_memcpy (old : addrspace) (cm : core_map_state) (heap : Nat) (mem : Nat → Nat) :
    Option (Nat → Nat) :=
  match as_create heap with
  | none => none
  | some (none, _) => some mem
  | some (some newas, heap1) =>
    match as_copy_segments (old.as_segment_array.drop 1) heap1 newas.as_segment_array with
    | .error _ => some mem
    | .ok (new_segments, heap2) =>
      match old.as_segment_array.get? 0, new_segments.get? 0 with
      | some _, some _ => as_copy_ptes_memcpy old.as_pt_array heap2 cm mem
      | _, _ => none

/-! ## `as_destroy` -/

/-- The page-table loop of `as_destroy`,
`index = num - 1; while (index >= 0)
   { cur_pte = get(index); remove(index); free_page(cur_pte->physical_page_number);
     index -= 1; }`.
The first argument counts the iterations that are left, `index + 1`. -/
def as_destroy_ptes : Nat → List page_table_ → core_map_state →
    Option (List page_table_ × core_map_state)
  | 0, pt, cm => some (pt, cm)
  | index + 1, pt, cm =>
    match pt.get? index with
    | none => none
    | some cur_pte =>
      match free_page cm cur_pte.physical_page_number with
      | none => none
      | some cm1 => as_destroy_ptes index (pt.eraseIdx index) cm1

/-- The segment loop of `as_destroy`, which removes the segments from the highest
index down. -/
def as_destroy_segments : Nat → List segment → Option (List segment)
  | 0, segs => some segs
  | index + 1, segs =>
    match segs.get? index with
    | none => none
    | some _ => as_destroy_segments index (segs.eraseIdx index)

/-- The function `as_destroy`: the core map it leaves (the address space is freed).
The two `KASSERT`s want the arrays empty after their loops. -/
def as_destroy (as : addrspace) (cm : core_map_state) : Option core_map_state :=
  match as_destroy_ptes as.as_pt_array.length as.as_pt_array cm with
  | none => none
  | some (pt, cm1) =>
    if pt.length ≠ 0 then none
    else
      match as_destroy_segments as.as_segment_array.length as.as_segment_array with
      | none => none
      | some segs => if segs.length ≠ 0 then none else some cm1

/-! ## `sys_sbrk` -/

/-- The sum of a 32-bit unsigned value and a signed `ssize_t`, computed as C does:
the signed operand is converted to unsigned and the sum wraps modulo `2 ^ 32`. -/
def u32_add (a : Nat) (amount : Int) : Nat := (((a : Int) + amount) % 2 ^ 32).toNat

/-- The conversion of a 32-bit unsigned value to `int32_t` (the assignment
`*ret_addr = old_break`). -/
def to_int32 (v : Nat) : Int :=
  if v % 2 ^ 32 < 2 ^ 31 then ((v % 2 ^ 32 : Nat) : Int) else ((v % 2 ^ 32 : Nat) : Int) - 2 ^ 32

/-- The function `sys_sbrk` on the address space of the current process: the error
code, the value stored in `*ret_addr` and the address space. `amount` is a signed
32-bit value; `%` on it is the C remainder. -/
def sys_sbrk (curr_as : addrspace) (amount : Int) : Option (Nat × Int × addrspace) :=
  match curr_as.as_segment_array.get? 0 with
  | none => none
  | some heap_segment =>
    let old_break := heap_segment.segment_end
    if amount = 0 then some (0, to_int32 old_break, curr_as)
    else if Int.tmod amount PAGE_SIZE ≠ 0 then some (EINVAL, -1, curr_as)
    else if u32_add heap_segment.segment_end amount ≥ curr_as.as_stack_top then
      some (EINVAL, -1, curr_as)
    else if u32_add heap_segment.segment_end amount < heap_segment.segment_start then
      some (EINVAL, -1, curr_as)
    else
      let new_heap : segment :=
        { heap_segment with segment_end := u32_add heap_segment.segment_end amount }
      some (0, to_int32 old_break,
        { curr_as with as_segment_array := curr_as.as_segment_array.set 0 new_heap })

/-! ## Processes and the PID table (`proc.h`, `proc.c`)

A `struct proc *` that is stored in a child array is embedded as the process it points
to: a process is entered in the child array of its parent only (`sys_fork`), so the
processes that can be reached from a process through child arrays form a tree, and that
tree is a value of type `proc`. The back pointer `p_parent_process` is embedded by
handing the parent to the function that follows it. The members of `struct proc` that
the process-lifecycle code does not branch on (name, address space, working directory,
descriptor table, locks and condition variable) are not part of `proc`. The thread
array `p_threads` is not part of `proc` either: where `proc_destroy` asserts on it, the
number of its entries is given by a function `p_threads` from the PID of a process.
Locks are not part of the state; `cv_wait` is the outcome `waits`. -/

/-- Modelled from the spec: `PID_MIN` of `limits.h` (not among the sources); the spec
gives the lowest allocatable PID as `PID_MIN` (2). -/
def PID_MIN : Int := 2

/-- The constant `PID_MAX` of `limits.h` (not among the sources) is a parameter of the
embedding: the array `process_ID_table` is declared with `PID_MAX + 1` entries, so
`PID_MAX` is read off the table. -/
def PID_MAX (process_ID_table : List Nat) : Int := (process_ID_table.length : Int) - 1

/-- Modelled from the spec: error code *proc-limit* of `kern/errno.h` (not among the
sources). -/
def ENPROC : Nat := 12

/-- Modelled from the spec: error code *no-such-process* of `kern/errno.h` (not among
the sources). -/
def ESRCH : Nat := 15

/-- Modelled from the spec: error code *no-child* of `kern/errno.h` (not among the
sources). -/
def ECHILD : Nat := 16

/-- The struct `proc`, with its child array holding the children themselves. -/
inductive proc where
  | mk (p_process_id : Int) (p_child_process_arr : List proc) (p_child_index : Nat)
      (p_num_children_running : Int) (p_exit_status : Int) (p_is_zombie : Nat) : proc

/-- The member `p_process_id`. -/
def proc.p_process_id : proc → Int
  | .mk pid _ _ _ _ _ => pid

/-- The member `p_child_process_arr`. -/
def proc.p_child_process_arr : proc → List proc
  | .mk _ arr _ _ _ _ => arr

/-- The member `p_child_index`. -/
def proc.p_child_index : proc → Nat
  | .mk _ _ index _ _ _ => index

/-- The member `p_num_children_running`. -/
def proc.p_num_children_running : proc → Int
  | .mk _ _ _ n _ _ => n

/-- The member `p_exit_status`. -/
def proc.p_exit_status : proc → Int
  | .mk _ _ _ _ status _ => status

/-- The member `p_is_zombie`. -/
def proc.p_is_zombie : proc → Nat
  | .mk _ _ _ _ _ zombie => zombie

/-- The assignment `p->p_process_id = pid`. -/
def proc.set_process_id : proc → Int → proc
  | .mk _ arr index n status zombie, pid => .mk pid arr index n status zombie

/-- The assignment of a new child array to `p->p_child_process_arr`. -/
def proc.set_child_process_arr : proc → List proc → proc
  | .mk pid _ index n status zombie, arr => .mk pid arr index n status zombie

/-- The assignment `p->p_child_index = index`. -/
def proc.set_child_index : proc → Nat → proc
  | .mk pid arr _ n status zombie, index => .mk pid arr index n status zombie

/-- The assignment `p->p_num_children_running = n`. -/
def proc.set_num_children_running : proc → Int → proc
  | .mk pid arr index _ status zombie, n => .mk pid arr index n status zombie

/-- The assignment `p->p_exit_status = status`. -/
def proc.set_exit_status : proc → Int → proc
  | .mk pid arr index n _ zombie, status => .mk pid arr index n status zombie

/-- The assignment `p->p_is_zombie = zombie`. -/
def proc.set_is_zombie : proc → Nat → proc
  | .mk pid arr index n status _, zombie => .mk pid arr index n status zombie

/-- The loop of `get_process_id`,
`for (current_pid = PID_MIN; current_pid <= PID_MAX; current_pid++)`. The first argument
counts the iterations that are left. The result is the returned PID and the table. -/
def get_process_id_loop (process_ID_table : List Nat) : Nat → Int → Option (Int × List Nat)
  | 0, _ => some (0, process_ID_table)
  | left + 1, current_pid =>
    match process_ID_table.get? current_pid.toNat with
    | none => none
    | some v =>
      if v = 0 then some (current_pid, process_ID_table.set current_pid.toNat 1)
      else get_process_id_loop process_ID_table left (current_pid + 1)

/-- The function `get_process_id`. -/
def get_process_id (process_ID_table : List Nat) : Option (Int × List Nat) :=
  get_process_id_loop process_ID_table (PID_MAX process_ID_table - PID_MIN + 1).toNat PID_MIN

/-- The function `dealloc_process_id`: its result and the table. -/
def dealloc_process_id (process_ID_table : List Nat) (pid_to_dealloc : Int) :
    Int × List Nat :=
  if pid_to_dealloc < PID_MIN ∨ pid_to_dealloc > PID_MAX process_ID_table then
    (-1, process_ID_table)
  else (0, process_ID_table.set pid_to_dealloc.toNat 0)

/-- The function `get_pid_status`. Past the range test the index is inside the table. -/
def get_pid_status (process_ID_table : List Nat) (pid : Int) : Nat :=
  if pid < PID_MIN ∨ pid > PID_MAX process_ID_table then 2
  else process_ID_table.getD pid.toNat 0

/-- Modelled from the spec: `threadarray_cleanup` belongs to `array.c`, which is not
among the sources; it asserts that the array is empty (a broken invariant makes the
kernel panic). The argument is the number of threads in the array, `none` the failed
assertion. -/
def threadarray_cleanup (num : Nat) : Option Unit := if num = 0 then some () else none

/-- Modelled from the spec: `array_destroy` belongs to `array.c`, which is not among the
sources; it asserts that the array is empty before it frees it (the comments of
`proc_destroy` say 'Empty array before destroying' and 'Array empty for sure'). The
argument is the array, `none` the failed assertion. -/
def array_destroy (a : List proc) : Option Unit := if a.length = 0 then some () else none

mutual
/-- The function `proc_destroy`, its effect on the PID table: `dealloc_process_id` of
the process, `threadarray_cleanup` of its thread array (`p_threads pid` threads), then the
loop `index = array_num - 1; while (index > 0)` that destroys the children at the indices
`array_num - 1, ..., 1`, and `array_destroy` of the child array, in which the loop has
left the child at index 0 (see `proc_destroy_child_array`). The result is `none` when an
assertion fails. The process is nobody's child afterwards, so nothing else of it stays in
the state. -/
def proc_destroy (p_threads : Int → Nat) : proc → List Nat → Option (List Nat)
  | .mk pid [] _ _ _ _, process_ID_table =>
    match threadarray_cleanup (p_threads pid) with
    | none => none
    | some _ =>
      match array_destroy [] with
      | none => none
      | some _ => some (dealloc_process_id process_ID_table pid).2
  | .mk pid (first_child :: rest) _ _ _ _, process_ID_table =>
    match threadarray_cleanup (p_threads pid) with
    | none => none
    | some _ =>
      match proc_destroy_children p_threads rest
          (dealloc_process_id process_ID_table pid).2 with
      | none => none
      | some process_ID_table1 =>
        match array_destroy [first_child] with
        | none => none
        | some _ => some process_ID_table1
/-- The loop of `proc_destroy` over the children at the indices above 0, highest
index first. -/
def proc_destroy_children (p_threads : Int → Nat) : List proc → List Nat → Option (List Nat)
  | [], process_ID_table => some process_ID_table
  | cur_child :: rest, process_ID_table =>
    match proc_destroy_children p_threads rest process_ID_table with
    | none => none
    | some process_ID_table1 => proc_destroy p_threads cur_child process_ID_table1
end

/-- The loop `while (index > 0)` at the end of `proc_destroy`, on the child array: the
first argument is `index`. Each iteration hands the child at `index` to `proc_destroy`
and removes it with `array_remove`; `array_get` asserts that the index is inside the
array. The result is the array when the loop is left. -/
def proc_destroy_child_loop : Nat → List proc → Option (List proc)
  | 0, arr => some arr
  | index + 1, arr =>
    match arr.get? (index + 1) with
    | none => none
    | some _ => proc_destroy_child_loop index (arr.eraseIdx (index + 1))

/-- The end of `proc_destroy`, `int index = array_num(proc->p_child_process_arr) - 1`
followed by the loop: the child array that is handed to `array_destroy`. For an empty
array `index` is -1 and the loop is not entered, as for `index = 0`. -/
def proc_destroy_child_array (p : proc) : Option (List proc) :=
  let index : Int := (p.p_child_process_arr.length : Int) - 1
  proc_destroy_child_loop index.toNat p.p_child_process_arr

/-! ## `sys_waitpid` -/

/-- What the scan of the child array in `sys_waitpid` ends with. -/
inductive waitpid_scan where
  | not_found : waitpid_scan
  | found (exit_status : Int) : waitpid_scan
  | waits : waitpid_scan

/-- The scan of `sys_waitpid`, `for (i = 0; i < num_children; i++)`, over the part of
the child array that is still to be looked at. A child with the PID that is not a
zombie makes the caller sleep in `cv_wait`. -/
def sys_waitpid_scan (pid : Int) : List proc → waitpid_scan
  | [] => .not_found
  | cur_child :: rest =>
    if cur_child.p_process_id = pid then
      if cur_child.p_is_zombie = 1 then .found cur_child.p_exit_status
      else if cur_child.p_is_zombie = 0 then .waits
      else .found cur_child.p_exit_status
    else sys_waitpid_scan pid rest

/-- How a call of `sys_waitpid` ends: it returns the error code `err`, with the value
stored in `*ret_pid` and the value copied out to `*status` when they are written, or
the caller sleeps in `cv_wait` until the child exits. -/
inductive waitpid_result where
  | returned (err : Nat) (ret_pid : Option Int) (status : Option Int) : waitpid_result
  | waits : waitpid_result

/-- The function `sys_waitpid`, called by `curproc`. `status_null` says that the pointer
`status` is `NULL`; `copyout_result` is what `copyout` returns for it otherwise. The
process and the PID table are handed back as they are after the call. -/
def sys_waitpid (curproc : proc) (process_ID_table : List Nat) (pid : Int)
    (status_null : Bool) (options : Int) (copyout_result : Nat) :
    waitpid_result × proc × List Nat :=
  if options ≠ 0 then (.returned EINVAL none none, curproc, process_ID_table)
  else if pid < PID_MIN ∨ pid > PID_MAX process_ID_table then
    (.returned ESRCH none none, curproc, process_ID_table)
  else if get_pid_status process_ID_table pid = 0 then
    (.returned ESRCH none none, curproc, process_ID_table)
  else
    match sys_waitpid_scan pid curproc.p_child_process_arr with
    | .waits => (.waits, curproc, process_ID_table)
    | .not_found => (.returned ECHILD none none, curproc, process_ID_table)
    | .found exit_status =>
      if status_null then (.returned 0 (some pid) none, curproc, process_ID_table)
      else if copyout_result ≠ 0 then
        (.returned copyout_result none none, curproc, process_ID_table)
      else (.returned 0 (some pid) (some exit_status), curproc, process_ID_table)

/-! ## `sys__exit` -/

/-- The statement `update_child->p_child_index -= 1` on the `unsigned` member. -/
def proc.dec_child_index (update_child : proc) : proc :=
  update_child.set_child_index ((update_child.p_child_index + 2 ^ 32 - 1) % 2 ^ 32)

/-- The inner loop of the reaping loop, `for (j = i; j < num_elements; j++)`, which
decrements `p_child_index` of the children behind the removed one. The first argument
counts the iterations that are left. -/
def sys__exit_update : Nat → Nat → List proc → Option (List proc)
  | 0, _, arr => some arr
  | left + 1, j, arr =>
    match arr.get? j with
    | none => none
    | some update_child =>
      sys__exit_update left (j + 1) (arr.set j update_child.dec_child_index)

/-- The reaping loop of `sys__exit`,
`for (i = 0; i < num_children_tracked; i++)`, with `i` and `num_children_tracked` as the
body changes them. The first argument bounds the number of iterations; the result is
`none` when it is used up before the loop condition fails, when an index is outside
the array, and when an assertion inside `proc_destroy` fails. The state is the child
array of `curproc`, the PID table and the list of the children on which `proc_destroy`
was called, in the order of the calls. -/
def sys__exit_reap (p_threads : Int → Nat) : Nat → Int → Int → List proc → List Nat →
    List proc → Option (List proc × List Nat × List proc)
  | 0, i, num_children_tracked, arr, process_ID_table, destroyed =>
    if i < num_children_tracked then none else some (arr, process_ID_table, destroyed)
  | fuel + 1, i, num_children_tracked, arr, process_ID_table, destroyed =>
    if i < num_children_tracked then
      if i < 0 then none
      else
        match arr.get? i.toNat with
        | none => none
        | some cur_child =>
          if cur_child.p_is_zombie = 1 then
            match proc_destroy p_threads cur_child process_ID_table with
            | none => none
            | some process_ID_table1 =>
              let arr1 := arr.eraseIdx i.toNat
              let num_elements : Int := arr1.length
              match sys__exit_update (num_elements - i).toNat i.toNat arr1 with
              | none => none
              | some arr2 =>
                if num_elements ≠ num_children_tracked then
                  sys__exit_reap p_threads fuel (i - 1 + 1) num_elements arr2
                    process_ID_table1 (destroyed ++ [cur_child])
                else
                  sys__exit_reap p_threads fuel (i + 1) num_children_tracked arr2
                    process_ID_table1 (destroyed ++ [cur_child])
          else
            let num_elements := num_children_tracked
            if num_elements ≠ num_children_tracked then
              sys__exit_reap p_threads fuel (i - 1 + 1) num_elements arr process_ID_table
                destroyed
            else
              sys__exit_reap p_threads fuel (i + 1) num_children_tracked arr
                process_ID_table destroyed
    else some (arr, process_ID_table, destroyed)

/-- The state after `sys__exit`: the exiting process, its parent, the PID table and the
processes on which `proc_destroy` was called, in the order of the calls. -/
structure exit_state where
  curproc : proc
  parent_process : proc
  process_ID_table : List Nat
  destroyed : List proc

/-- The function `sys__exit`, called by a thread of `curproc`, whose `p_parent_process`
points to `parent_process`. The macro `_MKWAIT_EXIT` of `kern/wait.h` (not among the
sources) is an argument. `p_threads pid` is the number of threads in the thread array of
the process with the PID `pid`. When the parent is a zombie, `proc_destroy(curproc)` is
called before `thread_exit`, so the thread array of `curproc` holds the calling thread,
at least one thread. `thread_exit` does not return and is not part of the state. -/
def sys__exit (p_threads : Int → Nat) (curproc parent_process : proc)
    (process_ID_table : List Nat) (exitcode : Int) (_MKWAIT_EXIT : Int → Int) :
    Option exit_state :=
  let num_children_tracked := curproc.p_child_process_arr.length
  match sys__exit_reap p_threads num_children_tracked 0 num_children_tracked
      curproc.p_child_process_arr process_ID_table [] with
  | none => none
  | some (arr, process_ID_table1, destroyed) =>
    let curproc1 := curproc.set_child_process_arr arr
    if parent_process.p_is_zombie = 1 then
      let curproc2 := (curproc1.set_is_zombie 1).set_exit_status (_MKWAIT_EXIT exitcode)
      match proc_destroy
          (fun pid => if pid = curproc.p_process_id then max 1 (p_threads pid)
            else p_threads pid)
          curproc2 process_ID_table1 with
      | none => none
      | some process_ID_table2 =>
        some { curproc := curproc2, parent_process := parent_process,
               process_ID_table := process_ID_table2,
               destroyed := destroyed ++ [curproc2] }
    else
      let parent1 := parent_process.set_num_children_running
        (parent_process.p_num_children_running - 1)
      let curproc2 := (curproc1.set_exit_status (_MKWAIT_EXIT exitcode)).set_is_zombie 1
      some { curproc := curproc2, parent_process := parent1,
             process_ID_table := process_ID_table1, destroyed := destroyed }

/-! ## Sleep locks (`synch.c`)

A lock is held when `lk_flag` is true. The model runs the calling thread only, so a
`lock_acquire` that finds `lk_flag` true puts the thread to sleep and nothing wakes it:
the call does not return. -/

/-- The struct `lock` without its name, wait channel and spinlock: `lk_flag` and
`lk_owner` (`none` for `NULL`, otherwise the thread). -/
structure lock where
  lk_flag : Bool
  lk_owner : Option Nat
  deriving DecidableEq, Repr

/-- The outcome of a call that may have to wait for a lock: the call returns a value,
or the calling thread sleeps in `wchan_sleep` inside `lock_acquire`. -/
inductive call (α : Type) where
  | returns (a : α)
  | sleeps
  deriving DecidableEq, Repr

/-- The lock that `lock_create` returns. -/
def lock_create : lock := { lk_flag := false, lk_owner := none }

/-- The function `lock_acquire`, called by the thread `curthread`: the lock when the
call returns. `while (lock->lk_flag == true) wchan_sleep(...)` comes before any look at
`lk_owner`. -/
def lock_acquire (curthread : Nat) (lk : lock) : call lock :=
  if lk.lk_flag = true then .sleeps
  else .returns { lk with lk_flag := true, lk_owner := some curthread }

/-- The function `lock_release`: it clears `lk_flag` and `lk_owner`, whoever holds the
lock. -/
def lock_release (lk : lock) : lock := { lk with lk_flag := false, lk_owner := none }

/-- The function `lock_do_i_hold`, called by the thread `curthread`. -/
def lock_do_i_hold (curthread : Nat) (lk : lock) : Bool :=
  lk.lk_owner = some curthread && lk.lk_flag = true

/-! ## `sys_fork` -/

/-- The outcomes of the steps of `sys_fork` and `proc_create_runprogram` that lie
outside the process state, and the indeterminate contents of a fresh `struct proc`
(`kmalloc` does not clear it). `fd_table_copy_entries_result` is the outcome of the call
of `fd_table_copy_entries` on the descriptor tables: no defined result, asleep on a
lock, or the value it returns. -/
structure fork_env where
  kstrdup_ok : Bool
  proc_create_ok : Bool
  console_ok : Bool
  fresh_process_id : Int
  fresh_child_index : Nat
  fd_table_copy_entries_result : Option (call Int)
  as_copy_result : Nat
  kmalloc_ok : Bool
  thread_fork_result : Nat

/-- The function `proc_create`: `none` for `NULL`. The members it does not set keep
their indeterminate contents. -/
def proc_create (env : fork_env) : Option proc :=
  if env.proc_create_ok then
    some (.mk env.fresh_process_id [] env.fresh_child_index 0 0 0)
  else none

/-- The function `proc_create_runprogram`: the new process (`none` for `NULL`) and the
PID table. `console_ok` says that `kmalloc(PATH_MAX)` and the three `fd_create` calls
succeed. When one of them fails, and when `get_process_id` returns 0, the source hands
the descriptor table to `fd_table_destroy` and the process to `proc_destroy`, which hands
the freed table to `fd_table_destroy` once more: these paths have no defined result. -/
def proc_create_runprogram (process_ID_table : List Nat) (env : fork_env) :
    Option (Option proc × List Nat) :=
  match proc_create env with
  | none => some (none, process_ID_table)
  | some newproc =>
    if !env.console_ok then none
    else
      match get_process_id process_ID_table with
      | none => none
      | some (new_process_id, process_ID_table1) =>
        if new_process_id = 0 then none
        else some (some (newproc.set_process_id new_process_id), process_ID_table1)

/-- The state after `sys_fork`: the error code, the value stored in `*ret_pid`, the
calling process and the PID table. -/
structure fork_state where
  err : Nat
  ret_pid : Option Int
  curproc : proc
  process_ID_table : List Nat

/-- The function `sys_fork`, called by `curproc`. The value that `fd_table_copy_entries`
returns is not looked at. `array_add` appends and returns the former length as `index`;
the new entry points to the child, so the assignment to `p_child_index` is seen through
the array. When `thread_fork` fails the child is handed to `proc_destroy` and its entry
stays in the array, as in the source. The child that `proc_destroy` gets on the failure
paths has no thread yet (`proc_create` makes the thread array empty and a `thread_fork`
that fails adds none). -/
def sys_fork (curproc : proc) (process_ID_table : List Nat) (env : fork_env) :
    Option (call fork_state) :=
  if !env.kstrdup_ok then
    some (.returns { err := ENOMEM, ret_pid := none, curproc := curproc,
                     process_ID_table := process_ID_table })
  else
    match proc_create_runprogram process_ID_table env with
    | none => none
    | some (none, process_ID_table1) =>
      some (.returns { err := ENPROC, ret_pid := none, curproc := curproc,
                       process_ID_table := process_ID_table1 })
    | some (some new_child_process, process_ID_table1) =>
      let new_process_id := new_child_process.p_process_id
      match env.fd_table_copy_entries_result with
      | none => none
      | some .sleeps => some .sleeps
      | some (.returns _) =>
        if env.as_copy_result ≠ 0 then
          (proc_destroy (fun _ => 0) new_child_process process_ID_table1).map
            (fun process_ID_table2 => .returns
              { err := env.as_copy_result, ret_pid := none, curproc := curproc,
                process_ID_table := process_ID_table2 })
        else if !env.kmalloc_ok then
          (proc_destroy (fun _ => 0) new_child_process process_ID_table1).map
            (fun process_ID_table2 => .returns
              { err := ENOMEM, ret_pid := none, curproc := curproc,
                process_ID_table := process_ID_table2 })
        else
          let index := curproc.p_child_process_arr.length
          let curproc1 :=
            curproc.set_num_children_running (curproc.p_num_children_running + 1)
          let new_child_process1 := new_child_process.set_child_index index
          let curproc2 := curproc1.set_child_process_arr
            (curproc.p_child_process_arr ++ [new_child_process1])
          if env.thread_fork_result ≠ 0 then
            (proc_destroy (fun _ => 0) new_child_process1 process_ID_table1).map
              (fun process_ID_table2 => .returns
                { err := env.thread_fork_result, ret_pid := none, curproc := curproc2,
                  process_ID_table := process_ID_table2 })
          else
            some (.returns
              { err := 0, ret_pid := some new_process_id, curproc := curproc2,
                process_ID_table := process_ID_table1 })

/-! ## File descriptors and the descriptor table (`fd.h`, `fd.c`)

A pointer to an object of the kernel heap is an index: into the `struct fd` objects,
into the string buffers that `kmalloc(PATH_MAX)` returns, into the vnodes. `kmalloc`
hands out a new index; `kfree` leaves `none` at the index, and a read through a pointer
to a freed object has no defined result (`none`), like the dereference of `NULL`. The
locks of `struct fd` and `struct fd_table` are not members of the structures below: a
function that is entered with the lock free takes it and gives it back. Where a function
is entered with a lock held (`fd_create_at_pos` inside `fd_table_copy_entries`), the lock
is an argument of its own, and `sys_lseek_fd_lock` lists what `sys_lseek` does to the
lock of a descriptor. -/

/-- Modelled from the spec: error code *too-many-open-files* of `kern/errno.h` (not
among the sources). -/
def EMFILE : Nat := 28

/-- Modelled from the spec: error code *bad-fd* of `kern/errno.h` (not among the
sources). -/
def EBADF : Nat := 30

/-- Modelled from the spec: error code *seek-on-pipe* of `kern/errno.h` (not among the
sources). -/
def ESPIPE : Nat := 33

/-- Modelled from the spec: open flag *read-only* of `kern/fcntl.h` (not among the
sources). -/
def O_RDONLY : Int := 0

/-- Modelled from the spec: open flag *write-only* of `kern/fcntl.h` (not among the
sources). -/
def O_WRONLY : Int := 1

/-- Modelled from the spec: `whence` value SET of `kern/seek.h` (not among the
sources). -/
def SEEK_SET : Int := 0

/-- Modelled from the spec: `whence` value CUR of `kern/seek.h` (not among the
sources). -/
def SEEK_CUR : Int := 1

/-- Modelled from the spec: `whence` value END of `kern/seek.h` (not among the
sources). -/
def SEEK_END : Int := 2

/-- The struct `fd` without its lock: `fd_file_name` points to a string buffer,
`fd_vnode` to a vnode; `fd_seek_pos` is a signed 64-bit `off_t`. -/
structure fd where
  fd_file_name : Nat
  fd_vnode : Nat
  fd_seek_pos : Int
  fd_flags : Int
  deriving DecidableEq, Repr

/-- The struct `fd_table` without its lock: the array `all_fds`, `none` for `NULL`. -/
structure fd_table where
  all_fds : List (Option Nat)
  deriving DecidableEq, Repr

/-- Modelled from the spec: `OPEN_MAX` of `limits.h` (not among the sources) is the
width of the array `all_fds[OPEN_MAX]`; here it is the length of that array. -/
def OPEN_MAX (cur_table : fd_table) : Nat := cur_table.all_fds.length

/-- Modelled from the spec: the file system is an external collaborator (`vfs_open`,
`VOP_ISSEEKABLE`, `VOP_STAT`, not among the sources). Its answers are given by three
functions: the value that `vfs_open` returns for a path and open flags together with the
vnode that it stores when that value is 0, whether a vnode is seekable, and the size
`st_size` that `VOP_STAT` reports. -/
structure vfs where
  lookup : String → Int → Nat × Nat
  isseekable : Nat → Bool
  st_size : Nat → Int

/-- The kernel heap as far as the descriptor code uses it: the number of `kmalloc`
requests that still succeed, the `struct fd` objects, the string buffers, and the
reference count `vn_refcount` of every vnode (0 for a vnode that is closed). -/
structure kheap where
  heap : Nat
  fds : List (Option fd)
  bufs : List (Option String)
  vn_refcount : Nat → Nat

/-- The object that a `struct fd *` points to, `none` when it has been freed. -/
def fd_deref (h : kheap) (p : Nat) : Option fd := (h.fds.get? p).join

/-- The string that a `char *` points to, `none` when the buffer has been freed. -/
def buf_deref (h : kheap) (p : Nat) : Option String := (h.bufs.get? p).join

/-- The assignment `vn->vn_refcount = n`. -/
def kheap.set_refcount (h : kheap) (vn n : Nat) : kheap :=
  { h with vn_refcount := Function.update h.vn_refcount vn n }

/-- The heap after `kfree` of a `struct fd`. -/
def kheap.kfree_fd (h : kheap) (p : Nat) : kheap := { h with fds := h.fds.set p none }

/-- The heap after `kfree` of a string buffer. -/
def kheap.kfree_buf (h : kheap) (p : Nat) : kheap := { h with bufs := h.bufs.set p none }

/-- Modelled from the spec: `VOP_INCREF`, a vnode reference-count hook outside the
sources, takes one more reference to an open vnode. -/
def VOP_INCREF (h : kheap) (vn : Nat) : Option kheap :=
  if h.vn_refcount vn = 0 then none else some (h.set_refcount vn (h.vn_refcount vn + 1))

/-- Modelled from the spec: `VOP_DECREF`, a vnode reference-count hook outside the
sources, drops one reference to an open vnode; the vnode is closed when the last one
is dropped. -/
def VOP_DECREF (h : kheap) (vn : Nat) : Option kheap :=
  if h.vn_refcount vn = 0 then none else some (h.set_refcount vn (h.vn_refcount vn - 1))

/-- Modelled from the spec: `vfs_close` (outside the sources) gives back the reference
that `vfs_open` took; the code calls it on a vnode with reference count 1, which closes
the vnode. -/
def vfs_close (h : kheap) (vn : Nat) : Option kheap :=
  if h.vn_refcount vn = 0 then none else some (h.set_refcount vn (h.vn_refcount vn - 1))

/-- Modelled from the spec: `vfs_open` (outside the sources) opens the vnode of a path:
the value it returns, the vnode it stores and the heap; when it returns 0 the vnode has
one more reference. -/
def vfs_open (fs : vfs) (h : kheap) (path : String) (openflags : Int) : Nat × Nat × kheap :=
  let r := fs.lookup path openflags
  if r.1 ≠ 0 then (r.1, 0, h) else (0, r.2, h.set_refcount r.2 (h.vn_refcount r.2 + 1))

/-- The function `fd_table_create`: a table of `open_max` empty slots, `none` for
`NULL`. -/
def fd_table_create (open_max : Nat) (h : kheap) : Option fd_table × kheap :=
  match kmalloc h.heap with
  | none => (none, h)
  | some heap1 => (some { all_fds := List.replicate open_max none }, { h with heap := heap1 })

/-- The loop of `fd_table_add_fd`, `for (i = 0; i < OPEN_MAX; i++)`, over the slots at
and after `i`: the index of the first empty slot and the slots with the descriptor
stored there, `none` when the loop runs to its end. -/
def fd_table_add_fd_loop (fd_to_add : Nat) :
    List (Option Nat) → Nat → Option (Nat × List (Option Nat))
  | [], _ => none
  | slot :: rest, i =>
    if slot = none then some (i, some fd_to_add :: rest)
    else (fd_table_add_fd_loop fd_to_add rest (i + 1)).map (fun r => (r.1, slot :: r.2))

/-- The function `fd_table_add_fd`: the value it returns and the table. -/
def fd_table_add_fd (fd_to_add : Option Nat) (cur_fd_table : fd_table) : Int × fd_table :=
  match fd_to_add with
  | none => (-1, cur_fd_table)
  | some p =>
    match fd_table_add_fd_loop p cur_fd_table.all_fds 0 with
    | none => (-1, cur_fd_table)
    | some (i, slots) => ((i : Int), { all_fds := slots })

/-- The function `fd_table_remove_fd`. -/
def fd_table_remove_fd (fd : Nat) (cur_fd_table : fd_table) : fd_table :=
  { all_fds := cur_fd_table.all_fds.set fd none }

/-- The function `fd_create`: the error code, the value stored in `*fd_num`, the table
and the heap. The object is allocated by the function itself (the parameter `file_des`
is overwritten at once). When `vfs_open` fails the object stays allocated with its
`fd_vnode` never written (0 here; nothing points to the object). -/
def fd_create (fs : vfs) (fd_filename : Nat) (fd_flags : Int) (cur_table : fd_table)
    (h : kheap) : Option (Nat × Option Int × fd_table × kheap) :=
  match kmalloc h.heap with
  | none => some (ENOMEM, none, cur_table, h)
  | some heap1 =>
    let file_des := h.fds.length
    match buf_deref h fd_filename with
    | none => none
    | some path =>
      let opened := vfs_open fs h path fd_flags
      let vfs_result := opened.1
      let vn := opened.2.1
      let h1 := opened.2.2
      let h2 : kheap :=
        { h1 with heap := heap1, fds := h.fds ++ [some ⟨fd_filename, vn, 0, fd_flags⟩] }
      if vfs_result ≠ 0 then some (vfs_result, none, cur_table, h2)
      else
        let r := fd_table_add_fd (some file_des) cur_table
        if r.1 = -1 then
          (vfs_close h2 vn).map (fun h3 => (EMFILE, some (-1), cur_table, h3))
        else some (0, some r.1, r.2, h2)

/-- The function `fd_create_at_pos`, called by the thread `curthread`: the error code,
the table, the lock of the table and the heap. `fd_table_lock` is the lock
`cur_table->fd_table_lock`, which the function acquires before it stores the
descriptor. -/
def fd_create_at_pos (fs : vfs) (curthread : Nat) (fd_filename : Nat) (fd_flags : Int)
    (pos : Nat) (cur_table : fd_table) (fd_table_lock : lock) (h : kheap) :
    Option (call (Nat × fd_table × lock × kheap)) :=
  match kmalloc h.heap with
  | none => some (.returns (ENOMEM, cur_table, fd_table_lock, h))
  | some heap1 =>
    let file_des := h.fds.length
    match buf_deref h fd_filename with
    | none => none
    | some path =>
      let opened := vfs_open fs h path fd_flags
      let vfs_result := opened.1
      let vn := opened.2.1
      let h1 := opened.2.2
      let h2 : kheap :=
        { h1 with heap := heap1, fds := h.fds ++ [some ⟨fd_filename, vn, 0, fd_flags⟩] }
      if vfs_result ≠ 0 then some (.returns (vfs_result, cur_table, fd_table_lock, h2))
      else
        match lock_acquire curthread fd_table_lock with
        | .sleeps => some .sleeps
        | .returns fd_table_lock1 =>
          if pos < cur_table.all_fds.length then
            some (.returns (0, { all_fds := cur_table.all_fds.set pos (some file_des) },
              lock_release fd_table_lock1, h2))
          else none

/-- The function `fd_destroy`. The reference count is read through the vnode of the
descriptor, which has to be open. -/
def fd_destroy (fd : Nat) (cur_table : fd_table) (h : kheap) : Option (fd_table × kheap) :=
  match cur_table.all_fds.get? fd with
  | none => none
  | some none => some (cur_table, h)
  | some (some fd_to_destroy) =>
    match fd_deref h fd_to_destroy with
    | none => none
    | some obj =>
      let cur_vnode := obj.fd_vnode
      if h.vn_refcount cur_vnode = 0 then none
      else if h.vn_refcount cur_vnode = 1 then
        match vfs_close h cur_vnode with
        | none => none
        | some h1 => some (fd_table_remove_fd fd cur_table, h1.kfree_fd fd_to_destroy)
      else
        match VOP_DECREF h cur_vnode with
        | none => none
        | some h1 => some (fd_table_remove_fd fd cur_table, h1)

/-- The loop of `fd_table_copy_entries`, `for (i = 3; i < OPEN_MAX; i++)`, over the
slots of the parent at and after `i`, with the lock of the child table as the loop finds
it. `kmalloc(PATH_MAX)` is not tested, so `strcpy` into `NULL` has no defined result; the
value that `fd_create_at_pos` returns is not looked at. -/
def fd_table_copy_entries_loop (fs : vfs) (curthread : Nat) :
    List (Option Nat) → Nat → fd_table → lock → kheap → Option (call (fd_table × lock × kheap))
  | [], _, child_table, child_table_lock, h => some (.returns (child_table, child_table_lock, h))
  | none :: rest, i, child_table, child_table_lock, h =>
    fd_table_copy_entries_loop fs curthread rest (i + 1) child_table child_table_lock h
  | some curr_parent_fd :: rest, i, child_table, child_table_lock, h =>
    match kmalloc h.heap with
    | none => none
    | some heap1 =>
      let new_fd_filename := h.bufs.length
      match fd_deref h curr_parent_fd with
      | none => none
      | some parent_fd =>
        match buf_deref h parent_fd.fd_file_name with
        | none => none
        | some name =>
          let h1 : kheap := { h with heap := heap1, bufs := h.bufs ++ [some name] }
          match fd_create_at_pos fs curthread new_fd_filename parent_fd.fd_flags i child_table
              child_table_lock h1 with
          | none => none
          | some .sleeps => some .sleeps
          | some (.returns (_, child_table1, child_table_lock1, h2)) =>
            fd_table_copy_entries_loop fs curthread rest (i + 1) child_table1
              child_table_lock1 (h2.kfree_buf new_fd_filename)

/-- The function `fd_table_copy_entries` for two tables that are not `NULL`, called by
the thread `curthread`: the value it returns, the child table, the locks
`parent_table->fd_table_lock` and `child_table->fd_table_lock`, and the heap. The
function acquires both locks before the loop and releases them after it. -/
def fd_table_copy_entries (fs : vfs) (curthread : Nat) (parent_table child_table : fd_table)
    (parent_table_lock child_table_lock : lock) (h : kheap) :
    Option (call (Int × fd_table × lock × lock × kheap)) :=
  match lock_acquire curthread parent_table_lock with
  | .sleeps => some .sleeps
  | .returns parent_table_lock1 =>
    match lock_acquire curthread child_table_lock with
    | .sleeps => some .sleeps
    | .returns child_table_lock1 =>
      match fd_table_copy_entries_loop fs curthread (parent_table.all_fds.drop 3) 3
          child_table child_table_lock1 h with
      | none => none
      | some .sleeps => some .sleeps
      | some (.returns (child_table1, child_table_lock2, h1)) =>
        some (.returns (0, child_table1, lock_release parent_table_lock1,
          lock_release child_table_lock2, h1))

/-! ## The descriptor system calls (`sys_open.c`, `sys_dup2.c`, `sys_lseek.c`) -/

/-- The function `sys_open` on the descriptor table of the current process. The user
pointer `filename` is given by whether it is `NULL` and by what `copyinstr` makes of it:
an error code or the string. `kmalloc(PATH_MAX)` is not tested. -/
def sys_open (fs : vfs) (filename_null : Bool) (copyinstr_result : Except Nat String)
    (flags : Int) (cur_fd_table : fd_table) (h : kheap) :
    Option (Nat × Option Int × fd_table × kheap) :=
  if filename_null then some (EFAULT, none, cur_fd_table, h)
  else
    match kmalloc h.heap with
    | none => none
    | some heap1 =>
      let filename_copy := h.bufs.length
      match copyinstr_result with
      | .error error_value =>
        some (error_value, none, cur_fd_table,
          { h with heap := heap1, bufs := h.bufs ++ [none] })
      | .ok name =>
        let h1 : kheap := { h with heap := heap1, bufs := h.bufs ++ [some name] }
        match fd_create fs filename_copy flags cur_fd_table h1 with
        | none => none
        | some (error_value, fd_num, cur_fd_table1, h2) =>
          some (error_value, fd_num, cur_fd_table1, h2.kfree_buf filename_copy)

/-- The function `sys_dup2` on the descriptor table of the current process: the error
code, the value stored in `*new_fd_num`, the table and the heap. -/
def sys_dup2 (oldfd newfd : Int) (cur_proc_fd_table : fd_table) (h : kheap) :
    Option (Nat × Option Int × fd_table × kheap) :=
  if oldfd < 0 ∨ oldfd ≥ OPEN_MAX cur_proc_fd_table ∨ newfd < 0
      ∨ newfd ≥ OPEN_MAX cur_proc_fd_table then
    some (EBADF, none, cur_proc_fd_table, h)
  else if oldfd = newfd then some (0, some newfd, cur_proc_fd_table, h)
  else
    match cur_proc_fd_table.all_fds.get? oldfd.toNat,
        cur_proc_fd_table.all_fds.get? newfd.toNat with
    | some old_given_fd, some new_given_fd =>
      match old_given_fd with
      | none => some (EBADF, none, cur_proc_fd_table, h)
      | some old_given =>
        if fd_deref h old_given = none then none
        else
        match new_given_fd with
        | some new_given =>
          match fd_deref h new_given with
          | none => none
          | some new_obj =>
            let cur_vnode := new_obj.fd_vnode
            if h.vn_refcount cur_vnode = 0 then none
            else
              let closed :=
                if h.vn_refcount cur_vnode = 1 then vfs_close h cur_vnode
                else VOP_DECREF h cur_vnode
              match closed with
              | none => none
              | some h1 =>
                match fd_destroy newfd.toNat cur_proc_fd_table h1 with
                | none => none
                | some (table1, h2) =>
                  let table2 : fd_table :=
                    { all_fds := table1.all_fds.set newfd.toNat (some old_given) }
                  match fd_deref h2 old_given with
                  | none => none
                  | some old_obj =>
                    (VOP_INCREF h2 old_obj.fd_vnode).map
                      (fun h3 => (0, some newfd, table2, h3))
        | none =>
          let table2 : fd_table :=
            { all_fds := cur_proc_fd_table.all_fds.set newfd.toNat (some old_given) }
          match fd_deref h old_given with
          | none => none
          | some old_obj =>
            (VOP_INCREF h old_obj.fd_vnode).map (fun h3 => (0, some newfd, table2, h3))
    | _, _ => none

/-- The conversion of a 64-bit value to `int32_t`. -/
def int32_of (v : Int) : Int := to_int32 (v % 2 ^ 32).toNat

/-- The end of `sys_lseek`: the seek position `seek_pos` is stored in the descriptor
and handed back as `*upper_32_ret = seek_pos >> 32` and
`*lower_32_ret = seek_pos & 0xFFFFFFFF`. -/
def sys_lseek_ret (given_fd : Nat) (obj : fd) (seek_pos : Int) (h : kheap) :
    Option (Nat × Option (Int × Int) × kheap) :=
  some (0, some (int32_of (seek_pos / 2 ^ 32), int32_of (seek_pos % 2 ^ 32)),
    { h with fds := h.fds.set given_fd (some { obj with fd_seek_pos := seek_pos }) })

/-- The sum of two `off_t` values; a signed sum outside 64 bits has no defined
result. -/
def off_t_add (a b : Int) : Option Int :=
  if a + b < -(2 ^ 63) ∨ a + b ≥ 2 ^ 63 then none else some (a + b)

/-- The function `sys_lseek` on the descriptor table of the current process: the error
code, the values stored in `*upper_32_ret` and `*lower_32_ret`, and the heap.
`VOP_ISSEEKABLE` and `VOP_STAT` are asked of the vnode of the descriptor, which has to
be open. -/
def sys_lseek (fs : vfs) (fd : Int) (pos : Int) (whence : Int) (cur_proc_fd_table : fd_table)
    (h : kheap) : Option (Nat × Option (Int × Int) × kheap) :=
  if fd < 0 ∨ fd ≥ OPEN_MAX cur_proc_fd_table then some (EBADF, none, h)
  else
    match cur_proc_fd_table.all_fds.get? fd.toNat with
    | none => none
    | some none => some (EBADF, none, h)
    | some (some given_fd) =>
      match fd_deref h given_fd with
      | none => none
      | some obj =>
        if whence = SEEK_SET then
          if pos < 0 then some (EINVAL, none, h)
          else if h.vn_refcount obj.fd_vnode = 0 then none
          else if fs.isseekable obj.fd_vnode then sys_lseek_ret given_fd obj pos h
          else some (ESPIPE, none, h)
        else if whence = SEEK_CUR then
          match off_t_add obj.fd_seek_pos pos with
          | none => none
          | some new_pos =>
            if new_pos < 0 then some (EINVAL, none, h)
            else if h.vn_refcount obj.fd_vnode = 0 then none
            else if fs.isseekable obj.fd_vnode then sys_lseek_ret given_fd obj new_pos h
            else some (ESPIPE, none, h)
        else if whence = SEEK_END then
          if h.vn_refcount obj.fd_vnode = 0 then none
          else
            match off_t_add (fs.st_size obj.fd_vnode) pos with
            | none => none
            | some new_pos =>
              if new_pos < 0 then some (EINVAL, none, h)
              else if fs.isseekable obj.fd_vnode then sys_lseek_ret given_fd obj new_pos h
              else some (ESPIPE, none, h)
        else some (EINVAL, none, h)

/-- What `sys_lseek` does to the lock `fd_lock` of the descriptor and to its member
`fd_seek_pos`: `lock_acquire(given_fd->fd_lock)`, `lock_release(given_fd->fd_lock)`, an
assignment to `given_fd->fd_seek_pos`. -/
inductive fd_lock_event where
  | acquire
  | release
  | write_seek_pos
  deriving DecidableEq, Repr

/-- The function `sys_lseek` once more, on the side of the lock: the calls of
`lock_acquire` and `lock_release` on `given_fd->fd_lock` and the assignments to
`given_fd->fd_seek_pos`, in the order in which the path through the function makes them.
The case distinction is that of `sys_lseek`. -/
def sys_lseek_fd_lock (fs : vfs) (fd : Int) (pos : Int) (whence : Int)
    (cur_proc_fd_table : fd_table) (h : kheap) : Option (List fd_lock_event) :=
  if fd < 0 ∨ fd ≥ OPEN_MAX cur_proc_fd_table then some []
  else
    match cur_proc_fd_table.all_fds.get? fd.toNat with
    | none => none
    | some none => some []
    | some (some given_fd) =>
      match fd_deref h given_fd with
      | none => none
      | some obj =>
        if whence = SEEK_SET then
          if pos < 0 then some [.acquire, .release]
          else if h.vn_refcount obj.fd_vnode = 0 then none
          else if fs.isseekable obj.fd_vnode then
            some [.acquire, .release, .write_seek_pos, .release]
          else some [.acquire, .release]
        else if whence = SEEK_CUR then
          match off_t_add obj.fd_seek_pos pos with
          | none => none
          | some new_pos =>
            if new_pos < 0 then some [.acquire, .release]
            else if h.vn_refcount obj.fd_vnode = 0 then none
            else if fs.isseekable obj.fd_vnode then
              some [.acquire, .write_seek_pos, .release]
            else some [.acquire, .release]
        else if whence = SEEK_END then
          if h.vn_refcount obj.fd_vnode = 0 then none
          else
            match off_t_add (fs.st_size obj.fd_vnode) pos with
            | none => none
            | some new_pos =>
              if new_pos < 0 then some [.acquire, .release]
              else if fs.isseekable obj.fd_vnode then
                some [.acquire, .write_seek_pos, .release]
              else some [.acquire, .release]
        else some [.acquire]

/-- The function `sys_close` on the descriptor table of the current process: the value
it returns, the table and the heap. -/
def sys_close (fd : Int) (cur_fd_table : fd_table) (h : kheap) :
    Option (Nat × fd_table × kheap) :=
  if fd < 0 ∨ fd ≥ OPEN_MAX cur_fd_table then some (EBADF, cur_fd_table, h)
  else
    match cur_fd_table.all_fds.get? fd.toNat with
    | none => none
    | some none => some (EBADF, cur_fd_table, h)
    | some (some _) => (fd_destroy fd.toNat cur_fd_table h).map (fun r => (0, r.1, r.2))

/-! ## Descriptors at process creation and at fork (`proc.c`, `sys_fork.c`) -/

/-- One of the three blocks `strcpy(filename, "con:"); result = fd_create(...)` of
`proc_create_runprogram`. When `fd_create` fails the table is handed to
`fd_table_destroy` and then, inside `proc_destroy`, to `fd_table_destroy` once more,
which reads the freed table: that path has no defined result. -/
def proc_create_runprogram_console (fs : vfs) (filename : Nat) (flags : Int)
    (p_fd_table : fd_table) (h : kheap) : Option (fd_table × kheap) :=
  let h1 : kheap := { h with bufs := h.bufs.set filename (some "con:") }
  match fd_create fs filename flags p_fd_table h1 with
  | none => none
  | some (result, _, p_fd_table1, h2) => if result ≠ 0 then none else some (p_fd_table1, h2)

/-- The function `proc_create_runprogram` on the descriptor table `p_fd_table` that
`proc_create` made for the new process: the table and the heap when the function gets
past the creation of the three console descriptors. When `kmalloc(PATH_MAX)` or an
`fd_create` fails, the function destroys the table twice (see
`proc_create_runprogram_console`), which has no defined result. -/
def proc_create_runprogram_fds (fs : vfs) (p_fd_table : fd_table) (h : kheap) :
    Option (fd_table × kheap) :=
  match kmalloc h.heap with
  | none => none
  | some heap1 =>
    let filename := h.bufs.length
    let h1 : kheap := { h with heap := heap1, bufs := h.bufs ++ [some ""] }
    match proc_create_runprogram_console fs filename O_RDONLY p_fd_table h1 with
    | none => none
    | some (table1, h2) =>
      match proc_create_runprogram_console fs filename O_WRONLY table1 h2 with
      | none => none
      | some (table2, h3) =>
        match proc_create_runprogram_console fs filename O_WRONLY table2 h3 with
        | none => none
        | some (table3, h4) => some (table3, h4.kfree_buf filename)

/-- The function `sys_fork` on descriptors, up to the call of `fd_table_copy_entries`,
called by the thread `curthread`: the table of the child and the heap. `open_max` is the
width of the table that `fd_table_create` makes inside `proc_create`; `none` for the
table stands for a child that was not created (`proc_create` returned `NULL`).
`parent_table_lock` is the lock of the table of the parent; the lock of the table of the
child is the one that `fd_table_create` got from `lock_create`. -/
def sys_fork_fds (fs : vfs) (curthread : Nat) (open_max : Nat) (parent_table : fd_table)
    (parent_table_lock : lock) (h : kheap) : Option (call (Option fd_table × kheap)) :=
  match fd_table_create open_max h with
  | (none, h1) => some (.returns (none, h1))
  | (some p_fd_table, h1) =>
    match proc_create_runprogram_fds fs p_fd_table h1 with
    | none => none
    | some (child_table, h2) =>
      match fd_table_copy_entries fs curthread parent_table child_table parent_table_lock
          lock_create h2 with
      | none => none
      | some .sleeps => some .sleeps
      | some (.returns (_, child_table1, _, _, h3)) => some (.returns (some child_table1, h3))

/-! ## Auxiliary notions for the statements -/

/-- The frames `i .. i + n - 1` all exist in the core map and are free. -/
def free_run (cm : List core_map_entry) (i n : Nat) : Prop :=
  ∀ k, k < n → (cm.get? (i + k)).map core_map_entry.page_allocated = some PAGE_FREE

instance (cm : List core_map_entry) (i n : Nat) : Decidable (free_run cm i n) := by
  unfold free_run; exact inferInstance

/-- The physical address of the frame with index `i`. -/
def frame_paddr (s : core_map_state) (i : Nat) : Nat := s.physical_start + i * PAGE_SIZE

/-- The invariant `heap.end <= stack_top` of an address space (slot 0 of the segment
array is the heap). -/
def heap_end_le_stack_top (as : addrspace) : Prop :=
  ∃ heap_segment, as.as_segment_array.get? 0 = some heap_segment
    ∧ heap_segment.segment_end ≤ as.as_stack_top

/-- The page `page_va` lies inside the segment `c`. -/
def in_segment (page_va : Nat) (c : segment) : Bool :=
  decide (page_va ≥ c.segment_start ∧ page_va < c.segment_end)

/-- The virtual page numbers of a page table, in the order of its entries. -/
def vpns (pt : List page_table_) : List Nat := pt.map page_table_.virtual_page_number

/-- An initialised core map: `physical_start` is a page-aligned address other than 0
and the tracked frames end at or below `2 ^ 32` (`core_map_init` takes them from
`[physical_start, physical_end)`). -/
def core_map_ok (s : core_map_state) : Prop :=
  0 < s.physical_start ∧ s.physical_start % PAGE_SIZE = 0
    ∧ s.physical_start + s.core_map.length * PAGE_SIZE ≤ 2 ^ 32

/-- The address space `as` with the end of its heap segment (slot 0, `heap_segment`)
set to `new_end`. -/
def with_heap_end (as : addrspace) (heap_segment : segment) (new_end : Nat) : addrspace :=
  let new_heap : segment := { heap_segment with segment_end := new_end }
  { as with as_segment_array := as.as_segment_array.set 0 new_heap }

/-- Each child's `p_child_index` equals its position in the child array of `p`. -/
def child_index_ok (p : proc) : Prop :=
  ∀ i c, p.p_child_process_arr.get? i = some c → c.p_child_index = i

/-- A process with `p_child_index` blanked: the reaping loop rewrites that member, so
children are compared up to it. -/
def proc.forget_child_index (c : proc) : proc := c.set_child_index 0

/-- The process `parent` when the child that entry `k` of its child array points to
has become `child`. -/
def with_child (parent : proc) (k : Nat) (child : proc) : proc :=
  parent.set_child_process_arr (parent.p_child_process_arr.set k child)

/-- The process `c` gets through `proc_destroy`: its child array is empty and its
thread array is empty. -/
def destroyable (p_threads : Int → Nat) (c : proc) : Bool :=
  c.p_child_process_arr.isEmpty && decide (p_threads c.p_process_id = 0)

/-- Every zombie of the child array `arr` gets through `proc_destroy`. -/
def reapable (p_threads : Int → Nat) (arr : List proc) : Bool :=
  arr.all (fun c => decide (c.p_is_zombie ≠ 1) || destroyable p_threads c)

/-- The reaping pass as a recursion over the former child array: `d` children have
been removed so far, so a child is met with `p_child_index` decremented `d` times. The
result is the surviving children, the PID table with the PID of every zombie
deallocated, and the children handed to `proc_destroy`. -/
def reap_pass : Nat → List proc → List Nat → List proc × List Nat × List proc
  | _, [], t => ([], t, [])
  | d, c :: rest, t =>
    if (proc.dec_child_index^[d] c).p_is_zombie = 1 then
      ((reap_pass (d + 1) rest (dealloc_process_id t c.p_process_id).2).1,
       (reap_pass (d + 1) rest (dealloc_process_id t c.p_process_id).2).2.1,
       (proc.dec_child_index^[d] c)
         :: (reap_pass (d + 1) rest (dealloc_process_id t c.p_process_id).2).2.2)
    else
      ((proc.dec_child_index^[d] c) :: (reap_pass d rest t).1,
       (reap_pass d rest t).2.1, (reap_pass d rest t).2.2)

/-- Every entry of the page table `pt` maps a frame that the core map tracks and has
marked allocated. -/
def frames_allocated (cm : core_map_state) (pt : List page_table_) : Prop :=
  ∀ q, q ∈ pt → ∃ j e, cm.core_map.get? j = some e ∧ e.page_allocated = PAGE_ALLOCATED
    ∧ q.physical_page_number = frame_paddr cm j

/-- The allocation flags of a core map, frame by frame. -/
def allocation (cm : core_map_state) : List Bool :=
  cm.core_map.map core_map_entry.page_allocated

/-- The 64-bit offset that `sys_lseek` hands back in two 32-bit words: `upper` holds
the bits 32 to 63, `lower` (read as unsigned) the bits 0 to 31. -/
def offset_of_words (upper lower : Int) : Int := upper * 2 ^ 32 + lower % 2 ^ 32

/-- The slot `i` of a descriptor table is empty. -/
def slot_empty (cur_table : fd_table) (i : Nat) : Prop := cur_table.all_fds.get? i = some none

/-- No slot of a descriptor table is empty. -/
def table_full (cur_table : fd_table) : Prop := ∀ i, ¬ slot_empty cur_table i

/-- The 10-frame core map in the state `FFFAAFFFAF`: the frames 3, 4 and 8 are
allocated, each as a run of one frame, the others are free. -/
def core_map_FFFAAFFFAF (physical_start : Nat) : core_map_state :=
  { core_map :=
      [⟨PAGE_FREE, 0⟩, ⟨PAGE_FREE, 0⟩, ⟨PAGE_FREE, 0⟩, ⟨PAGE_ALLOCATED, 1⟩,
       ⟨PAGE_ALLOCATED, 1⟩, ⟨PAGE_FREE, 0⟩, ⟨PAGE_FREE, 0⟩, ⟨PAGE_FREE, 0⟩,
       ⟨PAGE_ALLOCATED, 1⟩, ⟨PAGE_FREE, 0⟩],
    physical_start := physical_start }

/-- The body of the loop of `as_prepare_load` on one segment, as far as the segment
goes. -/
def as_prepare_load_segment (curr_segment : segment) : segment :=
  if curr_segment.executable ≠ 0 then
    { curr_segment with originally_writeable := curr_segment.writeable,
                        writeable := WRITEABLE }
  else curr_segment

/-- The lock `fd_lock` after the events of a path, each `acquire` run with
`lock_acquire` by the thread `curthread` and each `release` with `lock_release`. -/
def fd_lock_after (curthread : Nat) : lock → List fd_lock_event → call lock
  | lk, [] => .returns lk
  | lk, .acquire :: rest =>
    match lock_acquire curthread lk with
    | .sleeps => .sleeps
    | .returns lk1 => fd_lock_after curthread lk1 rest
  | lk, .release :: rest => fd_lock_after curthread (lock_release lk) rest
  | lk, .write_seek_pos :: rest => fd_lock_after curthread lk rest

/-- The number of `release` events of a path at which the thread `curthread` does not
hold the lock. -/
def releases_not_held (curthread : Nat) : lock → List fd_lock_event → Nat
  | _, [] => 0
  | lk, .acquire :: rest =>
    match lock_acquire curthread lk with
    | .sleeps => 0
    | .returns lk1 => releases_not_held curthread lk1 rest
  | lk, .release :: rest =>
    (if lock_do_i_hold curthread lk then 0 else 1)
      + releases_not_held curthread (lock_release lk) rest
  | lk, .write_seek_pos :: rest => releases_not_held curthread lk rest

/-- The number of assignments to `fd_seek_pos` of a path at which the thread
`curthread` does not hold the lock. -/
def writes_not_held (curthread : Nat) : lock → List fd_lock_event → Nat
  | _, [] => 0
  | lk, .acquire :: rest =>
    match lock_acquire curthread lk with
    | .sleeps => 0
    | .returns lk1 => writes_not_held curthread lk1 rest
  | lk, .release :: rest => writes_not_held curthread (lock_release lk) rest
  | lk, .write_seek_pos :: rest =>
    (if lock_do_i_hold curthread lk then 0 else 1) + writes_not_held curthread lk rest

/-! ## The frame allocator on concrete core maps -/

/-- C1 (the code at a failing input). On the 5-frame core map `A F A F F` the lowest index
that starts a run of 2 free frames is 3, yet `getppages 2` returns the address of
frame 1 (and marks frame 1): the contiguity check reads `core_map[pages_found]`, not
`core_map[i + pages_found]`. -/
theorem getppages_not_first_fit :
    free_run [⟨true, 1⟩, ⟨false, 0⟩, ⟨true, 1⟩, ⟨false, 0⟩, ⟨false, 0⟩] 3 2
    ∧ (∀ i, i < 3 → ¬ free_run [⟨true, 1⟩, ⟨false, 0⟩, ⟨true, 1⟩, ⟨false, 0⟩, ⟨false, 0⟩] i 2)
    ∧ getppages ⟨[⟨true, 1⟩, ⟨false, 0⟩, ⟨true, 1⟩, ⟨false, 0⟩, ⟨false, 0⟩], 0x1000⟩ 2
        = some (0x1000 + 1 * PAGE_SIZE,
            ⟨[⟨true, 1⟩, ⟨true, 2⟩, ⟨true, 1⟩, ⟨false, 0⟩, ⟨false, 0⟩], 0x1000⟩)
    ∧ 0x1000 + 1 * PAGE_SIZE ≠ 0x1000 + 3 * PAGE_SIZE := by
  decide

/-- C2 (the code at a failing input). On an all-free core map of 4 frames `getppages 3`
returns frame 0 and leaves the map as `A(3) A(2) F F`: the head has `run_length = 3`,
but frame 1 carries `run_length = 2` instead of 0 and frame 2 is still free. The
marking loop decrements `npages`, which is also its bound. -/
theorem getppages_marks_half_the_run :
    getppages ⟨[⟨false, 0⟩, ⟨false, 0⟩, ⟨false, 0⟩, ⟨false, 0⟩], 0x1000⟩ 3
      = some (0x1000 + 0 * PAGE_SIZE,
          ⟨[⟨true, 3⟩, ⟨true, 2⟩, ⟨false, 0⟩, ⟨false, 0⟩], 0x1000⟩) := by
  decide

/-- C3 (the code at a failing input). On the 2-frame core map `F A` one frame is free, so
2 exceeds the number of free frames and no run of 2 free frames exists; yet
`getppages 2` returns the address of frame 0 (the last free frame it looked at) and
`alloc_kpages 2` returns its kernel address. Neither returns 0, and the core map is
unchanged. -/
theorem getppages_no_run_not_zero :
    ([⟨false, 0⟩, ⟨true, 1⟩].filter
        (fun e : core_map_entry => e.page_allocated == PAGE_FREE)).length = 1
    ∧ (∀ i, ¬ free_run [⟨false, 0⟩, ⟨true, 1⟩] i 2)
    ∧ getppages ⟨[⟨false, 0⟩, ⟨true, 1⟩], 0x1000⟩ 2
        = some (0x1000 + 0 * PAGE_SIZE, ⟨[⟨false, 0⟩, ⟨true, 1⟩], 0x1000⟩)
    ∧ alloc_kpages ⟨[⟨false, 0⟩, ⟨true, 1⟩], 0x1000⟩ 2
        = some (0x80001000, ⟨[⟨false, 0⟩, ⟨true, 1⟩], 0x1000⟩) := by
  refine ⟨by decide, ?_, by decide, by decide⟩
  intro i hrun
  have h0 := hrun 0 (by decide)
  have h1 := hrun 1 (by decide)
  match i, h0, h1 with
  | 0, _, h1 => exact absurd h1 (by decide)
  | 1, h0, _ => exact absurd h0 (by decide)
  | n + 2, h0, _ => simp at h0

/-- C4 (the code at a failing input). Frame 0 heads an allocated run of length 1 (`A(1) F`,
the state after `getppages 1` on two free frames): `free_kpages` on its kernel address
frees the frame but leaves `run_length = 1`. When frame 0 heads a run of length 2
(`A(2) A(0) F`), `free_kpages` frees frame 0 only and leaves frame 1 allocated,
because the loop bound is `index + num_pages_tracked - 1`. -/
theorem free_kpages_leaves_run_tail :
    getppages ⟨[⟨false, 0⟩, ⟨false, 0⟩], 0x1000⟩ 1
      = some (0x1000, ⟨[⟨true, 1⟩, ⟨false, 0⟩], 0x1000⟩)
    ∧ free_kpages ⟨[⟨true, 1⟩, ⟨false, 0⟩], 0x1000⟩ (PADDR_TO_KVADDR 0x1000)
      = some ⟨[⟨false, 1⟩, ⟨false, 0⟩], 0x1000⟩
    ∧ free_kpages ⟨[⟨true, 2⟩, ⟨true, 0⟩, ⟨false, 0⟩], 0x1000⟩ (PADDR_TO_KVADDR 0x1000)
      = some ⟨[⟨false, 0⟩, ⟨true, 0⟩, ⟨false, 0⟩], 0x1000⟩ := by
  decide

/-- C5 (the code at a failing input). From the bootstrapped all-free core map of 2 frames,
`getppages 1` returns frame 0 and `free_kpages` on that returned head leaves frame 0
free with `run_length = 1`: a reachable state in which a free frame has a
`run_length` other than 0. -/
theorem reachable_free_frame_with_run_length :
    ∃ a s1 s2,
      getppages ⟨[⟨false, 0⟩, ⟨false, 0⟩], 0x1000⟩ 1 = some (a, s1)
      ∧ free_kpages s1 (PADDR_TO_KVADDR a) = some s2
      ∧ s2.core_map.get? 0 = some ⟨PAGE_FREE, 1⟩ :=
  ⟨0x1000, ⟨[⟨true, 1⟩, ⟨false, 0⟩], 0x1000⟩, ⟨[⟨false, 1⟩, ⟨false, 0⟩], 0x1000⟩,
    by decide, by decide, by decide⟩

/-! ## Validation of a fault against the segments -/

/-- The scan of `check_readable_segment` stops at the first segment that holds the
page and answers with its `readable` flag. -/
theorem check_readable_scan_find (page_va : Nat) (segs : List segment) (c : segment)
    (h : segs.find? (in_segment page_va) = some c) :
    check_readable_scan page_va segs = if c.readable = 0 then .error EFAULT else .ok true := by
  induction segs with
  | nil => simp at h
  | cons d rest ih =>
    rw [List.find?_cons] at h
    by_cases hd : in_segment page_va d = true
    · rw [hd] at h
      simp only [Option.some.injEq] at h
      subst h
      have hd2 : page_va ≥ d.segment_start ∧ page_va < d.segment_end := by
        simpa [in_segment] using hd
      simp only [check_readable_scan, hd2, and_self, if_true]
    · have hd1 : in_segment page_va d = false := by simpa using hd
      rw [hd1] at h
      have hd2 : ¬ (page_va ≥ d.segment_start ∧ page_va < d.segment_end) := by
        simpa [in_segment] using hd
      simp only [check_readable_scan, hd2, if_false]
      exact ih h

/-- The scan of `check_writable_segment` stops at the first segment that holds the
page and answers with its `writeable` flag. -/
theorem check_writable_scan_find (page_va : Nat) (segs : List segment) (c : segment)
    (h : segs.find? (in_segment page_va) = some c) :
    check_writable_scan page_va segs = if c.writeable = 0 then .error EFAULT else .ok true := by
  induction segs with
  | nil => simp at h
  | cons d rest ih =>
    rw [List.find?_cons] at h
    by_cases hd : in_segment page_va d = true
    · rw [hd] at h
      simp only [Option.some.injEq] at h
      subst h
      have hd2 : page_va ≥ d.segment_start ∧ page_va < d.segment_end := by
        simpa [in_segment] using hd
      simp only [check_writable_scan, hd2, and_self, if_true]
    · have hd1 : in_segment page_va d = false := by simpa using hd
      rw [hd1] at h
      have hd2 : ¬ (page_va ≥ d.segment_start ∧ page_va < d.segment_end) := by
        simpa [in_segment] using hd
      simp only [check_writable_scan, hd2, if_false]
      exact ih h

/-- C6. Let the page of the fault address lie inside a segment, and let `c` be that
segment (the one the scan of the segment list meets first). The validation of a READ
fault succeeds exactly when `c` is readable and the validation of a WRITE or READONLY
fault exactly when `c` is writable; otherwise the validation and the whole fault handler
return `EFAULT`, and the address space (so its page table) and the core map are
unchanged. -/
theorem fault_validation_in_segment (as : addrspace) (faultaddress : Nat) (c : segment)
    (h : as.as_segment_array.find? (in_segment (faultaddress &&& PAGE_FRAME)) = some c) :
    check_readable_segment as faultaddress
        = some (if c.readable = 0 then EFAULT else 0, as)
    ∧ check_writable_segment as faultaddress
        = some (if c.writeable = 0 then EFAULT else 0, as)
    ∧ (c.readable = 0 → ∀ cm heap,
        vm_fault_helper VM_FAULT_READ faultaddress as cm heap = some (EFAULT, as, cm))
    ∧ (c.writeable = 0 → ∀ cm heap,
        vm_fault_helper VM_FAULT_WRITE faultaddress as cm heap = some (EFAULT, as, cm)
        ∧ vm_fault_helper VM_FAULT_READONLY faultaddress as cm heap
            = some (EFAULT, as, cm)) := by
  have hr : check_readable_segment as faultaddress
      = some (if c.readable = 0 then EFAULT else 0, as) := by
    unfold check_readable_segment
    simp only [check_readable_scan_find _ _ _ h]
    by_cases hc : c.readable = 0 <;> simp [hc]
  have hw : check_writable_segment as faultaddress
      = some (if c.writeable = 0 then EFAULT else 0, as) := by
    unfold check_writable_segment
    simp only [check_writable_scan_find _ _ _ h]
    by_cases hc : c.writeable = 0 <;> simp [hc]
  refine ⟨hr, hw, ?_, ?_⟩
  · intro hc cm heap
    simp [vm_fault_helper, hr, hc, EFAULT]
  · intro hc cm heap
    constructor
    · simp [vm_fault_helper, hw, hc, EFAULT, VM_FAULT_READ, VM_FAULT_WRITE]
    · simp [vm_fault_helper, hw, hc, EFAULT, VM_FAULT_READ, VM_FAULT_WRITE, VM_FAULT_READONLY]

/-- C6 at a concrete address space: a fault at `0x400123` lies in the read-only
segment `[0x400000, 0x401000)`; a READ is validated, a WRITE and a READONLY fault get
`EFAULT` and nothing changes. -/
theorem fault_validation_in_segment_witness :
    check_readable_segment
        ⟨[⟨0x500000, 0x500000, 4, 2, 0, 0⟩, ⟨0x400000, 0x401000, 4, 0, 1, 0⟩], [],
          0x80000000, 0x80000000⟩ 0x400123
      = some (0, ⟨[⟨0x500000, 0x500000, 4, 2, 0, 0⟩, ⟨0x400000, 0x401000, 4, 0, 1, 0⟩], [],
          0x80000000, 0x80000000⟩)
    ∧ ∀ cm heap, vm_fault_helper VM_FAULT_WRITE 0x400123
        ⟨[⟨0x500000, 0x500000, 4, 2, 0, 0⟩, ⟨0x400000, 0x401000, 4, 0, 1, 0⟩], [],
          0x80000000, 0x80000000⟩ cm heap
      = some (EFAULT, ⟨[⟨0x500000, 0x500000, 4, 2, 0, 0⟩, ⟨0x400000, 0x401000, 4, 0, 1, 0⟩],
          [], 0x80000000, 0x80000000⟩, cm) :=
  have h := fault_validation_in_segment
    ⟨[⟨0x500000, 0x500000, 4, 2, 0, 0⟩, ⟨0x400000, 0x401000, 4, 0, 1, 0⟩], [],
      0x80000000, 0x80000000⟩ 0x400123 ⟨0x400000, 0x401000, 4, 0, 1, 0⟩ (by decide)
  ⟨h.1, fun cm heap => (h.2.2.2 rfl cm heap).1⟩

/-! ## Lemmas on the page mask and on the allocation of one frame -/

/-- The mask `PAGE_FRAME` rounds a 32-bit address down to a multiple of the page size. -/
theorem and_page_frame (a : Nat) (h : a < 2 ^ 32) : a &&& PAGE_FRAME = 4096 * (a / 4096) := by
  apply Nat.eq_of_testBit_eq
  intro i
  have hM : PAGE_FRAME = 2 ^ 12 * (2 ^ 20 - 1) := by norm_num [PAGE_FRAME]
  have h4 : (4096 : Nat) = 2 ^ 12 := by norm_num
  rw [Nat.testBit_and, hM, h4, Nat.testBit_mul_pow_two, Nat.testBit_mul_pow_two,
    Nat.testBit_two_pow_sub_one, ← Nat.shiftRight_eq_div_pow, Nat.testBit_shiftRight]
  by_cases h1 : 12 ≤ i
  · by_cases h2 : i < 32
    · have h3 : i - 12 < 20 := by omega
      have h5 : 12 + (i - 12) = i := by omega
      simp [h1, h3, h5]
    · have h3 : a < 2 ^ i := lt_of_lt_of_le h (Nat.pow_le_pow_right (by norm_num) (by omega))
      have h5 : 12 + (i - 12) = i := by omega
      simp [h1, h5, Nat.testBit_lt_two_pow h3]
  · simp [h1]

/-- The marking loop stops once `npages` has reached 0. -/
theorem getppages_mark_done (i : Nat) (rest : List core_map_entry) :
    getppages_mark i rest (i + 1) 0 = some rest := by
  have h : ¬ (i + 1 < (i + 0) % 2 ^ 32) := by
    have := Nat.mod_le (i + 0) (2 ^ 32)
    omega
  cases rest <;> simp only [getppages_mark, h, if_false]

/-- The marking loop for one page marks the cell at `i` and nothing else. -/
theorem getppages_mark_one (i : Nat) (e : core_map_entry) (rest : List core_map_entry)
    (hi : i + 1 < 2 ^ 32) :
    getppages_mark i (e :: rest) i 1 = some (⟨PAGE_ALLOCATED, 1⟩ :: rest) := by
  have h : i < (i + 1) % 2 ^ 32 := by
    rw [Nat.mod_eq_of_lt hi]; omega
  simp only [getppages_mark, h, if_true, Nat.sub_self, getppages_mark_done, Option.map_some']

/-- The scan for one page, started at or before the first free frame `k`, allocates
frame `k`. -/
theorem getppages_scan_one_free (s : core_map_state) (k : Nat) (e : core_map_entry)
    (hk : s.core_map.get? k = some e) (hfree : e.page_allocated = PAGE_FREE)
    (hbefore : ∀ j e1, j < k → s.core_map.get? j = some e1 → e1.page_allocated = PAGE_ALLOCATED)
    (hlt : k + 1 < 2 ^ 32) :
    ∀ left i addr, left + i = s.core_map.length → i ≤ k →
      getppages_scan s 1 left i addr true
        = some ((s.physical_start + k * PAGE_SIZE) % 2 ^ 32,
            { s with core_map := s.core_map.set k ⟨PAGE_ALLOCATED, 1⟩ }) := by
  have hklen : k < s.core_map.length := by
    rw [List.get?_eq_some] at hk
    exact hk.1
  intro left
  induction left with
  | zero => intro i addr h1 h2; omega
  | succ left ih =>
    intro i addr h1 h2
    by_cases hik : i = k
    · subst hik
      have hdrop : s.core_map.drop i = e :: s.core_map.drop (i + 1) := by
        rw [List.drop_eq_getElem_cons hklen]
        congr 1
        rw [List.get?_eq_getElem?, List.getElem?_eq_getElem hklen] at hk
        exact Option.some.inj hk
      simp only [getppages_scan, hk, hfree, if_true, getppages_check, Nat.sub_self, hdrop,
        getppages_mark_one _ _ _ hlt, Option.map_some']
      rw [List.set_eq_take_append_cons_drop, if_pos hklen]
    · have hlt2 : i < k := by omega
      have hilen : i < s.core_map.length := by omega
      obtain ⟨e1, he1⟩ : ∃ e1, s.core_map.get? i = some e1 :=
        ⟨s.core_map.get ⟨i, hilen⟩, List.get?_eq_get hilen⟩
      have ha := hbefore i e1 hlt2 he1
      have hne : ¬ (e1.page_allocated = PAGE_FREE) := by
        rw [ha]; decide
      simp only [getppages_scan, he1, hne, if_false]
      exact ih (i + 1) addr (by omega) (by omega)

/-- The scan for one page over a core map without a free frame changes nothing. -/
theorem getppages_scan_one_full (s : core_map_state)
    (hall : ∀ j e1, s.core_map.get? j = some e1 → e1.page_allocated = PAGE_ALLOCATED) :
    ∀ left i addr found, left + i = s.core_map.length →
      getppages_scan s 1 left i addr found = some (addr, s) := by
  intro left
  induction left with
  | zero => intro i addr found _; rfl
  | succ left ih =>
    intro i addr found h1
    have hilen : i < s.core_map.length := by omega
    obtain ⟨e1, he1⟩ : ∃ e1, s.core_map.get? i = some e1 :=
      ⟨s.core_map.get ⟨i, hilen⟩, List.get?_eq_get hilen⟩
    have hne : ¬ (e1.page_allocated = PAGE_FREE) := by
      rw [hall i e1 he1]; decide
    simp only [getppages_scan, he1, hne, if_false]
    exact ih (i + 1) addr found (by omega)

/-- Over an initialised core map the address of a tracked frame is a page-aligned
32-bit address other than 0. -/
theorem frame_paddr_ok (s : core_map_state) (hs : core_map_ok s) (k : Nat)
    (hk : k < s.core_map.length) :
    (s.physical_start + k * PAGE_SIZE) % 2 ^ 32 = frame_paddr s k
    ∧ frame_paddr s k ≠ 0
    ∧ frame_paddr s k &&& PAGE_FRAME = frame_paddr s k
    ∧ k + 1 < 2 ^ 32 := by
  obtain ⟨h0, hal, hend⟩ := hs
  unfold PAGE_SIZE at hal hend
  have hlt : s.physical_start + k * 4096 < 2 ^ 32 := by omega
  refine ⟨?_, ?_, ?_, ?_⟩
  · unfold frame_paddr PAGE_SIZE
    exact Nat.mod_eq_of_lt hlt
  · unfold frame_paddr PAGE_SIZE
    omega
  · unfold frame_paddr PAGE_SIZE
    rw [and_page_frame _ hlt]
    omega
  · omega

/-- The function `getppages` for one page over an initialised core map whose first
free frame is `k`: it returns the address of frame `k` and marks that frame, and
only that frame, as an allocated run of length 1. -/
theorem getppages_one_free (s : core_map_state) (hs : core_map_ok s) (k : Nat)
    (e : core_map_entry) (hk : s.core_map.get? k = some e)
    (hfree : e.page_allocated = PAGE_FREE)
    (hbefore : ∀ j e1, j < k → s.core_map.get? j = some e1 →
      e1.page_allocated = PAGE_ALLOCATED) :
    getppages s 1
      = some (frame_paddr s k, { s with core_map := s.core_map.set k ⟨PAGE_ALLOCATED, 1⟩ }) := by
  have hklen : k < s.core_map.length := by
    rw [List.get?_eq_some] at hk
    exact hk.1
  obtain ⟨h1, _, _, h4⟩ := frame_paddr_ok s hs k hklen
  unfold getppages num_core_map_entries
  rw [getppages_scan_one_free s k e hk hfree hbefore h4 _ 0 0 (by omega) (by omega), h1]

/-- The function `getppages` for one page over a core map without a free frame
returns 0 and changes nothing. -/
theorem getppages_one_full (s : core_map_state)
    (hall : ∀ j e1, s.core_map.get? j = some e1 → e1.page_allocated = PAGE_ALLOCATED) :
    getppages s 1 = some (0, s) := by
  unfold getppages num_core_map_entries
  exact getppages_scan_one_full s hall _ 0 0 true (by omega)

/-! ## Resolution of a permitted fault -/

/-- The stack check changes nothing but `as_stack_top`. -/
theorem check_within_stack_frame (as as1 : addrspace) (faultaddress : Nat) (b : Bool)
    (h : check_within_stack as faultaddress = some (b, as1)) :
    as1.as_pt_array = as.as_pt_array ∧ as1.as_segment_array = as.as_segment_array
      ∧ as1.as_stack_base = as.as_stack_base := by
  unfold check_within_stack at h
  split at h
  · simp at h
  · dsimp only at h
    split at h
    · simp only [Option.some.injEq, Prod.mk.injEq] at h
      rw [← h.2]
      exact ⟨rfl, rfl, rfl⟩
    · split at h
      · simp only [Option.some.injEq, Prod.mk.injEq] at h
        rw [← h.2]
        exact ⟨rfl, rfl, rfl⟩
      · simp only [Option.some.injEq, Prod.mk.injEq] at h
        rw [← h.2]
        exact ⟨rfl, rfl, rfl⟩

/-- The validation of a READ fault changes nothing but `as_stack_top`. -/
theorem check_readable_segment_frame (as as1 : addrspace) (faultaddress err : Nat)
    (h : check_readable_segment as faultaddress = some (err, as1)) :
    as1.as_pt_array = as.as_pt_array ∧ as1.as_segment_array = as.as_segment_array
      ∧ as1.as_stack_base = as.as_stack_base := by
  unfold check_readable_segment at h
  simp only at h
  split at h
  · simp only [Option.some.injEq, Prod.mk.injEq] at h
    rw [← h.2]
    exact ⟨rfl, rfl, rfl⟩
  · split at h
    · split at h
      · simp at h
      · rename_i within_stack as2 hws
        have hf := check_within_stack_frame _ _ _ _ hws
        split at h <;>
          · simp only [Option.some.injEq, Prod.mk.injEq] at h
            rw [← h.2]
            exact hf
    · simp only [Option.some.injEq, Prod.mk.injEq] at h
      rw [← h.2]
      exact ⟨rfl, rfl, rfl⟩

/-- The validation of a WRITE or READONLY fault changes nothing but `as_stack_top`. -/
theorem check_writable_segment_frame (as as1 : addrspace) (faultaddress err : Nat)
    (h : check_writable_segment as faultaddress = some (err, as1)) :
    as1.as_pt_array = as.as_pt_array ∧ as1.as_segment_array = as.as_segment_array
      ∧ as1.as_stack_base = as.as_stack_base := by
  unfold check_writable_segment at h
  simp only at h
  split at h
  · simp only [Option.some.injEq, Prod.mk.injEq] at h
    rw [← h.2]
    exact ⟨rfl, rfl, rfl⟩
  · split at h
    · split at h
      · simp at h
      · rename_i within_stack as2 hws
        have hf := check_within_stack_frame _ _ _ _ hws
        split at h <;>
          · simp only [Option.some.injEq, Prod.mk.injEq] at h
            rw [← h.2]
            exact hf
    · simp only [Option.some.injEq, Prod.mk.injEq] at h
      rw [← h.2]
      exact ⟨rfl, rfl, rfl⟩

/-- The function `create_pte_entry` keeps the page table or appends one entry for the
faulting page. -/
theorem create_pte_entry_pt (page_va : Nat) (as as1 : addrspace) (cm cm1 : core_map_state)
    (npages err : Nat) (new_pte : Option Unit)
    (h : create_pte_entry page_va as cm npages new_pte = some (err, as1, cm1)) :
    as1.as_pt_array = as.as_pt_array
      ∨ ∃ ppage, as1.as_pt_array = as.as_pt_array ++ [⟨page_va, ppage⟩] := by
  unfold create_pte_entry at h
  split at h
  · simp at h
  · rename_i ppage cm2 _
    split at h
    · simp only [Option.some.injEq, Prod.mk.injEq] at h
      rw [← h.2.1]
      exact Or.inl rfl
    · split at h
      · simp at h
      · split at h
        · simp only [Option.some.injEq, Prod.mk.injEq] at h
          rw [← h.2.1]
          exact Or.inl rfl
        · simp only [Option.some.injEq, Prod.mk.injEq] at h
          rw [← h.2.1]
          exact Or.inr ⟨ppage, rfl⟩

/-- The resolution step keeps the page table, or the page had no entry and one entry
for it is appended. -/
theorem vm_fault_resolve_pt (faulttype : Int) (page_va : Nat) (as as1 : addrspace)
    (cm cm1 : core_map_state) (heap err : Nat)
    (h : vm_fault_resolve faulttype page_va as cm heap = some (err, as1, cm1)) :
    as1.as_pt_array = as.as_pt_array
      ∨ (get_page_table_entry as page_va = none
          ∧ ∃ ppage, as1.as_pt_array = as.as_pt_array ++ [⟨page_va, ppage⟩]) := by
  unfold vm_fault_resolve at h
  split at h
  · dsimp only at h
    split at h <;>
      · simp only [Option.some.injEq, Prod.mk.injEq] at h
        rw [← h.2.1]
        exact Or.inl rfl
  · rename_i hnone
    split at h
    · simp only [Option.some.injEq, Prod.mk.injEq] at h
      rw [← h.2.1]
      exact Or.inl rfl
    · split at h
      · simp at h
      · rename_i err2 as2 cm2 hcreate
        have hpt := create_pte_entry_pt _ _ _ _ _ _ _ _ hcreate
        have has : as1 = as2 := by
          split at h
          · simp only [Option.some.injEq, Prod.mk.injEq] at h
            exact h.2.1.symm
          · dsimp only at h
            split at h <;>
              · simp only [Option.some.injEq, Prod.mk.injEq] at h
                exact h.2.1.symm
        rw [has]
        rcases hpt with hpt | hpt
        · exact Or.inl hpt
        · exact Or.inr ⟨hnone, hpt⟩

/-- The fault handler keeps the page table, or the page had no entry and one entry
for it is appended. -/
theorem vm_fault_helper_pt (faulttype : Int) (faultaddress : Nat) (as as1 : addrspace)
    (cm cm1 : core_map_state) (heap err : Nat)
    (h : vm_fault_helper faulttype faultaddress as cm heap = some (err, as1, cm1)) :
    as1.as_pt_array = as.as_pt_array
      ∨ ((as.as_pt_array.find?
            (fun pte => (faultaddress &&& PAGE_FRAME) == pte.virtual_page_number)) = none
          ∧ ∃ ppage, as1.as_pt_array
              = as.as_pt_array ++ [⟨faultaddress &&& PAGE_FRAME, ppage⟩]) := by
  unfold vm_fault_helper at h
  simp only at h
  split at h
  · split at h
    · simp at h
    · rename_i err2 as2 hchk
      have hf := (check_readable_segment_frame _ _ _ _ hchk).1
      split at h
      · simp only [Option.some.injEq, Prod.mk.injEq] at h
        rw [← h.2.1]
        exact Or.inl hf
      · have hr := vm_fault_resolve_pt _ _ _ _ _ _ _ _ h
        unfold get_page_table_entry at hr
        rw [hf] at hr
        exact hr
  · split at h
    · split at h
      · simp at h
      · rename_i err2 as2 hchk
        have hf := (check_writable_segment_frame _ _ _ _ hchk).1
        split at h
        · simp only [Option.some.injEq, Prod.mk.injEq] at h
          rw [← h.2.1]
          exact Or.inl hf
        · have hr := vm_fault_resolve_pt _ _ _ _ _ _ _ _ h
          unfold get_page_table_entry at hr
          rw [hf] at hr
          exact hr
    · split at h
      · split at h
        · simp at h
        · rename_i err2 as2 hchk
          have hf := (check_writable_segment_frame _ _ _ _ hchk).1
          split at h
          · simp only [Option.some.injEq, Prod.mk.injEq] at h
            rw [← h.2.1]
            exact Or.inl hf
          · split at h
            · simp at h
            · simp only [Option.some.injEq, Prod.mk.injEq] at h
              rw [← h.2.1]
              exact Or.inl hf
      · simp only [Option.some.injEq, Prod.mk.injEq] at h
        rw [← h.2.1]
        exact Or.inl rfl

/-! ## What `as_copy` returns -/

/-- The page-table loop of `as_copy`, when it ends with 0, has appended one entry per
source entry, with the same virtual page numbers in the same order. -/
theorem as_copy_ptes_vpns (rest : List page_table_) :
    ∀ (heap : Nat) (cm cm1 : core_map_state) (new_array r : List page_table_),
      as_copy_ptes rest heap cm new_array = some (0, r, cm1) →
      vpns r = vpns new_array ++ vpns rest := by
  induction rest with
  | nil =>
    intro heap cm cm1 new_array r h
    simp only [as_copy_ptes, Option.some.injEq, Prod.mk.injEq] at h
    rw [← h.2.1]
    simp [vpns]
  | cons curr_pte rest ih =>
    intro heap cm cm1 new_array r h
    unfold as_copy_ptes at h
    split at h
    · simp [ENOMEM] at h
    · split at h
      · simp at h
      · split at h
        · simp [ENOMEM] at h
        · split at h
          · simp at h
          · have h2 := ih _ _ _ _ _ h
            rw [h2]
            simp [vpns]

/-- The address space that `as_copy` returns has the virtual page numbers of the
source in the same order, the heap bounds of the source in slot 0 and the stack
bounds of the source. -/
theorem as_copy_result (old new : addrspace) (cm cm1 : core_map_state) (heap err : Nat)
    (h : as_copy old cm heap = some (err, some new, cm1)) :
    vpns new.as_pt_array = vpns old.as_pt_array
    ∧ (∃ old_heap new_heap, old.as_segment_array.get? 0 = some old_heap
        ∧ new.as_segment_array.get? 0 = some new_heap
        ∧ new_heap.segment_start = old_heap.segment_start
        ∧ new_heap.segment_end = old_heap.segment_end)
    ∧ new.as_stack_base = old.as_stack_base
    ∧ new.as_stack_top = old.as_stack_top := by
  unfold as_copy at h
  split at h
  · simp at h
  · simp at h
  · rename_i newas heap1 hcreate
    have hpt0 : newas.as_pt_array = [] := by
      unfold as_create at hcreate
      split at hcreate
      · simp at hcreate
      · split at hcreate
        · simp at hcreate
        · simp only [Option.some.injEq, Prod.mk.injEq] at hcreate
          rw [← hcreate.1]
    split at h
    · simp at h
    · rename_i new_segments heap2 _
      split at h
      · rename_i old_heap new_heap hold hnew
        dsimp only at h
        split at h
        · simp at h
        · rename_i err2 new_ptes cm2 hptes
          split at h
          · simp at h
          · rename_i herr
            have herr0 : err2 = 0 := by
              by_contra hne
              exact herr hne
            subst herr0
            simp only [Option.some.injEq, Prod.mk.injEq] at h
            have hv := as_copy_ptes_vpns _ _ _ _ _ _ hptes
            rw [hpt0] at hv
            have hlen : 0 < new_segments.length := by
              rw [List.get?_eq_some] at hnew
              exact hnew.1
            rw [← h.2.1]
            refine ⟨?_, ⟨old_heap,
              { new_heap with segment_start := old_heap.segment_start,
                              segment_end := old_heap.segment_end },
              hold, ?_, rfl, rfl⟩, rfl, rfl⟩
            · simpa [vpns] using hv
            · simp [List.getElem?_set, hlen]
      · simp at h

/-! ## Uniqueness of page-table entries by virtual page number -/

/-- C8. If no two entries of the page table of an address space share a virtual page
number, then the same holds for the address space after any call of `vm_fault_helper`
(whatever it returns), and for the address space that `as_copy` returns. -/
theorem pte_vpn_unique_preserved (as : addrspace) (h : (vpns as.as_pt_array).Nodup) :
    (∀ faulttype faultaddress cm heap err as1 cm1,
      vm_fault_helper faulttype faultaddress as cm heap = some (err, as1, cm1) →
      (vpns as1.as_pt_array).Nodup)
    ∧ (∀ cm heap err new cm1,
      as_copy as cm heap = some (err, some new, cm1) → (vpns new.as_pt_array).Nodup) := by
  constructor
  · intro faulttype faultaddress cm heap err as1 cm1 hrun
    rcases vm_fault_helper_pt _ _ _ _ _ _ _ _ hrun with hpt | ⟨hnone, ppage, hpt⟩
    · rw [hpt]
      exact h
    · rw [hpt]
      have hnot : (faultaddress &&& PAGE_FRAME) ∉ vpns as.as_pt_array := by
        intro hmem
        unfold vpns at hmem
        rw [List.mem_map] at hmem
        obtain ⟨pte, hpte, hv⟩ := hmem
        rw [List.find?_eq_none] at hnone
        have := hnone pte hpte
        simp [hv] at this
      unfold vpns at h hnot ⊢
      rw [List.map_append, List.nodup_append]
      refine ⟨h, by simp, ?_⟩
      intro a ha hb
      simp only [List.map_cons, List.map_nil, List.mem_singleton] at hb
      rw [hb] at ha
      exact hnot ha
  · intro cm heap err new cm1 hrun
    rw [(as_copy_result _ _ _ _ _ _ hrun).1]
    exact h

/-- C8 at a concrete address space with the entry `0x400000 -> 0x2000`: a WRITE fault
on the page `0x500000` adds a second entry, `as_copy` builds a page table with the
virtual page number `0x400000`, and both results have pairwise distinct virtual page
numbers. -/
theorem pte_vpn_unique_preserved_witness :
    (vpns [⟨0x400000, 0x2000⟩]).Nodup
    ∧ vm_fault_helper VM_FAULT_WRITE 0x500123
        ⟨[⟨0x600000, 0x600000, 4, 2, 0, 0⟩, ⟨0x500000, 0x501000, 4, 2, 0, 0⟩],
          [⟨0x400000, 0x2000⟩], 0x80000000, 0x80000000⟩
        ⟨[⟨true, 1⟩, ⟨false, 0⟩, ⟨false, 0⟩], 0x2000⟩ 1
      = some (0,
          ⟨[⟨0x600000, 0x600000, 4, 2, 0, 0⟩, ⟨0x500000, 0x501000, 4, 2, 0, 0⟩],
            [⟨0x400000, 0x2000⟩, ⟨0x500000, 0x3000⟩], 0x80000000, 0x80000000⟩,
          ⟨[⟨true, 1⟩, ⟨true, 1⟩, ⟨false, 0⟩], 0x2000⟩)
    ∧ (vpns [⟨0x400000, 0x2000⟩, ⟨0x500000, 0x3000⟩]).Nodup
    ∧ as_copy
        ⟨[⟨0x600000, 0x600000, 4, 2, 0, 0⟩, ⟨0x500000, 0x501000, 4, 2, 0, 0⟩],
          [⟨0x400000, 0x2000⟩], 0x80000000, 0x80000000⟩
        ⟨[⟨true, 1⟩, ⟨false, 0⟩, ⟨false, 0⟩], 0x2000⟩ 4
      = some (0,
          some ⟨[⟨0x600000, 0x600000, 4, 2, 0, 0⟩, ⟨0x500000, 0x501000, 4, 2, 0, 0⟩],
            [⟨0x400000, 0x3000⟩], 0x80000000, 0x80000000⟩,
          ⟨[⟨true, 1⟩, ⟨true, 1⟩, ⟨false, 0⟩], 0x2000⟩)
    ∧ (vpns [⟨0x400000, 0x3000⟩]).Nodup :=
  have h0 : (vpns [⟨0x400000, 0x2000⟩]).Nodup := by decide
  have h := pte_vpn_unique_preserved
    ⟨[⟨0x600000, 0x600000, 4, 2, 0, 0⟩, ⟨0x500000, 0x501000, 4, 2, 0, 0⟩],
      [⟨0x400000, 0x2000⟩], 0x80000000, 0x80000000⟩ h0
  have h1 : vm_fault_helper VM_FAULT_WRITE 0x500123
        ⟨[⟨0x600000, 0x600000, 4, 2, 0, 0⟩, ⟨0x500000, 0x501000, 4, 2, 0, 0⟩],
          [⟨0x400000, 0x2000⟩], 0x80000000, 0x80000000⟩
        ⟨[⟨true, 1⟩, ⟨false, 0⟩, ⟨false, 0⟩], 0x2000⟩ 1
      = some (0,
          ⟨[⟨0x600000, 0x600000, 4, 2, 0, 0⟩, ⟨0x500000, 0x501000, 4, 2, 0, 0⟩],
            [⟨0x400000, 0x2000⟩, ⟨0x500000, 0x3000⟩], 0x80000000, 0x80000000⟩,
          ⟨[⟨true, 1⟩, ⟨true, 1⟩, ⟨false, 0⟩], 0x2000⟩) := by decide
  have h2 : as_copy
        ⟨[⟨0x600000, 0x600000, 4, 2, 0, 0⟩, ⟨0x500000, 0x501000, 4, 2, 0, 0⟩],
          [⟨0x400000, 0x2000⟩], 0x80000000, 0x80000000⟩
        ⟨[⟨true, 1⟩, ⟨false, 0⟩, ⟨false, 0⟩], 0x2000⟩ 4
      = some (0,
          some ⟨[⟨0x600000, 0x600000, 4, 2, 0, 0⟩, ⟨0x500000, 0x501000, 4, 2, 0, 0⟩],
            [⟨0x400000, 0x3000⟩], 0x80000000, 0x80000000⟩,
          ⟨[⟨true, 1⟩, ⟨true, 1⟩, ⟨false, 0⟩], 0x2000⟩) := by decide
  ⟨h0, h1, h.1 _ _ _ _ _ _ _ h1, h2, h.2 _ _ _ _ _ h2⟩

/-! ## Stack growth in the fault handler -/

/-- The scan of `check_readable_segment` over segments none of which holds the page
ends with `within_segment = false`. -/
theorem check_readable_scan_none (page_va : Nat) (segs : List segment)
    (h : segs.find? (in_segment page_va) = none) :
    check_readable_scan page_va segs = .ok false := by
  induction segs with
  | nil => rfl
  | cons d rest ih =>
    rw [List.find?_cons] at h
    by_cases hd : in_segment page_va d = true
    · rw [hd] at h
      simp at h
    · have hd1 : in_segment page_va d = false := by simpa using hd
      rw [hd1] at h
      have hd2 : ¬ (page_va ≥ d.segment_start ∧ page_va < d.segment_end) := by
        simpa [in_segment] using hd
      simp only [check_readable_scan, hd2, if_false]
      exact ih h

/-- The scan of `check_writable_segment` over segments none of which holds the page
ends with `within_segment = false`. -/
theorem check_writable_scan_none (page_va : Nat) (segs : List segment)
    (h : segs.find? (in_segment page_va) = none) :
    check_writable_scan page_va segs = .ok false := by
  induction segs with
  | nil => rfl
  | cons d rest ih =>
    rw [List.find?_cons] at h
    by_cases hd : in_segment page_va d = true
    · rw [hd] at h
      simp at h
    · have hd1 : in_segment page_va d = false := by simpa using hd
      rw [hd1] at h
      have hd2 : ¬ (page_va ≥ d.segment_start ∧ page_va < d.segment_end) := by
        simpa [in_segment] using hd
      simp only [check_writable_scan, hd2, if_false]
      exact ih h

/-- C9 (counterexample). Heap `[0x600000, 0x7ffff000)`, `stack_top = 0x80000000`, so
`heap.end + PAGE_SIZE <= stack_top` holds (with equality). The fault at `0x7ffff800`
is on a page in no segment and below `stack_top`. The stack is not grown:
`check_within_stack` answers `false`, the validation and the handler return `EFAULT`
and `stack_top` is unchanged. -/
theorem stack_growth_rejected_at_equality :
    0x7ffff000 + PAGE_SIZE ≤ 0x80000000
    ∧ List.find? (in_segment (0x7ffff800 &&& PAGE_FRAME))
        [⟨0x600000, 0x7ffff000, 4, 2, 0, 0⟩, ⟨0x400000, 0x401000, 4, 0, 1, 0⟩] = none
    ∧ 0x7ffff800 &&& PAGE_FRAME < 0x80000000
    ∧ check_within_stack
        ⟨[⟨0x600000, 0x7ffff000, 4, 2, 0, 0⟩, ⟨0x400000, 0x401000, 4, 0, 1, 0⟩], [],
          0x80000000, 0x80000000⟩ 0x7ffff800
      = some (false,
          ⟨[⟨0x600000, 0x7ffff000, 4, 2, 0, 0⟩, ⟨0x400000, 0x401000, 4, 0, 1, 0⟩], [],
            0x80000000, 0x80000000⟩)
    ∧ vm_fault_helper VM_FAULT_WRITE 0x7ffff800
        ⟨[⟨0x600000, 0x7ffff000, 4, 2, 0, 0⟩, ⟨0x400000, 0x401000, 4, 0, 1, 0⟩], [],
          0x80000000, 0x80000000⟩ ⟨[⟨false, 0⟩], 0x2000⟩ 1
      = some (EFAULT,
          ⟨[⟨0x600000, 0x7ffff000, 4, 2, 0, 0⟩, ⟨0x400000, 0x401000, 4, 0, 1, 0⟩], [],
            0x80000000, 0x80000000⟩, ⟨[⟨false, 0⟩], 0x2000⟩) := by
  decide

/-- C9 (amended). Let the page of the fault address lie in no segment and below
`stack_top`, in an address space whose `stack_top` is a page-aligned 32-bit address
and whose heap slot exists. If `heap.end + PAGE_SIZE < stack_top` (strictly), the
stack check lowers `stack_top` by exactly `PAGE_SIZE` and the validation of the fault
(READ, WRITE or READONLY) returns 0. Otherwise (also when
`heap.end + PAGE_SIZE = stack_top`) the stack check answers `false`, the validation
returns `EFAULT` and the address space, `stack_top` included, is unchanged. -/
theorem stack_growth_on_fault (as : addrspace) (faultaddress : Nat) (heap_segment : segment)
    (h0 : as.as_segment_array.get? 0 = some heap_segment)
    (hns : as.as_segment_array.find? (in_segment (faultaddress &&& PAGE_FRAME)) = none)
    (hbelow : faultaddress &&& PAGE_FRAME < as.as_stack_top)
    (hal : as.as_stack_top % PAGE_SIZE = 0)
    (hfa : faultaddress < 2 ^ 32) (hst : as.as_stack_top < 2 ^ 32) :
    (heap_segment.segment_end + PAGE_SIZE < as.as_stack_top →
      check_within_stack as faultaddress
          = some (true, { as with as_stack_top := as.as_stack_top - PAGE_SIZE })
      ∧ check_readable_segment as faultaddress
          = some (0, { as with as_stack_top := as.as_stack_top - PAGE_SIZE })
      ∧ check_writable_segment as faultaddress
          = some (0, { as with as_stack_top := as.as_stack_top - PAGE_SIZE }))
    ∧ (¬ heap_segment.segment_end + PAGE_SIZE < as.as_stack_top →
      check_within_stack as faultaddress = some (false, as)
      ∧ check_readable_segment as faultaddress = some (EFAULT, as)
      ∧ check_writable_segment as faultaddress = some (EFAULT, as)) := by
  rw [and_page_frame _ hfa] at hbelow
  unfold PAGE_SIZE at hal ⊢
  have hlt : faultaddress < as.as_stack_top := by omega
  have hnot : ¬ (faultaddress ≥ as.as_stack_top ∧ faultaddress ≤ as.as_stack_base) := by
    omega
  have hsub : (as.as_stack_top + 2 ^ 32 - 4096) % 2 ^ 32 = as.as_stack_top - 4096 := by
    omega
  constructor
  · intro hroom
    have hc : ¬ (heap_segment.segment_end ≥ as.as_stack_top - 4096) := by omega
    have hws : check_within_stack as faultaddress
        = some (true, { as with as_stack_top := as.as_stack_top - 4096 }) := by
      simp only [check_within_stack, h0, hnot, if_false, PAGE_SIZE, hsub, hc]
    refine ⟨hws, ?_, ?_⟩
    · simp [check_readable_segment, check_readable_scan_none _ _ hns, hws]
    · simp [check_writable_segment, check_writable_scan_none _ _ hns, hws]
  · intro hroom
    have hc : heap_segment.segment_end ≥ as.as_stack_top - 4096 := by omega
    have hws : check_within_stack as faultaddress = some (false, as) := by
      simp only [check_within_stack, h0, hnot, if_false, PAGE_SIZE, hsub, hc, if_true]
    refine ⟨hws, ?_, ?_⟩
    · simp [check_readable_segment, check_readable_scan_none _ _ hns, hws]
    · simp [check_writable_segment, check_writable_scan_none _ _ hns, hws]

/-- C9 at a concrete address space: heap `[0x600000, 0x601000)`,
`stack_top = 0x80000000`; the fault at `0x7ffff800` lowers `stack_top` to
`0x7ffff000`. -/
theorem stack_growth_on_fault_witness :
    0x601000 + PAGE_SIZE < 0x80000000
    ∧ check_within_stack
        ⟨[⟨0x600000, 0x601000, 4, 2, 0, 0⟩, ⟨0x400000, 0x401000, 4, 0, 1, 0⟩], [],
          0x80000000, 0x80000000⟩ 0x7ffff800
      = some (true,
          ⟨[⟨0x600000, 0x601000, 4, 2, 0, 0⟩, ⟨0x400000, 0x401000, 4, 0, 1, 0⟩], [],
            0x80000000, 0x7ffff000⟩)
    ∧ check_readable_segment
        ⟨[⟨0x600000, 0x601000, 4, 2, 0, 0⟩, ⟨0x400000, 0x401000, 4, 0, 1, 0⟩], [],
          0x80000000, 0x80000000⟩ 0x7ffff800
      = some (0,
          ⟨[⟨0x600000, 0x601000, 4, 2, 0, 0⟩, ⟨0x400000, 0x401000, 4, 0, 1, 0⟩], [],
            0x80000000, 0x7ffff000⟩) :=
  have hroom : 0x601000 + PAGE_SIZE < 0x80000000 := by decide
  have h := (stack_growth_on_fault
    ⟨[⟨0x600000, 0x601000, 4, 2, 0, 0⟩, ⟨0x400000, 0x401000, 4, 0, 1, 0⟩], [],
      0x80000000, 0x80000000⟩ 0x7ffff800 ⟨0x600000, 0x601000, 4, 2, 0, 0⟩
    rfl (by decide) (by decide) (by decide) (by decide) (by decide)).1 hroom
  ⟨hroom, h.1, h.2.1⟩

/-! ## The invariant `heap.end <= stack_top` -/

/-- The function `sys_sbrk` returns for every amount when the heap slot exists, and the
heap end it leaves is at or below `stack_top` when the one before was. -/
theorem sys_sbrk_heap_end_le_stack_top (as : addrspace) (h : heap_end_le_stack_top as)
    (amount : Int) :
    ∃ err ret as1, sys_sbrk as amount = some (err, ret, as1) ∧ heap_end_le_stack_top as1 := by
  obtain ⟨heap_segment, h0, hle⟩ := h
  have hlen : 0 < as.as_segment_array.length := by
    rw [List.get?_eq_some] at h0
    exact h0.1
  unfold sys_sbrk
  rw [h0]
  dsimp only
  split
  · exact ⟨_, _, _, rfl, heap_segment, h0, hle⟩
  · split
    · exact ⟨_, _, _, rfl, heap_segment, h0, hle⟩
    · split
      · exact ⟨_, _, _, rfl, heap_segment, h0, hle⟩
      · rename_i hstack
        split
        · exact ⟨_, _, _, rfl, heap_segment, h0, hle⟩
        · refine ⟨_, _, _, rfl,
            { heap_segment with
              segment_end := u32_add heap_segment.segment_end amount }, ?_, ?_⟩
          · simp [List.getElem?_set, hlen]
          · dsimp only
            omega

/-- The stack check returns when the heap slot exists, and the `stack_top` it leaves
is at or above the heap end when the one before was. -/
theorem check_within_stack_heap_end_le_stack_top (as : addrspace)
    (h : heap_end_le_stack_top as) (faultaddress : Nat) :
    ∃ b as1, check_within_stack as faultaddress = some (b, as1)
      ∧ heap_end_le_stack_top as1 := by
  obtain ⟨heap_segment, h0, hle⟩ := h
  unfold check_within_stack
  rw [h0]
  dsimp only
  split
  · exact ⟨_, _, rfl, heap_segment, h0, hle⟩
  · split
    · exact ⟨_, _, rfl, heap_segment, h0, hle⟩
    · rename_i hroom
      refine ⟨_, _, rfl, heap_segment, h0, ?_⟩
      dsimp only
      omega

/-- C10. If `heap.end <= stack_top` holds in an address space, then: every call of
`sys_sbrk` (any signed amount, accepted or rejected, the new end computed modulo
`2 ^ 32`) returns and leaves an address space in which it holds; every call of
`check_within_stack` (the stack growth of the fault handler) returns and leaves an
address space in which it holds; and it holds in the address space that `as_copy`
returns. -/
theorem heap_end_le_stack_top_preserved (as : addrspace) (h : heap_end_le_stack_top as) :
    (∀ amount : Int, ∃ err ret as1,
      sys_sbrk as amount = some (err, ret, as1) ∧ heap_end_le_stack_top as1)
    ∧ (∀ faultaddress, ∃ b as1,
      check_within_stack as faultaddress = some (b, as1) ∧ heap_end_le_stack_top as1)
    ∧ (∀ cm heap err new cm1,
      as_copy as cm heap = some (err, some new, cm1) → heap_end_le_stack_top new) := by
  refine ⟨sys_sbrk_heap_end_le_stack_top as h, check_within_stack_heap_end_le_stack_top as h, ?_⟩
  intro cm heap err new cm1 hrun
  obtain ⟨_, ⟨old_heap, new_heap, hold, hnew, _, hend⟩, _, htop⟩ :=
    as_copy_result _ _ _ _ _ _ hrun
  obtain ⟨heap_segment, h0, hle⟩ := h
  rw [hold] at h0
  cases h0
  exact ⟨new_heap, hnew, by rw [hend, htop]; exact hle⟩

/-- C10 at a concrete address space: heap `[0x600000, 0x601000)`,
`stack_top = 0x80000000`. `sys_sbrk(+0x1000)` moves the heap end to `0x602000`, a
fault at `0x7ffff800` lowers `stack_top` to `0x7ffff000`, `as_copy` returns a copy;
the invariant holds in all three resulting address spaces. -/
theorem heap_end_le_stack_top_preserved_witness :
    heap_end_le_stack_top
      ⟨[⟨0x600000, 0x601000, 4, 2, 0, 0⟩, ⟨0x400000, 0x401000, 4, 0, 1, 0⟩], [],
        0x80000000, 0x80000000⟩
    ∧ sys_sbrk
        ⟨[⟨0x600000, 0x601000, 4, 2, 0, 0⟩, ⟨0x400000, 0x401000, 4, 0, 1, 0⟩], [],
          0x80000000, 0x80000000⟩ 0x1000
      = some (0, 0x601000,
          ⟨[⟨0x600000, 0x602000, 4, 2, 0, 0⟩, ⟨0x400000, 0x401000, 4, 0, 1, 0⟩], [],
            0x80000000, 0x80000000⟩)
    ∧ heap_end_le_stack_top
        ⟨[⟨0x600000, 0x602000, 4, 2, 0, 0⟩, ⟨0x400000, 0x401000, 4, 0, 1, 0⟩], [],
          0x80000000, 0x80000000⟩
    ∧ heap_end_le_stack_top
        ⟨[⟨0x600000, 0x601000, 4, 2, 0, 0⟩, ⟨0x400000, 0x401000, 4, 0, 1, 0⟩], [],
          0x80000000, 0x7ffff000⟩
    ∧ as_copy
        ⟨[⟨0x600000, 0x601000, 4, 2, 0, 0⟩, ⟨0x400000, 0x401000, 4, 0, 1, 0⟩], [],
          0x80000000, 0x80000000⟩ ⟨[⟨false, 0⟩], 0x2000⟩ 3
      = some (0,
          some ⟨[⟨0x600000, 0x601000, 4, 2, 0, 0⟩, ⟨0x400000, 0x401000, 4, 0, 1, 0⟩], [],
            0x80000000, 0x80000000⟩, ⟨[⟨false, 0⟩], 0x2000⟩) :=
  have h0 : heap_end_le_stack_top
      ⟨[⟨0x600000, 0x601000, 4, 2, 0, 0⟩, ⟨0x400000, 0x401000, 4, 0, 1, 0⟩], [],
        0x80000000, 0x80000000⟩ := ⟨_, rfl, by decide⟩
  have h := heap_end_le_stack_top_preserved _ h0
  have h1 : sys_sbrk
        ⟨[⟨0x600000, 0x601000, 4, 2, 0, 0⟩, ⟨0x400000, 0x401000, 4, 0, 1, 0⟩], [],
          0x80000000, 0x80000000⟩ 0x1000
      = some (0, 0x601000,
          ⟨[⟨0x600000, 0x602000, 4, 2, 0, 0⟩, ⟨0x400000, 0x401000, 4, 0, 1, 0⟩], [],
            0x80000000, 0x80000000⟩) := by decide
  have h2 : check_within_stack
        ⟨[⟨0x600000, 0x601000, 4, 2, 0, 0⟩, ⟨0x400000, 0x401000, 4, 0, 1, 0⟩], [],
          0x80000000, 0x80000000⟩ 0x7ffff800
      = some (true,
          ⟨[⟨0x600000, 0x601000, 4, 2, 0, 0⟩, ⟨0x400000, 0x401000, 4, 0, 1, 0⟩], [],
            0x80000000, 0x7ffff000⟩) := by decide
  have h3 : as_copy
        ⟨[⟨0x600000, 0x601000, 4, 2, 0, 0⟩, ⟨0x400000, 0x401000, 4, 0, 1, 0⟩], [],
          0x80000000, 0x80000000⟩ ⟨[⟨false, 0⟩], 0x2000⟩ 3
      = some (0,
          some ⟨[⟨0x600000, 0x601000, 4, 2, 0, 0⟩, ⟨0x400000, 0x401000, 4, 0, 1, 0⟩], [],
            0x80000000, 0x80000000⟩, ⟨[⟨false, 0⟩], 0x2000⟩) := by decide
  ⟨h0, h1,
    (by
      obtain ⟨err, ret, as1, hrun, hinv⟩ := h.1 0x1000
      rw [h1] at hrun
      cases hrun
      exact hinv),
    (by
      obtain ⟨b, as1, hrun, hinv⟩ := h.2.1 0x7ffff800
      rw [h2] at hrun
      cases hrun
      exact hinv),
    h3⟩

/-! ## `sys_sbrk`: the cases -/

/-- The C remainder of `amount` by the page size is 0 exactly when `amount` is a
multiple of the page size. -/
theorem tmod_page_size (amount : Int) :
    Int.tmod amount PAGE_SIZE = 0 ↔ amount % 4096 = 0 := by
  have h : ((PAGE_SIZE : Nat) : Int) = 4096 := rfl
  rw [h]
  constructor
  · intro ht
    exact Int.emod_eq_zero_of_dvd (Int.dvd_of_tmod_eq_zero ht)
  · intro he
    exact Int.tmod_eq_zero_of_dvd (Int.dvd_of_emod_eq_zero he)

/-- The 32-bit sum of a 32-bit address and a signed amount is the mathematical sum
when that sum is a 32-bit address. -/
theorem u32_add_of_range (a : Nat) (amount : Int) (h0 : 0 ≤ (a : Int) + amount)
    (h1 : (a : Int) + amount < 2 ^ 32) : ((u32_add a amount : Nat) : Int) = (a : Int) + amount := by
  unfold u32_add
  rw [Int.emod_eq_of_lt h0 h1, Int.toNat_of_nonneg h0]

/-- The 32-bit sum of a 32-bit address and a signed amount, when the mathematical sum
is negative but not below `-2 ^ 32`, is that sum plus `2 ^ 32`. -/
theorem u32_add_of_neg (a : Nat) (amount : Int) (h0 : (a : Int) + amount < 0)
    (h1 : -(2 ^ 32) ≤ (a : Int) + amount) :
    ((u32_add a amount : Nat) : Int) = (a : Int) + amount + 2 ^ 32 := by
  unfold u32_add
  have h2 : ((a : Int) + amount) % 2 ^ 32 = (a : Int) + amount + 2 ^ 32 := by
    omega
  rw [h2, Int.toNat_of_nonneg (by omega)]

/-- The conversion to `int32_t` keeps the 32-bit pattern. -/
theorem to_int32_emod (v : Nat) (h : v < 2 ^ 32) : to_int32 v % 2 ^ 32 = (v : Int) := by
  unfold to_int32
  rw [Nat.mod_eq_of_lt h]
  split <;> omega

/-- The function `sys_sbrk` with an amount other than 0, on the 32-bit sum `new_end`. -/
theorem sys_sbrk_nonzero (as : addrspace) (heap_segment : segment) (amount : Int)
    (h0 : as.as_segment_array.get? 0 = some heap_segment) (hamount : amount ≠ 0) :
    sys_sbrk as amount
      = if Int.tmod amount PAGE_SIZE ≠ 0 then some (EINVAL, -1, as)
        else if u32_add heap_segment.segment_end amount ≥ as.as_stack_top then
          some (EINVAL, -1, as)
        else if u32_add heap_segment.segment_end amount < heap_segment.segment_start then
          some (EINVAL, -1, as)
        else some (0, to_int32 heap_segment.segment_end,
          with_heap_end as heap_segment (u32_add heap_segment.segment_end amount)) := by
  simp only [sys_sbrk, h0, hamount, if_false, with_heap_end]

/-- C11 (counterexample). Heap `[0x600000, 0x7ffff000)`, `stack_top = 0x80000000`,
`amount = 0x1000`: the amount is a multiple of the page size and
`new_end = 0x80000000` is neither greater than `stack_top` nor less than `heap.start`,
yet `sys_sbrk` fails with `EINVAL` and leaves the heap unchanged. -/
theorem sys_sbrk_rejects_new_end_eq_stack_top :
    (0x1000 : Int) % 4096 = 0
    ∧ ¬ ((0x7ffff000 : Int) + 0x1000 > 0x80000000)
    ∧ ¬ ((0x7ffff000 : Int) + 0x1000 < 0x600000)
    ∧ sys_sbrk
        ⟨[⟨0x600000, 0x7ffff000, 4, 2, 0, 0⟩, ⟨0x400000, 0x401000, 4, 0, 1, 0⟩], [],
          0x80000000, 0x80000000⟩ 0x1000
      = some (EINVAL, -1,
          ⟨[⟨0x600000, 0x7ffff000, 4, 2, 0, 0⟩, ⟨0x400000, 0x401000, 4, 0, 1, 0⟩], [],
            0x80000000, 0x80000000⟩) := by
  decide

/-- C11 (amended). In an address space with `heap.end <= stack_top <= USERSTACK` and for
every signed 32-bit amount, with `new_end = heap.end + amount`:
`sys_sbrk(0)` succeeds, returns `heap.end` and changes nothing;
for an amount other than 0, `sys_sbrk` fails with `EINVAL` and leaves the address space
unchanged if the amount is not a multiple of the page size, if `new_end >= stack_top`,
or if `new_end < heap.start`;
in every other case it succeeds, sets `heap.end = new_end`, changes nothing else and
returns the previous `heap.end` (as the `int32_t` with the same 32-bit pattern). -/
theorem sys_sbrk_cases (as : addrspace) (heap_segment : segment) (amount : Int)
    (h0 : as.as_segment_array.get? 0 = some heap_segment)
    (hle : heap_segment.segment_end ≤ as.as_stack_top)
    (htop : as.as_stack_top ≤ USERSTACK)
    (hlo : -(2 ^ 31) ≤ amount) (hhi : amount < 2 ^ 31) :
    (amount = 0 → sys_sbrk as amount = some (0, to_int32 heap_segment.segment_end, as))
    ∧ (amount ≠ 0 →
        (amount % 4096 ≠ 0
          ∨ (as.as_stack_top : Int) ≤ heap_segment.segment_end + amount
          ∨ (heap_segment.segment_end : Int) + amount < heap_segment.segment_start) →
        sys_sbrk as amount = some (EINVAL, -1, as))
    ∧ (amount ≠ 0 → amount % 4096 = 0 →
        (heap_segment.segment_end : Int) + amount < as.as_stack_top →
        (heap_segment.segment_start : Int) ≤ heap_segment.segment_end + amount →
        sys_sbrk as amount
          = some (0, to_int32 heap_segment.segment_end,
              with_heap_end as heap_segment
                ((heap_segment.segment_end : Int) + amount).toNat))
    ∧ to_int32 heap_segment.segment_end % 2 ^ 32 = (heap_segment.segment_end : Int) := by
  unfold USERSTACK at htop
  refine ⟨?_, ?_, ?_, ?_⟩
  · intro hz
    simp only [sys_sbrk, h0, hz, if_true]
  · intro hnz hcase
    rw [sys_sbrk_nonzero as heap_segment amount h0 hnz]
    by_cases ht : Int.tmod amount PAGE_SIZE ≠ 0
    · rw [if_pos ht]
    · rw [if_neg ht]
      have ht0 : amount % 4096 = 0 := (tmod_page_size amount).1 (by simpa using ht)
      by_cases hneg : (heap_segment.segment_end : Int) + amount < 0
      · have hu := u32_add_of_neg heap_segment.segment_end amount hneg (by omega)
        have hge : u32_add heap_segment.segment_end amount ≥ as.as_stack_top := by omega
        rw [if_pos hge]
      · have hu := u32_add_of_range heap_segment.segment_end amount (by omega) (by omega)
        by_cases hge : u32_add heap_segment.segment_end amount ≥ as.as_stack_top
        · rw [if_pos hge]
        · rw [if_neg hge]
          have hlt : u32_add heap_segment.segment_end amount < heap_segment.segment_start := by
            omega
          rw [if_pos hlt]
  · intro hnz hal hstack hstart
    rw [sys_sbrk_nonzero as heap_segment amount h0 hnz]
    have ht : ¬ (Int.tmod amount PAGE_SIZE ≠ 0) := by
      simpa using (tmod_page_size amount).2 hal
    have hu := u32_add_of_range heap_segment.segment_end amount (by omega) (by omega)
    have hge : ¬ (u32_add heap_segment.segment_end amount ≥ as.as_stack_top) := by omega
    have hlt : ¬ (u32_add heap_segment.segment_end amount < heap_segment.segment_start) := by
      omega
    have heq : u32_add heap_segment.segment_end amount
        = ((heap_segment.segment_end : Int) + amount).toNat := by omega
    rw [if_neg ht, if_neg hge, if_neg hlt, heq]
  · exact to_int32_emod _ (by omega)

/-- C11 at a concrete address space: heap `[0x600000, 0x601000)`,
`stack_top = 0x80000000`; `sys_sbrk(+0x2000)` succeeds, returns `0x601000` and moves
the heap end to `0x603000`; `sys_sbrk(-0x2000)` would end below `heap.start` and fails
with `EINVAL`. -/
theorem sys_sbrk_cases_witness :
    sys_sbrk
        ⟨[⟨0x600000, 0x601000, 4, 2, 0, 0⟩, ⟨0x400000, 0x401000, 4, 0, 1, 0⟩], [],
          0x80000000, 0x80000000⟩ 0x2000
      = some (0, 0x601000,
          ⟨[⟨0x600000, 0x603000, 4, 2, 0, 0⟩, ⟨0x400000, 0x401000, 4, 0, 1, 0⟩], [],
            0x80000000, 0x80000000⟩)
    ∧ sys_sbrk
        ⟨[⟨0x600000, 0x601000, 4, 2, 0, 0⟩, ⟨0x400000, 0x401000, 4, 0, 1, 0⟩], [],
          0x80000000, 0x80000000⟩ (-0x2000)
      = some (EINVAL, -1,
          ⟨[⟨0x600000, 0x601000, 4, 2, 0, 0⟩, ⟨0x400000, 0x401000, 4, 0, 1, 0⟩], [],
            0x80000000, 0x80000000⟩) :=
  ⟨(sys_sbrk_cases
      ⟨[⟨0x600000, 0x601000, 4, 2, 0, 0⟩, ⟨0x400000, 0x401000, 4, 0, 1, 0⟩], [],
        0x80000000, 0x80000000⟩ ⟨0x600000, 0x601000, 4, 2, 0, 0⟩ 0x2000
      rfl (by decide) (by decide) (by decide) (by decide)).2.2.1
      (by decide) (by decide) (by decide) (by decide),
   (sys_sbrk_cases
      ⟨[⟨0x600000, 0x601000, 4, 2, 0, 0⟩, ⟨0x400000, 0x401000, 4, 0, 1, 0⟩], [],
        0x80000000, 0x80000000⟩ ⟨0x600000, 0x601000, 4, 2, 0, 0⟩ (-0x2000)
      rfl (by decide) (by decide) (by decide) (by decide)).2.1
      (by decide) (Or.inr (Or.inr (by decide)))⟩

/-- C12 (counterexample). An address space whose heap `[0x80000000, 0x80000000)`
already ends at `stack_top = 0x80000000` (the heap starts right above a segment that
ends there), and `amount = 0`: the amount is page-aligned and
`heap.end + amount == stack_top`, yet `sys_sbrk` is not rejected; it returns 0. -/
theorem sys_sbrk_zero_at_stack_top :
    (0 : Int) % 4096 = 0
    ∧ (0x80000000 : Int) + 0 = 0x80000000
    ∧ sys_sbrk
        ⟨[⟨0x80000000, 0x80000000, 4, 2, 0, 0⟩, ⟨0x7ffff000, 0x80000000, 4, 2, 0, 0⟩], [],
          0x80000000, 0x80000000⟩ 0
      = some (0, to_int32 0x80000000,
          ⟨[⟨0x80000000, 0x80000000, 4, 2, 0, 0⟩, ⟨0x7ffff000, 0x80000000, 4, 2, 0, 0⟩], [],
            0x80000000, 0x80000000⟩) := by
  decide

/-- C12 (amended). For every address space and every page-aligned amount other than 0
such that `heap.end + amount == stack_top`, `sys_sbrk` is rejected with `EINVAL` and
the address space, `heap.end` included, is unchanged. -/
theorem sys_sbrk_rejects_collision (as : addrspace) (heap_segment : segment) (amount : Int)
    (h0 : as.as_segment_array.get? 0 = some heap_segment)
    (hnz : amount ≠ 0) (hal : amount % 4096 = 0)
    (heq : (heap_segment.segment_end : Int) + amount = as.as_stack_top)
    (hst : as.as_stack_top < 2 ^ 32) :
    sys_sbrk as amount = some (EINVAL, -1, as) := by
  rw [sys_sbrk_nonzero as heap_segment amount h0 hnz]
  have ht : ¬ (Int.tmod amount PAGE_SIZE ≠ 0) := by
    simpa using (tmod_page_size amount).2 hal
  have hu := u32_add_of_range heap_segment.segment_end amount (by omega) (by omega)
  have hge : u32_add heap_segment.segment_end amount ≥ as.as_stack_top := by omega
  rw [if_neg ht, if_pos hge]

/-- C12 at a concrete address space: heap `[0x600000, 0x7ffff000)`,
`stack_top = 0x80000000`, so `heap.end + PAGE_SIZE == stack_top`; `sys_sbrk(+PAGE_SIZE)`
is rejected with `EINVAL`. -/
theorem sys_sbrk_rejects_collision_witness :
    (0x7ffff000 : Int) + PAGE_SIZE = 0x80000000
    ∧ sys_sbrk
        ⟨[⟨0x600000, 0x7ffff000, 4, 2, 0, 0⟩, ⟨0x400000, 0x401000, 4, 0, 1, 0⟩], [],
          0x80000000, 0x80000000⟩ PAGE_SIZE
      = some (EINVAL, -1,
          ⟨[⟨0x600000, 0x7ffff000, 4, 2, 0, 0⟩, ⟨0x400000, 0x401000, 4, 0, 1, 0⟩], [],
            0x80000000, 0x80000000⟩) :=
  ⟨by decide,
   sys_sbrk_rejects_collision
      ⟨[⟨0x600000, 0x7ffff000, 4, 2, 0, 0⟩, ⟨0x400000, 0x401000, 4, 0, 1, 0⟩], [],
        0x80000000, 0x80000000⟩ ⟨0x600000, 0x7ffff000, 4, 2, 0, 0⟩ PAGE_SIZE
      rfl (by decide) (by decide) (by decide) (by decide)⟩

/-! ## The stack fault next to the heap -/

/-- C14. In an address space with `heap.start <= heap.end <= stack_top <= USERSTACK`, let
`sys_sbrk(+k)` succeed for a positive signed 32-bit `k` (which is then page-aligned).
The first call sets `heap.end` to `heap.end + k` and changes nothing else; the following
`sys_sbrk(-k)` succeeds, returns `heap.end + k` (the break set by the first call) and
leaves exactly the original address space: `heap.end` is restored, `heap.start` and
`stack_top` never changed. -/
theorem sys_sbrk_grow_then_shrink (as as1 : addrspace) (heap_segment : segment)
    (k r1 : Int) (h0 : as.as_segment_array.get? 0 = some heap_segment)
    (hse : heap_segment.segment_start ≤ heap_segment.segment_end)
    (hle : heap_segment.segment_end ≤ as.as_stack_top)
    (htop : as.as_stack_top ≤ USERSTACK)
    (hk : 0 < k) (hk31 : k < 2 ^ 31)
    (h1 : sys_sbrk as k = some (0, r1, as1)) :
    as1 = with_heap_end as heap_segment ((heap_segment.segment_end : Int) + k).toNat
    ∧ sys_sbrk as1 (-k) = some (0, (heap_segment.segment_end : Int) + k, as) := by
  unfold USERSTACK at htop
  have hu := u32_add_of_range heap_segment.segment_end k (by omega) (by omega)
  rw [sys_sbrk_nonzero as heap_segment k h0 (by omega)] at h1
  by_cases ht : Int.tmod k PAGE_SIZE ≠ 0
  · rw [if_pos ht] at h1
    simp [EINVAL] at h1
  · rw [if_neg ht] at h1
    by_cases hge : u32_add heap_segment.segment_end k ≥ as.as_stack_top
    · rw [if_pos hge] at h1
      simp [EINVAL] at h1
    · rw [if_neg hge] at h1
      by_cases hlt : u32_add heap_segment.segment_end k < heap_segment.segment_start
      · rw [if_pos hlt] at h1
        simp [EINVAL] at h1
      · rw [if_neg hlt] at h1
        simp only [Option.some.injEq, Prod.mk.injEq, true_and] at h1
        have heq : u32_add heap_segment.segment_end k
            = ((heap_segment.segment_end : Int) + k).toNat := by omega
        have has1 : as1 = with_heap_end as heap_segment
            ((heap_segment.segment_end : Int) + k).toNat := by
          rw [← h1.2, heq]
        refine ⟨has1, ?_⟩
        have hal : k % 4096 = 0 := (tmod_page_size k).1 (by simpa using ht)
        have hlen : 0 < as.as_segment_array.length := by
          rw [List.get?_eq_some] at h0
          exact h0.1
        have h01 : as1.as_segment_array.get? 0
            = some ({ heap_segment with
                segment_end := ((heap_segment.segment_end : Int) + k).toNat }) := by
          rw [has1]
          simp [with_heap_end, List.getElem?_set, hlen]
        rw [sys_sbrk_nonzero as1 _ (-k) h01 (by omega)]
        have ht2 : ¬ (Int.tmod (-k) PAGE_SIZE ≠ 0) := by
          have : (-k) % 4096 = 0 := by omega
          simpa using (tmod_page_size (-k)).2 this
        have hu2 := u32_add_of_range ((heap_segment.segment_end : Int) + k).toNat (-k)
          (by omega) (by omega)
        have htop1 : as1.as_stack_top = as.as_stack_top := by
          rw [has1]; rfl
        have hge2 : ¬ (u32_add ((heap_segment.segment_end : Int) + k).toNat (-k)
            ≥ as1.as_stack_top) := by
          rw [htop1]; omega
        have hlt2 : ¬ (u32_add ((heap_segment.segment_end : Int) + k).toNat (-k)
            < heap_segment.segment_start) := by
          omega
        have hend : u32_add ((heap_segment.segment_end : Int) + k).toNat (-k)
            = heap_segment.segment_end := by omega
        have hret : to_int32 ((heap_segment.segment_end : Int) + k).toNat
            = (heap_segment.segment_end : Int) + k := by
          unfold to_int32
          have hm : ((heap_segment.segment_end : Int) + k).toNat % 2 ^ 32
              = ((heap_segment.segment_end : Int) + k).toNat := by omega
          rw [hm]
          split <;> omega
        dsimp only
        rw [if_neg ht2, if_neg hge2, if_neg hlt2, hend, hret]
        have hback : with_heap_end as1
            ({ heap_segment with
              segment_end := ((heap_segment.segment_end : Int) + k).toNat })
            heap_segment.segment_end = as := by
          rw [has1]
          cases has : as.as_segment_array with
          | nil => rw [has] at hlen; simp at hlen
          | cons hd tl =>
            rw [has] at h0
            simp only [List.get?_cons_zero, Option.some.injEq] at h0
            cases as
            simp only at has
            subst has
            subst h0
            simp [with_heap_end]
        rw [hback]

/-- C14 at a concrete address space: heap `[0x600000, 0x601000)`,
`stack_top = 0x80000000`; `sys_sbrk(+0x2000)` succeeds and `sys_sbrk(-0x2000)` returns
`0x603000` and gives back the original address space. -/
theorem sys_sbrk_grow_then_shrink_witness :
    sys_sbrk
        ⟨[⟨0x600000, 0x601000, 4, 2, 0, 0⟩, ⟨0x400000, 0x401000, 4, 0, 1, 0⟩], [],
          0x80000000, 0x80000000⟩ 0x2000
      = some (0, 0x601000,
          ⟨[⟨0x600000, 0x603000, 4, 2, 0, 0⟩, ⟨0x400000, 0x401000, 4, 0, 1, 0⟩], [],
            0x80000000, 0x80000000⟩)
    ∧ sys_sbrk
        ⟨[⟨0x600000, 0x603000, 4, 2, 0, 0⟩, ⟨0x400000, 0x401000, 4, 0, 1, 0⟩], [],
          0x80000000, 0x80000000⟩ (-0x2000)
      = some (0, 0x603000,
          ⟨[⟨0x600000, 0x601000, 4, 2, 0, 0⟩, ⟨0x400000, 0x401000, 4, 0, 1, 0⟩], [],
            0x80000000, 0x80000000⟩) :=
  have h1 : sys_sbrk
        ⟨[⟨0x600000, 0x601000, 4, 2, 0, 0⟩, ⟨0x400000, 0x401000, 4, 0, 1, 0⟩], [],
          0x80000000, 0x80000000⟩ 0x2000
      = some (0, 0x601000,
          ⟨[⟨0x600000, 0x603000, 4, 2, 0, 0⟩, ⟨0x400000, 0x401000, 4, 0, 1, 0⟩], [],
            0x80000000, 0x80000000⟩) := by decide
  ⟨h1, (sys_sbrk_grow_then_shrink
      ⟨[⟨0x600000, 0x601000, 4, 2, 0, 0⟩, ⟨0x400000, 0x401000, 4, 0, 1, 0⟩], [],
        0x80000000, 0x80000000⟩
      ⟨[⟨0x600000, 0x603000, 4, 2, 0, 0⟩, ⟨0x400000, 0x401000, 4, 0, 1, 0⟩], [],
        0x80000000, 0x80000000⟩
      ⟨0x600000, 0x601000, 4, 2, 0, 0⟩ 0x2000 0x601000
      rfl (by decide) (by decide) (by decide) (by decide) (by decide) h1).2⟩

/-! ## The PID allocator -/

/-- The loop of `get_process_id` from `current_pid` on, when `p` is the lowest free PID
at or above `current_pid`: it returns `p` and marks it. -/
theorem get_process_id_loop_free (t : List Nat) (p : Nat) (hp : t.get? p = some 0)
    (hbelow : ∀ q, q < p → t.get? q ≠ some 0 ∨ q < 2) :
    ∀ left cur, left = t.length - cur → 2 ≤ cur → cur ≤ p →
      get_process_id_loop t left (cur : Int) = some ((p : Int), t.set p 1) := by
  have hplen : p < t.length := by
    rw [List.get?_eq_some] at hp
    exact hp.1
  intro left
  induction left with
  | zero => intro cur h1 _ h3; omega
  | succ left ih =>
    intro cur h1 h2 h3
    have hcur : cur < t.length := by omega
    by_cases hcp : cur = p
    · subst hcp
      simp only [get_process_id_loop, Int.toNat_ofNat, hp, if_true]
    · obtain ⟨v, hv⟩ : ∃ v, t.get? cur = some v :=
        ⟨t.get ⟨cur, hcur⟩, List.get?_eq_get hcur⟩
      have hv0 : v ≠ 0 := by
        intro h0
        rcases hbelow cur (by omega) with h | h
        · exact h (by rw [hv, h0])
        · omega
      simp only [get_process_id_loop, Int.toNat_ofNat, hv, hv0, if_false]
      have := ih (cur + 1) (by omega) (by omega) (by omega)
      simpa using this

/-- The loop of `get_process_id` from `current_pid` on, when no PID at or above
`current_pid` is free: it returns 0 and leaves the table. -/
theorem get_process_id_loop_full (t : List Nat)
    (hall : ∀ q, 2 ≤ q → q < t.length → t.get? q ≠ some 0) :
    ∀ left cur, left = t.length - cur → 2 ≤ cur →
      get_process_id_loop t left (cur : Int) = some (0, t) := by
  intro left
  induction left with
  | zero => intro cur _ _; rfl
  | succ left ih =>
    intro cur h1 h2
    have hcur : cur < t.length := by omega
    obtain ⟨v, hv⟩ : ∃ v, t.get? cur = some v :=
      ⟨t.get ⟨cur, hcur⟩, List.get?_eq_get hcur⟩
    have hv0 : v ≠ 0 := by
      intro h0
      exact hall cur h2 hcur (by rw [hv, h0])
    simp only [get_process_id_loop, Int.toNat_ofNat, hv, hv0, if_false]
    have := ih (cur + 1) (by omega) (by omega)
    simpa using this

/-- The number of iterations of the loop of `get_process_id`. -/
theorem get_process_id_iterations (t : List Nat) :
    (PID_MAX t - PID_MIN + 1).toNat = t.length - 2 := by
  unfold PID_MAX PID_MIN
  omega

/-- The function `get_process_id` when `p` is the lowest free PID from `PID_MIN` on. -/
theorem get_process_id_free (t : List Nat) (p : Nat) (hp2 : 2 ≤ p)
    (hp : t.get? p = some 0) (hbelow : ∀ q, 2 ≤ q → q < p → t.get? q ≠ some 0) :
    get_process_id t = some ((p : Int), t.set p 1) := by
  have hplen : p < t.length := by
    rw [List.get?_eq_some] at hp
    exact hp.1
  unfold get_process_id
  rw [get_process_id_iterations]
  have := get_process_id_loop_free t p hp
    (fun q hq => by
      by_cases h2 : 2 ≤ q
      · exact Or.inl (hbelow q h2 hq)
      · exact Or.inr (by omega))
    (t.length - 2) 2 rfl (by omega) hp2
  simpa [PID_MIN] using this

/-- The function `get_process_id` when no PID from `PID_MIN` on is free. -/
theorem get_process_id_full (t : List Nat)
    (hall : ∀ q, 2 ≤ q → q < t.length → t.get? q ≠ some 0) :
    get_process_id t = some (0, t) := by
  unfold get_process_id
  rw [get_process_id_iterations]
  have := get_process_id_loop_full t hall (t.length - 2) 2 rfl (by omega)
  simpa [PID_MIN] using this

/-- Either no PID from `PID_MIN` on is free, or there is a lowest free one. -/
theorem pid_table_cases (t : List Nat) :
    (∀ q, 2 ≤ q → q < t.length → t.get? q ≠ some 0)
      ∨ ∃ p : Nat, 2 ≤ p ∧ t.get? p = some 0
          ∧ ∀ q, 2 ≤ q → q < p → t.get? q ≠ some 0 := by
  by_cases hex : ∃ p : Nat, 2 ≤ p ∧ t.get? p = some 0
  · right
    refine ⟨Nat.find hex, (Nat.find_spec hex).1, (Nat.find_spec hex).2, ?_⟩
    intro q hq2 hq hq0
    exact Nat.find_min hex hq ⟨hq2, hq0⟩
  · left
    intro q hq2 _ hq0
    exact hex ⟨q, hq2, hq0⟩

/-- The function `get_process_id` returns for every table. -/
theorem get_process_id_returns (t : List Nat) : ∃ r, get_process_id t = some r := by
  rcases pid_table_cases t with hall | ⟨p, hp2, hp, hbelow⟩
  · exact ⟨_, get_process_id_full t hall⟩
  · exact ⟨_, get_process_id_free t p hp2 hp hbelow⟩

/-- C15. For every PID table: if `p` is the lowest free PID in `[PID_MIN, PID_MAX]`,
`get_process_id` returns `p`, marks exactly `p` allocated and leaves every other entry
unchanged; it returns 0 with the table unchanged exactly when no PID in that range is
free; it always returns. Hence a PID it returns other than the failure value 0 is at
least `PID_MIN` (so neither 0 nor the kernel PID 1), at most `PID_MAX`, and was free
before the call. -/
theorem get_process_id_lowest_free (t : List Nat) :
    (∀ p : Nat, 2 ≤ p → t.get? p = some 0 →
      (∀ q, 2 ≤ q → q < p → t.get? q ≠ some 0) →
      get_process_id t = some ((p : Int), t.set p 1))
    ∧ ((∀ q, 2 ≤ q → q < t.length → t.get? q ≠ some 0) ↔ get_process_id t = some (0, t))
    ∧ (∃ r, get_process_id t = some r)
    ∧ (∀ pid t1, get_process_id t = some (pid, t1) → pid ≠ 0 →
        PID_MIN ≤ pid ∧ pid ≤ PID_MAX t ∧ pid ≠ 1
          ∧ t.get? pid.toNat = some 0 ∧ t1 = t.set pid.toNat 1) := by
  refine ⟨get_process_id_free t, ⟨get_process_id_full t, ?_⟩, get_process_id_returns t, ?_⟩
  · intro hres
    rcases pid_table_cases t with hall | ⟨p, hp2, hp, hbelow⟩
    · exact hall
    · rw [get_process_id_free t p hp2 hp hbelow] at hres
      simp only [Option.some.injEq, Prod.mk.injEq] at hres
      have : (p : Int) = 0 := hres.1
      omega
  · intro pid t1 hres hne
    rcases pid_table_cases t with hall | ⟨p, hp2, hp, hbelow⟩
    · rw [get_process_id_full t hall] at hres
      simp only [Option.some.injEq, Prod.mk.injEq] at hres
      exact absurd hres.1.symm hne
    · rw [get_process_id_free t p hp2 hp hbelow] at hres
      simp only [Option.some.injEq, Prod.mk.injEq] at hres
      have hplen : p < t.length := by
        rw [List.get?_eq_some] at hp
        exact hp.1
      rw [← hres.1, ← hres.2]
      refine ⟨?_, ?_, ?_, ?_, ?_⟩
      · unfold PID_MIN; omega
      · unfold PID_MAX; omega
      · omega
      · simpa using hp
      · simp

/-- C15 at a concrete table with `PID_MAX = 5` in which the PIDs 2 and 4 are allocated:
the call returns 3 and marks it; on the table without a free PID it returns 0. -/
theorem get_process_id_lowest_free_witness :
    get_process_id [1, 1, 1, 0, 1, 0] = some (3, [1, 1, 1, 1, 1, 0])
    ∧ get_process_id [1, 1, 1, 1, 1, 1] = some (0, [1, 1, 1, 1, 1, 1]) :=
  ⟨(get_process_id_lowest_free [1, 1, 1, 0, 1, 0]).1 3 (by decide) rfl
      (fun q h2 h3 => by
        have hq : q = 2 := by omega
        subst hq
        decide),
   (get_process_id_lowest_free [1, 1, 1, 1, 1, 1]).2.1.1
      (fun q h2 h3 => by
        have h6 : q < 6 := h3
        interval_cases q <;> decide)⟩

/-! ## Members of a process under the assignments of the reaping loop -/

/-- Decrementing `p_child_index` leaves `p_is_zombie`. -/
theorem dec_child_index_is_zombie (c : proc) :
    c.dec_child_index.p_is_zombie = c.p_is_zombie := by
  cases c with
  | mk pid arr index n status zombie =>
    simp only [proc.dec_child_index, proc.set_child_index, proc.p_is_zombie]

/-- Decrementing `p_child_index` leaves `p_process_id`. -/
theorem dec_child_index_process_id (c : proc) :
    c.dec_child_index.p_process_id = c.p_process_id := by
  cases c with
  | mk pid arr index n status zombie =>
    simp only [proc.dec_child_index, proc.set_child_index, proc.p_process_id]

/-- Decrementing `p_child_index` does not show once that member is blanked. -/
theorem dec_child_index_forget (c : proc) :
    c.dec_child_index.forget_child_index = c.forget_child_index := by
  cases c with
  | mk pid arr index n status zombie =>
    simp only [proc.dec_child_index, proc.set_child_index, proc.forget_child_index]

/-- Decrementing `p_child_index` leaves the child array. -/
theorem dec_child_index_child_process_arr (c : proc) :
    c.dec_child_index.p_child_process_arr = c.p_child_process_arr := by
  cases c with
  | mk pid arr index n status zombie =>
    simp only [proc.dec_child_index, proc.set_child_index, proc.p_child_process_arr]

/-- The member `p_child_index` after the assignment `p->p_child_index = v`. -/
theorem set_child_index_child_index (pid : Int) (arr : List proc) (index : Nat)
    (n status : Int) (zombie : Nat) (v : Nat) :
    ((proc.mk pid arr index n status zombie).set_child_index v).p_child_index = v := rfl

/-- The value of `p_child_index` after one decrement, when it was positive. -/
theorem dec_child_index_child_index (c : proc) (h1 : 1 ≤ c.p_child_index)
    (h2 : c.p_child_index < 2 ^ 32) :
    c.dec_child_index.p_child_index = c.p_child_index - 1 := by
  cases c with
  | mk pid arr index n status zombie =>
    simp only [proc.p_child_index] at h1 h2
    unfold proc.dec_child_index
    rw [set_child_index_child_index]
    simp only [proc.p_child_index]
    omega

/-- Repeated decrements leave `p_is_zombie`. -/
theorem iterate_dec_is_zombie (d : Nat) (c : proc) :
    (proc.dec_child_index^[d] c).p_is_zombie = c.p_is_zombie := by
  induction d with
  | zero => rfl
  | succ d ih => rw [Function.iterate_succ_apply', dec_child_index_is_zombie, ih]

/-- Repeated decrements do not show once `p_child_index` is blanked. -/
theorem iterate_dec_forget (d : Nat) (c : proc) :
    (proc.dec_child_index^[d] c).forget_child_index = c.forget_child_index := by
  induction d with
  | zero => rfl
  | succ d ih => rw [Function.iterate_succ_apply', dec_child_index_forget, ih]

/-- Repeated decrements leave `p_process_id`. -/
theorem iterate_dec_process_id (d : Nat) (c : proc) :
    (proc.dec_child_index^[d] c).p_process_id = c.p_process_id := by
  induction d with
  | zero => rfl
  | succ d ih => rw [Function.iterate_succ_apply', dec_child_index_process_id, ih]

/-- Repeated decrements leave the child array. -/
theorem iterate_dec_child_process_arr (d : Nat) (c : proc) :
    (proc.dec_child_index^[d] c).p_child_process_arr = c.p_child_process_arr := by
  induction d with
  | zero => rfl
  | succ d ih => rw [Function.iterate_succ_apply', dec_child_index_child_process_arr, ih]

/-- The function `proc_destroy` returns exactly for a process without children and
without threads, and then it has deallocated the PID of the process: with a child in
the array, the loop leaves the child at index 0 and `array_destroy` fails. -/
theorem proc_destroy_eq (p_threads : Int → Nat) (c : proc) (t : List Nat) :
    proc_destroy p_threads c t
      = if destroyable p_threads c then some (dealloc_process_id t c.p_process_id).2
        else none := by
  cases c with
  | mk pid arr index n status zombie =>
    cases arr with
    | nil =>
      by_cases hth : p_threads pid = 0
      · simp [proc_destroy, destroyable, threadarray_cleanup, array_destroy, hth,
          proc.p_child_process_arr, proc.p_process_id]
      · simp [proc_destroy, destroyable, threadarray_cleanup, hth,
          proc.p_child_process_arr, proc.p_process_id]
    | cons a rest =>
      have hd : destroyable p_threads (.mk pid (a :: rest) index n status zombie) = false := by
        simp [destroyable, proc.p_child_process_arr]
      rw [hd]
      simp only [proc_destroy, Bool.false_eq_true, if_false]
      cases threadarray_cleanup (p_threads pid) with
      | none => rfl
      | some u =>
        simp only
        cases proc_destroy_children p_threads rest (dealloc_process_id t pid).2 with
        | none => rfl
        | some t1 => simp [array_destroy]

/-- Repeated decrements of `p_child_index` do not change whether a process gets through
`proc_destroy`. -/
theorem destroyable_iterate_dec (p_threads : Int → Nat) (d : Nat) (c : proc) :
    destroyable p_threads (proc.dec_child_index^[d] c) = destroyable p_threads c := by
  unfold destroyable
  rw [iterate_dec_child_process_arr, iterate_dec_process_id]

/-- The value of `p_child_index` after `d` decrements, when it was at least `d`. -/
theorem iterate_dec_child_index (d : Nat) (c : proc) (h1 : d ≤ c.p_child_index)
    (h2 : c.p_child_index < 2 ^ 32) :
    (proc.dec_child_index^[d] c).p_child_index = c.p_child_index - d := by
  induction d with
  | zero => rfl
  | succ d ih =>
    have hd := ih (by omega)
    rw [Function.iterate_succ_apply', dec_child_index_child_index _ (by omega) (by omega), hd]
    omega

/-! ## The reaping loop of `sys__exit` -/

/-- The inner loop of the reaping loop decrements `p_child_index` of every child from
position `j` on. -/
theorem sys__exit_update_eq (rest : List proc) :
    ∀ done : List proc,
      sys__exit_update rest.length done.length (done ++ rest)
        = some (done ++ rest.map proc.dec_child_index) := by
  induction rest with
  | nil => intro done; simp [sys__exit_update]
  | cons c rest ih =>
    intro done
    have hget : (done ++ c :: rest).get? done.length = some c := by
      rw [List.get?_eq_getElem?, List.getElem?_append_right (le_refl _)]
      simp
    have hset : (done ++ c :: rest).set done.length c.dec_child_index
        = (done ++ [c.dec_child_index]) ++ rest := by simp
    simp only [List.length_cons, sys__exit_update, hget, hset]
    have := ih (done ++ [c.dec_child_index])
    simpa using this

/-- Whether every zombie of a child array gets through `proc_destroy`, by the first
child. -/
theorem reapable_cons (p_threads : Int → Nat) (c : proc) (rest : List proc) :
    reapable p_threads (c :: rest)
      = ((decide (c.p_is_zombie ≠ 1) || destroyable p_threads c) && reapable p_threads rest) := by
  simp only [reapable, List.all_cons]

/-- The reaping loop, started behind the children `done` that it keeps, with `d`
children removed so far: when every zombie that is left gets through `proc_destroy`, it
does what the reaping pass describes, and in particular it ends within as many
iterations as there are children left; otherwise an assertion inside `proc_destroy`
fails. -/
theorem sys__exit_reap_eq (p_threads : Int → Nat) (rest : List proc) :
    ∀ (d : Nat) (done : List proc) (t : List Nat) (destroyed : List proc),
      sys__exit_reap p_threads rest.length (done.length : Int)
          ((done.length + rest.length : Nat) : Int)
          (done ++ rest.map (proc.dec_child_index^[d])) t destroyed
        = if reapable p_threads rest then
            some (done ++ (reap_pass d rest t).1, (reap_pass d rest t).2.1,
              destroyed ++ (reap_pass d rest t).2.2)
          else none := by
  induction rest with
  | nil =>
    intro d done t destroyed
    simp [sys__exit_reap, reap_pass, reapable]
  | cons c rest ih =>
    intro d done t destroyed
    have hlt : (done.length : Int) < ((done.length + (c :: rest).length : Nat) : Int) := by
      simp only [List.length_cons]; omega
    have hnn : ¬ ((done.length : Int) < 0) := by omega
    have hget : (done ++ (c :: rest).map (proc.dec_child_index^[d])).get? done.length
        = some (proc.dec_child_index^[d] c) := by
      rw [List.get?_eq_getElem?, List.getElem?_append_right (le_refl _)]
      simp
    simp only [List.length_cons, sys__exit_reap]
    simp only [List.length_cons] at hlt
    rw [if_pos hlt, if_neg hnn]
    simp only [Int.toNat_ofNat, hget]
    by_cases hz : (proc.dec_child_index^[d] c).p_is_zombie = 1
    · have hzc : c.p_is_zombie = 1 := by
        rw [iterate_dec_is_zombie] at hz; exact hz
      rw [if_pos hz, proc_destroy_eq, destroyable_iterate_dec, iterate_dec_process_id]
      by_cases hdes : destroyable p_threads c = true
      · have hre : reapable p_threads (c :: rest) = reapable p_threads rest := by
          rw [reapable_cons, hdes]
          simp
        have herase :
            (done ++ (c :: rest).map (proc.dec_child_index^[d])).eraseIdx done.length
            = done ++ rest.map (proc.dec_child_index^[d]) := by
          simp [List.eraseIdx_append_of_length_le]
        have hlen : (((done ++ rest.map (proc.dec_child_index^[d])).length : Int)
            - (done.length : Int)).toNat = (rest.map (proc.dec_child_index^[d])).length := by
          simp
        have hupd := sys__exit_update_eq (rest.map (proc.dec_child_index^[d])) done
        have hmap : (rest.map (proc.dec_child_index^[d])).map proc.dec_child_index
            = rest.map (proc.dec_child_index^[d + 1]) := by
          rw [List.map_map]
          apply List.map_congr_left
          intro a _
          exact (Function.iterate_succ_apply' _ _ _).symm
        rw [hmap] at hupd
        have hne : ((done ++ rest.map (proc.dec_child_index^[d])).length : Int)
            ≠ ((done.length + (rest.length + 1) : Nat) : Int) := by
          simp only [List.length_append, List.length_map]; omega
        have hi : (done.length : Int) - 1 + 1 = (done.length : Int) := by omega
        have hn : ((done ++ rest.map (proc.dec_child_index^[d])).length : Int)
            = ((done.length + rest.length : Nat) : Int) := by
          simp
        rw [if_pos hdes, hre]
        simp only [herase, hlen, hupd]
        rw [if_pos hne, hi, hn, ih (d + 1) done _ _]
        simp [reap_pass, hz]
      · have hre : reapable p_threads (c :: rest) = false := by
          rw [reapable_cons]
          simp [hzc, hdes]
        rw [if_neg hdes, hre]
        simp
    · have hzc : ¬ c.p_is_zombie = 1 := by
        rw [iterate_dec_is_zombie] at hz; exact hz
      have hre : reapable p_threads (c :: rest) = reapable p_threads rest := by
        rw [reapable_cons]
        simp [hzc]
      rw [if_neg hz, hre]
      simp only [ne_eq, not_true_eq_false, if_false]
      have harr : done ++ (c :: rest).map (proc.dec_child_index^[d])
          = (done ++ [proc.dec_child_index^[d] c]) ++ rest.map (proc.dec_child_index^[d]) := by
        simp
      have hi : (done.length : Int) + 1
          = ((done ++ [proc.dec_child_index^[d] c]).length : Int) := by
        simp
      have hn : ((done.length + (rest.length + 1) : Nat) : Int)
          = (((done ++ [proc.dec_child_index^[d] c]).length + rest.length : Nat) : Int) := by
        simp only [List.length_append, List.length_singleton]; omega
      rw [harr, hi, hn, ih d (done ++ [proc.dec_child_index^[d] c]) t destroyed]
      simp [reap_pass, hz]

/-- The reaping loop as `sys__exit` starts it: when every zombie of the child array gets
through `proc_destroy` it returns what the reaping pass over the child array gives,
otherwise it does not return. -/
theorem sys__exit_reap_start (p_threads : Int → Nat) (arr : List proc) (t : List Nat) :
    sys__exit_reap p_threads arr.length 0 (arr.length : Int) arr t []
      = if reapable p_threads arr then
          some ((reap_pass 0 arr t).1, (reap_pass 0 arr t).2.1, (reap_pass 0 arr t).2.2)
        else none := by
  have := sys__exit_reap_eq p_threads arr 0 [] t []
  simpa using this

/-! ## What the reaping pass keeps and what it destroys -/

/-- The reaping pass keeps the children that are not zombies and hands the zombies to
`proc_destroy`, both in their order and up to `p_child_index`. -/
theorem reap_pass_lists (rest : List proc) :
    ∀ (d : Nat) (t : List Nat),
      (reap_pass d rest t).1.map proc.forget_child_index
          = (rest.filter (fun c => decide (c.p_is_zombie ≠ 1))).map proc.forget_child_index
      ∧ (reap_pass d rest t).2.2.map proc.forget_child_index
          = (rest.filter (fun c => decide (c.p_is_zombie = 1))).map proc.forget_child_index := by
  induction rest with
  | nil => intro d t; simp [reap_pass]
  | cons c rest ih =>
    intro d t
    by_cases hz : c.p_is_zombie = 1
    · have hz1 : (proc.dec_child_index^[d] c).p_is_zombie = 1 := by
        rw [iterate_dec_is_zombie]; exact hz
      obtain ⟨h1, h2⟩ := ih (d + 1) (dealloc_process_id t c.p_process_id).2
      simp [reap_pass, hz1, hz, h1, h2, iterate_dec_forget]
    · have hz1 : ¬ (proc.dec_child_index^[d] c).p_is_zombie = 1 := by
        rw [iterate_dec_is_zombie]; exact hz
      obtain ⟨h1, h2⟩ := ih d t
      simp [reap_pass, hz1, hz, h1, h2, iterate_dec_forget]

/-- The reaping pass leaves every surviving child with `p_child_index` equal to its
position, when that held for the children before (`base` children were kept and `d`
removed ahead of `rest`). -/
theorem reap_pass_child_index (rest : List proc) :
    ∀ (d base : Nat) (t : List Nat),
      (∀ p c, rest.get? p = some c → c.p_child_index = base + d + p) →
      base + d + rest.length ≤ 2 ^ 32 →
      ∀ q c, (reap_pass d rest t).1.get? q = some c → c.p_child_index = base + q := by
  induction rest with
  | nil => intro d base t _ _ q c hq; simp [reap_pass] at hq
  | cons c0 rest ih =>
    intro d base t hidx hb q c hq
    have h0 : c0.p_child_index = base + d := by
      have := hidx 0 c0 rfl
      omega
    have hrest : ∀ p c, rest.get? p = some c → c.p_child_index = base + d + p + 1 := by
      intro p c hp
      have := hidx (p + 1) c (by simpa using hp)
      omega
    simp only [List.length_cons] at hb
    by_cases hz : (proc.dec_child_index^[d] c0).p_is_zombie = 1
    · simp only [reap_pass, hz, if_true] at hq
      exact ih (d + 1) base _ (fun p c hp => by have := hrest p c hp; omega) (by omega) q c hq
    · simp only [reap_pass, hz, if_false] at hq
      cases q with
      | zero =>
        simp only [List.get?_cons_zero, Option.some.injEq] at hq
        rw [← hq, iterate_dec_child_index d c0 (by omega) (by omega)]
        omega
      | succ q =>
        simp only [List.get?_cons_succ] at hq
        have := ih d (base + 1) t (fun p c hp => by have := hrest p c hp; omega) (by omega)
          q c hq
        omega

/-! ## `sys_waitpid`: the error cases -/

/-- The scan of `sys_waitpid` over children none of which has the PID finds nothing. -/
theorem sys_waitpid_scan_not_found (pid : Int) (arr : List proc)
    (h : ∀ c, c ∈ arr → c.p_process_id ≠ pid) :
    sys_waitpid_scan pid arr = .not_found := by
  induction arr with
  | nil => rfl
  | cons c rest ih =>
    have hc : ¬ (c.p_process_id = pid) := h c (List.mem_cons_self _ _)
    simp only [sys_waitpid_scan, hc, if_false]
    exact ih (fun c1 hc1 => h c1 (List.mem_cons_of_mem _ hc1))

/-- The PID status of a PID inside `[PID_MIN, PID_MAX]` is 0 exactly when the table
marks it free. -/
theorem get_pid_status_eq_zero (t : List Nat) (pid : Int) (hmin : PID_MIN ≤ pid)
    (hmax : pid ≤ PID_MAX t) :
    get_pid_status t pid = 0 ↔ t.get? pid.toNat = some 0 := by
  unfold PID_MIN at hmin
  unfold PID_MAX at hmax
  have hrange : ¬ (pid < PID_MIN ∨ pid > PID_MAX t) := by
    unfold PID_MIN PID_MAX; omega
  have hlen : pid.toNat < t.length := by omega
  simp only [get_pid_status, hrange, if_false, List.getD_eq_getElem?_getD,
    List.get?_eq_getElem?, List.getElem?_eq_getElem hlen, Option.getD_some,
    Option.some.injEq]

/-- C16. For every caller, PID table and arguments: `sys_waitpid` returns `EINVAL` if
`options != 0`; otherwise `ESRCH` if `pid` is outside `[PID_MIN, PID_MAX]` or the PID
table marks `pid` free; otherwise `ECHILD` if no process in the caller's child array
has that PID. In each of these cases nothing is stored in `*ret_pid` or `*status`, and
the caller (with its children) and the PID table are as before. -/
theorem sys_waitpid_errors (curproc : proc) (t : List Nat) (pid : Int)
    (status_null : Bool) (options : Int) (copyout_result : Nat) :
    (options ≠ 0 →
      sys_waitpid curproc t pid status_null options copyout_result
        = (.returned EINVAL none none, curproc, t))
    ∧ (options = 0 →
        (pid < PID_MIN ∨ pid > PID_MAX t ∨ t.get? pid.toNat = some 0) →
        sys_waitpid curproc t pid status_null options copyout_result
          = (.returned ESRCH none none, curproc, t))
    ∧ (options = 0 → PID_MIN ≤ pid → pid ≤ PID_MAX t → t.get? pid.toNat ≠ some 0 →
        (∀ c, c ∈ curproc.p_child_process_arr → c.p_process_id ≠ pid) →
        sys_waitpid curproc t pid status_null options copyout_result
          = (.returned ECHILD none none, curproc, t)) := by
  refine ⟨?_, ?_, ?_⟩
  · intro hopt
    simp only [sys_waitpid, hopt, ne_eq, not_false_eq_true, if_true]
  · intro hopt hcase
    by_cases hrange : pid < PID_MIN ∨ pid > PID_MAX t
    · simp only [sys_waitpid, hopt, ne_eq, not_true_eq_false, if_false, hrange, if_true]
    · have hfree : t.get? pid.toNat = some 0 := by
        rcases hcase with h | h | h
        · exact absurd (Or.inl h) hrange
        · exact absurd (Or.inr h) hrange
        · exact h
      have hst : get_pid_status t pid = 0 :=
        (get_pid_status_eq_zero t pid (by omega) (by omega)).2 hfree
      simp only [sys_waitpid, hopt, ne_eq, not_true_eq_false, if_false, hrange, hst, if_true]
  · intro hopt hmin hmax halloc hnone
    have hrange : ¬ (pid < PID_MIN ∨ pid > PID_MAX t) := by omega
    have hst : ¬ (get_pid_status t pid = 0) := by
      intro h0
      exact halloc ((get_pid_status_eq_zero t pid hmin hmax).1 h0)
    simp only [sys_waitpid, hopt, ne_eq, not_true_eq_false, if_false, hrange, hst,
      sys_waitpid_scan_not_found pid _ hnone]

/-- C16 at a concrete caller with PID 2 and one child with PID 3, `PID_MAX = 5`, the
PIDs 4 and 5 free: a call with `options = 1` returns `EINVAL`, a call for the free PID 4
returns `ESRCH`, a call for the caller's own PID 2 returns `ECHILD`. -/
theorem sys_waitpid_errors_witness :
    sys_waitpid (.mk 2 [.mk 3 [] 0 0 0 0] 0 1 0 0) [1, 1, 1, 1, 0, 0] 3 false 1 0
      = (.returned EINVAL none none, .mk 2 [.mk 3 [] 0 0 0 0] 0 1 0 0, [1, 1, 1, 1, 0, 0])
    ∧ sys_waitpid (.mk 2 [.mk 3 [] 0 0 0 0] 0 1 0 0) [1, 1, 1, 1, 0, 0] 4 false 0 0
      = (.returned ESRCH none none, .mk 2 [.mk 3 [] 0 0 0 0] 0 1 0 0, [1, 1, 1, 1, 0, 0])
    ∧ sys_waitpid (.mk 2 [.mk 3 [] 0 0 0 0] 0 1 0 0) [1, 1, 1, 1, 0, 0] 2 false 0 0
      = (.returned ECHILD none none, .mk 2 [.mk 3 [] 0 0 0 0] 0 1 0 0, [1, 1, 1, 1, 0, 0]) :=
  ⟨(sys_waitpid_errors _ _ 3 false 1 0).1 (by decide),
   (sys_waitpid_errors _ _ 4 false 0 0).2.1 rfl (Or.inr (Or.inr rfl)),
   (sys_waitpid_errors _ _ 2 false 0 0).2.2 rfl (by decide) (by decide) (by decide)
      (fun c hc => by
        simp only [proc.p_child_process_arr, List.mem_singleton] at hc
        subst hc
        decide)⟩

/-! ## The PID table under `proc_destroy` and the reaping pass -/

/-- The function `dealloc_process_id` keeps the length of the table. -/
theorem dealloc_process_id_length (t : List Nat) (pid : Int) :
    (dealloc_process_id t pid).2.length = t.length := by
  unfold dealloc_process_id
  split <;> simp

/-- The function `dealloc_process_id` leaves the entries of the other PIDs. -/
theorem dealloc_process_id_get (t : List Nat) (pid : Int) (i : Nat) (h : pid ≠ (i : Int)) :
    (dealloc_process_id t pid).2.get? i = t.get? i := by
  unfold dealloc_process_id
  split
  · rfl
  · rename_i hrange
    have hne : pid.toNat ≠ i := by
      unfold PID_MIN at hrange
      omega
    simp [List.getElem?_set, hne]

/-- When `proc_destroy` returns, it has kept the length of the PID table and left the
table entry of every PID other than that of the process. -/
theorem proc_destroy_table (p_threads : Int → Nat) (c : proc) (t t1 : List Nat)
    (h : proc_destroy p_threads c t = some t1) :
    t1.length = t.length
    ∧ ∀ i : Nat, c.p_process_id ≠ (i : Int) → t1.get? i = t.get? i := by
  rw [proc_destroy_eq] at h
  split at h
  · cases h
    exact ⟨dealloc_process_id_length t _, fun i hi => dealloc_process_id_get t _ i hi⟩
  · cases h

/-- The reaping pass keeps the length of the PID table and leaves the table entry of a
PID that none of the children has. -/
theorem reap_pass_table (rest : List proc) :
    ∀ (d : Nat) (t : List Nat) (i : Nat),
      (reap_pass d rest t).2.1.length = t.length
      ∧ ((∀ c, c ∈ rest → c.p_process_id ≠ (i : Int)) →
          (reap_pass d rest t).2.1.get? i = t.get? i) := by
  induction rest with
  | nil => intro d t i; simp [reap_pass]
  | cons c rest ih =>
    intro d t i
    by_cases hz : (proc.dec_child_index^[d] c).p_is_zombie = 1
    · obtain ⟨h1, h2⟩ := ih (d + 1) (dealloc_process_id t c.p_process_id).2 i
      simp only [reap_pass, hz, if_true]
      refine ⟨by rw [h1, dealloc_process_id_length], ?_⟩
      intro h
      rw [h2 (fun q hq => h q (List.mem_cons_of_mem _ hq)),
        dealloc_process_id_get _ _ i (h c (List.mem_cons_self _ _))]
    · obtain ⟨h1, h2⟩ := ih d t i
      simp only [reap_pass, hz, if_false]
      exact ⟨h1, fun h => h2 (fun q hq => h q (List.mem_cons_of_mem _ hq))⟩

/-! ## `sys__exit` of a child, then `sys_waitpid` of its parent -/

/-- The scan of `sys_waitpid` stops at the first child with the PID; when that child is
a zombie the scan ends with its exit status. -/
theorem sys_waitpid_scan_found (pid : Int) (arr : List proc) :
    ∀ (k : Nat) (cur : proc), arr.get? k = some cur → cur.p_process_id = pid →
      cur.p_is_zombie = 1 →
      (∀ j c1, j < k → arr.get? j = some c1 → c1.p_process_id ≠ pid) →
      sys_waitpid_scan pid arr = .found cur.p_exit_status := by
  induction arr with
  | nil => intro k cur hk; simp at hk
  | cons c rest ih =>
    intro k cur hk hpid hz hfirst
    cases k with
    | zero =>
      simp only [List.get?_cons_zero, Option.some.injEq] at hk
      subst hk
      simp only [sys_waitpid_scan, hpid, hz, if_true]
    | succ k =>
      have hc : ¬ (c.p_process_id = pid) := hfirst 0 c (by omega) rfl
      simp only [sys_waitpid_scan, hc, if_false]
      simp only [List.get?_cons_succ] at hk
      exact ih k cur hk hpid hz
        (fun j c1 hj hc1 => hfirst (j + 1) c1 (by omega) (by simpa using hc1))

/-- The function `sys__exit` of a process whose parent is not a zombie, when every
zombie among its children gets through `proc_destroy`: it returns, the child array is
what the reaping pass leaves, the exit status is set and the process is a zombie. -/
theorem sys__exit_live_parent (p_threads : Int → Nat) (curproc parent_process : proc)
    (t : List Nat) (exitcode : Int) (_MKWAIT_EXIT : Int → Int)
    (hlive : parent_process.p_is_zombie ≠ 1)
    (hre : reapable p_threads curproc.p_child_process_arr = true) :
    sys__exit p_threads curproc parent_process t exitcode _MKWAIT_EXIT
      = some
          { curproc :=
              ((curproc.set_child_process_arr
                  (reap_pass 0 curproc.p_child_process_arr t).1).set_exit_status
                (_MKWAIT_EXIT exitcode)).set_is_zombie 1,
            parent_process := parent_process.set_num_children_running
              (parent_process.p_num_children_running - 1),
            process_ID_table := (reap_pass 0 curproc.p_child_process_arr t).2.1,
            destroyed := (reap_pass 0 curproc.p_child_process_arr t).2.2 } := by
  simp only [sys__exit, sys__exit_reap_start, hre, hlive, if_true, if_false]

/-- The function `sys__exit` does not return when a zombie among the children of the
process does not get through `proc_destroy`: the assertion fails inside the reaping
loop. -/
theorem sys__exit_not_reapable (p_threads : Int → Nat) (curproc parent_process : proc)
    (t : List Nat) (exitcode : Int) (_MKWAIT_EXIT : Int → Int)
    (hre : reapable p_threads curproc.p_child_process_arr = false) :
    sys__exit p_threads curproc parent_process t exitcode _MKWAIT_EXIT = none := by
  simp only [sys__exit, sys__exit_reap_start, hre, Bool.false_eq_true, if_false]

/-- The function `sys__exit` of a process whose parent is a zombie does not return:
`proc_destroy(curproc)` finds the calling thread in the thread array. -/
theorem sys__exit_zombie_parent (p_threads : Int → Nat) (curproc parent_process : proc)
    (t : List Nat) (exitcode : Int) (_MKWAIT_EXIT : Int → Int)
    (hz : parent_process.p_is_zombie = 1) :
    sys__exit p_threads curproc parent_process t exitcode _MKWAIT_EXIT = none := by
  cases hb : reapable p_threads curproc.p_child_process_arr with
  | false => exact sys__exit_not_reapable p_threads curproc parent_process t exitcode _ hb
  | true =>
    simp only [sys__exit, sys__exit_reap_start, hb, hz, if_true, proc_destroy_eq]
    cases curproc with
    | mk pid arr index n status zombie =>
      have hd : destroyable
          (fun q => if q = pid then max 1 (p_threads q) else p_threads q)
          (.mk pid (reap_pass 0 arr t).1 index n (_MKWAIT_EXIT exitcode) 1) = false := by
        simp only [destroyable, proc.p_process_id, if_true, Bool.and_eq_false_imp,
          decide_eq_false_iff_not]
        intro _
        omega
      simp only [proc.set_child_process_arr, proc.set_is_zombie, proc.set_exit_status,
        proc.p_process_id, proc.p_child_process_arr, hd, Bool.false_eq_true, if_false]

/-- Every result of `sys__exit`: the parent is not a zombie, every zombie among the
children gets through `proc_destroy`, and the child array is the one the reaping pass
leaves. -/
theorem sys__exit_some (p_threads : Int → Nat) (curproc parent_process : proc)
    (t : List Nat) (exitcode : Int) (_MKWAIT_EXIT : Int → Int) (r : exit_state)
    (h : sys__exit p_threads curproc parent_process t exitcode _MKWAIT_EXIT = some r) :
    parent_process.p_is_zombie ≠ 1
    ∧ reapable p_threads curproc.p_child_process_arr = true
    ∧ r.curproc.p_child_process_arr = (reap_pass 0 curproc.p_child_process_arr t).1 := by
  have hlive : parent_process.p_is_zombie ≠ 1 := by
    intro hz
    rw [sys__exit_zombie_parent p_threads curproc parent_process t exitcode _MKWAIT_EXIT hz] at h
    cases h
  have hre : reapable p_threads curproc.p_child_process_arr = true := by
    cases hb : reapable p_threads curproc.p_child_process_arr with
    | true => rfl
    | false =>
      rw [sys__exit_not_reapable p_threads curproc parent_process t exitcode _MKWAIT_EXIT hb] at h
      cases h
  refine ⟨hlive, hre, ?_⟩
  rw [sys__exit_live_parent p_threads curproc parent_process t exitcode _MKWAIT_EXIT hlive hre] at h
  cases h
  cases curproc with
  | mk pid arr index n status zombie =>
    simp only [proc.set_child_process_arr, proc.set_is_zombie, proc.set_exit_status,
      proc.p_child_process_arr]

/-- Let `child` be the entry `k` of the child array of `parent`, a process that is not
a zombie, and let no earlier entry have the PID of `child`; let that PID lie in
`[PID_MIN, PID_MAX]`, be marked allocated, and differ from the PIDs of the children of
`child`; let every zombie among the children of `child` get through `proc_destroy`. For
every exit code `exitcode`, `sys__exit(exitcode)` called by `child` returns and leaves
`child` a zombie with `p_exit_status = _MKWAIT_EXIT(exitcode)`; then
`sys_waitpid(child_pid, &s, 0)` called by `parent`, with a `status` pointer that
`copyout` accepts, returns 0 without waiting, stores `child_pid` in `*ret_pid` and
`_MKWAIT_EXIT(exitcode)` in `s`, and changes nothing. -/
theorem exit_then_waitpid (p_threads : Int → Nat) (parent child : proc) (k : Nat)
    (t : List Nat) (exitcode : Int) (_MKWAIT_EXIT : Int → Int)
    (hk : parent.p_child_process_arr.get? k = some child)
    (hlive : parent.p_is_zombie ≠ 1)
    (hfirst : ∀ j c1, j < k → parent.p_child_process_arr.get? j = some c1 →
      c1.p_process_id ≠ child.p_process_id)
    (hmin : PID_MIN ≤ child.p_process_id) (hmax : child.p_process_id ≤ PID_MAX t)
    (halloc : t.get? child.p_process_id.toNat ≠ some 0)
    (hpids : ∀ c, c ∈ child.p_child_process_arr → c.p_process_id ≠ child.p_process_id)
    (hre : reapable p_threads child.p_child_process_arr = true) :
    ∃ r, sys__exit p_threads child parent t exitcode _MKWAIT_EXIT = some r
      ∧ r.curproc.p_is_zombie = 1
      ∧ r.curproc.p_exit_status = _MKWAIT_EXIT exitcode
      ∧ r.curproc.p_process_id = child.p_process_id
      ∧ sys_waitpid (with_child r.parent_process k r.curproc) r.process_ID_table
            child.p_process_id false 0 0
          = (.returned 0 (some child.p_process_id) (some (_MKWAIT_EXIT exitcode)),
              with_child r.parent_process k r.curproc, r.process_ID_table) := by
  refine ⟨_, sys__exit_live_parent p_threads child parent t exitcode _MKWAIT_EXIT hlive hre,
    ?_, ?_, ?_, ?_⟩
  · cases child; rfl
  · cases child; rfl
  · cases child; rfl
  · have hklen : k < parent.p_child_process_arr.length := by
      rw [List.get?_eq_some] at hk
      exact hk.1
    have hpidnat : ((child.p_process_id.toNat : Nat) : Int) = child.p_process_id := by
      unfold PID_MIN at hmin
      omega
    obtain ⟨hlen, hget⟩ := reap_pass_table child.p_child_process_arr 0 t
      child.p_process_id.toNat
    have hget1 := hget (fun c hc => by rw [hpidnat]; exact hpids c hc)
    have hmax1 : child.p_process_id
        ≤ PID_MAX (reap_pass 0 child.p_child_process_arr t).2.1 := by
      unfold PID_MAX at hmax ⊢
      rw [hlen]
      exact hmax
    have hrange : ¬ (child.p_process_id < PID_MIN
        ∨ child.p_process_id > PID_MAX (reap_pass 0 child.p_child_process_arr t).2.1) := by
      omega
    have hst : ¬ (get_pid_status (reap_pass 0 child.p_child_process_arr t).2.1
        child.p_process_id = 0) := by
      intro h0
      have := (get_pid_status_eq_zero _ _ hmin hmax1).1 h0
      rw [hget1] at this
      exact halloc this
    have hscan : sys_waitpid_scan child.p_process_id
        (with_child (parent.set_num_children_running (parent.p_num_children_running - 1)) k
          (((child.set_child_process_arr
              (reap_pass 0 child.p_child_process_arr t).1).set_exit_status
            (_MKWAIT_EXIT exitcode)).set_is_zombie 1)).p_child_process_arr
        = .found (_MKWAIT_EXIT exitcode) := by
      have harr : (with_child
          (parent.set_num_children_running (parent.p_num_children_running - 1)) k
          (((child.set_child_process_arr
              (reap_pass 0 child.p_child_process_arr t).1).set_exit_status
            (_MKWAIT_EXIT exitcode)).set_is_zombie 1)).p_child_process_arr
          = parent.p_child_process_arr.set k
              (((child.set_child_process_arr
                (reap_pass 0 child.p_child_process_arr t).1).set_exit_status
              (_MKWAIT_EXIT exitcode)).set_is_zombie 1) := by
        cases parent; rfl
      rw [harr]
      have hfound := sys_waitpid_scan_found child.p_process_id
        (parent.p_child_process_arr.set k
          (((child.set_child_process_arr
            (reap_pass 0 child.p_child_process_arr t).1).set_exit_status
          (_MKWAIT_EXIT exitcode)).set_is_zombie 1)) k
        (((child.set_child_process_arr
            (reap_pass 0 child.p_child_process_arr t).1).set_exit_status
          (_MKWAIT_EXIT exitcode)).set_is_zombie 1)
        (by simp [List.getElem?_set, hklen])
        (by cases child; rfl) (by cases child; rfl)
        (fun j c1 hj hc1 => by
          have hne : k ≠ j := by omega
          rw [List.get?_eq_getElem?, List.getElem?_set_ne hne] at hc1
          exact hfirst j c1 hj (by simpa using hc1))
      have hes : (((child.set_child_process_arr
            (reap_pass 0 child.p_child_process_arr t).1).set_exit_status
          (_MKWAIT_EXIT exitcode)).set_is_zombie 1).p_exit_status
          = _MKWAIT_EXIT exitcode := by
        cases child; rfl
      rw [hes] at hfound
      exact hfound
    simp [sys_waitpid, hrange, hst, hscan]

/-- C17 (the code at a failing input). `_MKWAIT_EXIT(x)` is taken as `x * 4`. The
process with PID 5, a child of the process with PID 4, has the running child with PID 6
and calls `sys__exit(3)`: it becomes a zombie with exit status 12 and keeps its child in
its child array. Then the process with PID 4, a child of the process with PID 2, which
is not a zombie, calls `sys__exit(7)`; the zombie has no thread any more. The reaping
loop hands the zombie to `proc_destroy`, whose loop leaves the one child in the array,
and `array_destroy` fails: `sys__exit` does not return, the caller does not become a
zombie and gets no exit status. With a zombie that has no child, the same call returns,
and `sys_waitpid(4, &s, 0)` of the parent returns 0 with `*ret_pid = 4` and `s = 28`. -/
theorem sys__exit_reaps_zombie_with_child :
    sys__exit (fun _ => 1) (.mk 5 [.mk 6 [] 0 0 0 0] 0 1 0 0)
        (.mk 4 [.mk 5 [.mk 6 [] 0 0 0 0] 0 1 0 0] 1 1 0 0)
        [1, 1, 1, 1, 1, 1, 1, 0] 3 (fun x => x * 4)
      = some { curproc := .mk 5 [.mk 6 [] 0 0 0 0] 0 1 12 1,
               parent_process := .mk 4 [.mk 5 [.mk 6 [] 0 0 0 0] 0 1 0 0] 1 0 0 0,
               process_ID_table := [1, 1, 1, 1, 1, 1, 1, 0], destroyed := [] }
    ∧ sys__exit (fun pid => if pid = 5 then 0 else 1)
        (.mk 4 [.mk 5 [.mk 6 [] 0 0 0 0] 0 1 12 1] 1 0 0 0)
        (.mk 2 [.mk 3 [] 0 0 0 0, .mk 4 [.mk 5 [.mk 6 [] 0 0 0 0] 0 1 12 1] 1 0 0 0] 0 2 0 0)
        [1, 1, 1, 1, 1, 1, 1, 0] 7 (fun x => x * 4)
      = none
    ∧ proc_destroy (fun pid => if pid = 5 then 0 else 1) (.mk 5 [.mk 6 [] 0 0 0 0] 0 1 12 1)
        [1, 1, 1, 1, 1, 1, 1, 0]
      = none
    ∧ proc_destroy_child_array (.mk 5 [.mk 6 [] 0 0 0 0] 0 1 12 1) = some [.mk 6 [] 0 0 0 0]
    ∧ array_destroy [.mk 6 [] 0 0 0 0] = none
    ∧ sys__exit (fun pid => if pid = 5 then 0 else 1)
        (.mk 4 [.mk 5 [] 0 0 12 1] 1 0 0 0)
        (.mk 2 [.mk 3 [] 0 0 0 0, .mk 4 [.mk 5 [] 0 0 12 1] 1 0 0 0] 0 2 0 0)
        [1, 1, 1, 1, 1, 1, 1, 0] 7 (fun x => x * 4)
      = some { curproc := .mk 4 [] 1 0 28 1,
               parent_process :=
                 .mk 2 [.mk 3 [] 0 0 0 0, .mk 4 [.mk 5 [] 0 0 12 1] 1 0 0 0] 0 1 0 0,
               process_ID_table := [1, 1, 1, 1, 1, 0, 1, 0],
               destroyed := [.mk 5 [] 0 0 12 1] }
    ∧ sys_waitpid (.mk 2 [.mk 3 [] 0 0 0 0, .mk 4 [] 1 0 28 1] 0 1 0 0)
        [1, 1, 1, 1, 1, 0, 1, 0] 4 false 0 0
      = (.returned 0 (some 4) (some 28),
          .mk 2 [.mk 3 [] 0 0 0 0, .mk 4 [] 1 0 28 1] 0 1 0 0, [1, 1, 1, 1, 1, 0, 1, 0]) :=
  ⟨rfl, rfl, rfl, rfl, rfl, rfl, rfl⟩

/-! ## `sys_waitpid` called twice -/

/-- C18 (the code at a failing input). The parent (PID 2) has in its child array the
child with PID 4 that has exited with status 28. `sys_waitpid(4, &s, 0)` returns 0 with
`*ret_pid = 4`, and the same call made again on the state it leaves returns 0 with
`*ret_pid = 4` once more: `sys_waitpid` neither removes the child from the child array
nor frees its PID, so the second call does not fail with `ECHILD` or `ESRCH`. -/
theorem sys_waitpid_twice :
    ∃ p1 t1,
      sys_waitpid (.mk 2 [.mk 3 [] 0 0 0 0, .mk 4 [] 1 0 28 1] 0 1 0 0)
          [1, 1, 1, 1, 1, 0] 4 false 0 0
        = (.returned 0 (some 4) (some 28), p1, t1)
      ∧ sys_waitpid p1 t1 4 false 0 0 = (.returned 0 (some 4) (some 28), p1, t1) :=
  ⟨_, _, rfl, rfl⟩

/-! ## The child index -/

/-- Every outcome of `sys_fork`: the call sleeps, or it returns and the caller it leaves
either has the child array it had or has one more entry at the end, a child whose
`p_child_index` is the former length of the array. -/
theorem sys_fork_curproc (curproc : proc) (t : List Nat) (env : fork_env)
    (c : call fork_state) (h : sys_fork curproc t env = some c) :
    c = .sleeps ∨ ∃ r, c = .returns r
      ∧ (r.curproc.p_child_process_arr = curproc.p_child_process_arr
        ∨ ∃ child : proc, r.curproc.p_child_process_arr
            = curproc.p_child_process_arr
                ++ [child.set_child_index curproc.p_child_process_arr.length]) := by
  unfold sys_fork at h
  split at h
  · cases h
    exact Or.inr ⟨_, rfl, Or.inl rfl⟩
  · split at h
    · cases h
    · cases h
      exact Or.inr ⟨_, rfl, Or.inl rfl⟩
    · rename_i new_child_process t1 _
      dsimp only at h
      split at h
      · cases h
      · cases h
        exact Or.inl rfl
      · split at h
        · rw [Option.map_eq_some'] at h
          obtain ⟨t2, _, h⟩ := h
          cases h
          exact Or.inr ⟨_, rfl, Or.inl rfl⟩
        · split at h
          · rw [Option.map_eq_some'] at h
            obtain ⟨t2, _, h⟩ := h
            cases h
            exact Or.inr ⟨_, rfl, Or.inl rfl⟩
          · split at h
            · rw [Option.map_eq_some'] at h
              obtain ⟨t2, _, h⟩ := h
              cases h
              refine Or.inr ⟨_, rfl, Or.inr ⟨new_child_process, ?_⟩⟩
              cases curproc; rfl
            · cases h
              refine Or.inr ⟨_, rfl, Or.inr ⟨new_child_process, ?_⟩⟩
              cases curproc; rfl

/-- When `kstrdup`, `proc_create`, the console descriptors, `get_process_id`, the copy of
the descriptor table, `as_copy` and `kmalloc` of the trapframe succeed, `sys_fork` returns
and has appended the child, with the new PID and with the former length of the array as
its `p_child_index`. -/
theorem sys_fork_inserts (curproc : proc) (t : List Nat) (env : fork_env) (pid : Int)
    (t1 : List Nat) (v : Int) (hk : env.kstrdup_ok = true) (hp : env.proc_create_ok = true)
    (hc : env.console_ok = true) (hpid : get_process_id t = some (pid, t1)) (hne : pid ≠ 0)
    (hcopy : env.fd_table_copy_entries_result = some (.returns v))
    (has : env.as_copy_result = 0) (hm : env.kmalloc_ok = true) :
    ∃ r, sys_fork curproc t env = some (.returns r)
      ∧ r.curproc.p_child_process_arr
        = curproc.p_child_process_arr
            ++ [.mk pid [] curproc.p_child_process_arr.length 0 0 0] := by
  have hrun : proc_create_runprogram t env
      = some (some (.mk pid [] env.fresh_child_index 0 0 0), t1) := by
    unfold proc_create_runprogram proc_create
    simp only [hp, hc, hpid, if_true, Bool.not_true, Bool.false_eq_true, if_false, if_neg hne]
    rfl
  unfold sys_fork
  simp only [hk, Bool.not_true, Bool.false_eq_true, if_false, hrun, hcopy, has, ne_eq,
    not_true_eq_false, hm]
  by_cases htf : env.thread_fork_result = 0
  · simp only [htf, not_true_eq_false, if_false]
    refine ⟨_, rfl, ?_⟩
    cases curproc; rfl
  · have hd : proc_destroy (fun _ => 0)
        ((proc.mk pid [] env.fresh_child_index 0 0 0).set_child_index
          curproc.p_child_process_arr.length) t1
        = some (dealloc_process_id t1 pid).2 := rfl
    simp only [htf, not_false_eq_true, if_true, hd, Option.map_some']
    refine ⟨_, rfl, ?_⟩
    cases curproc; rfl

/-- C19. Let each child's `p_child_index` equal its position in the child array of a
process (an array of fewer than `2 ^ 32` entries). Then the same holds for the process
after every call of `sys_fork` by it that returns; when the steps of `sys_fork` up to the
child insertion succeed, the call returns and the insertion has appended the child with
the former length of the array as its `p_child_index`. The same holds for the child array
that the reaping loop of `sys__exit` leaves, for every pattern of zombie and non-zombie
children, every PID table and every filling of the thread arrays, and for the process
after every call of `sys__exit` by it that returns. The reaping loop runs to completion
exactly when `proc_destroy` gets through every zombie among the children (a zombie with
no child and no thread), and `sys__exit` returns exactly when moreover the parent of the
process is not a zombie; otherwise an assertion fails and there is no state after the
loop. -/
theorem child_index_preserved (curproc : proc) (h : child_index_ok curproc)
    (hlen : curproc.p_child_process_arr.length < 2 ^ 32) :
    (∀ t env r, sys_fork curproc t env = some (.returns r) → child_index_ok r.curproc)
    ∧ (∀ t env pid t1 v, env.kstrdup_ok = true → env.proc_create_ok = true →
        env.console_ok = true → get_process_id t = some (pid, t1) → pid ≠ 0 →
        env.fd_table_copy_entries_result = some (.returns v) → env.as_copy_result = 0 →
        env.kmalloc_ok = true →
        ∃ r, sys_fork curproc t env = some (.returns r)
          ∧ r.curproc.p_child_process_arr
            = curproc.p_child_process_arr
                ++ [.mk pid [] curproc.p_child_process_arr.length 0 0 0]
          ∧ child_index_ok r.curproc)
    ∧ (∀ p_threads t arr1 t1 destroyed,
        sys__exit_reap p_threads curproc.p_child_process_arr.length 0
            (curproc.p_child_process_arr.length : Int) curproc.p_child_process_arr t []
          = some (arr1, t1, destroyed) →
        ∀ i c, arr1.get? i = some c → c.p_child_index = i)
    ∧ (∀ p_threads parent_process t exitcode _MKWAIT_EXIT r,
        sys__exit p_threads curproc parent_process t exitcode _MKWAIT_EXIT = some r →
        child_index_ok r.curproc)
    ∧ (∀ p_threads t,
        (∃ arr1 t1 destroyed,
          sys__exit_reap p_threads curproc.p_child_process_arr.length 0
              (curproc.p_child_process_arr.length : Int) curproc.p_child_process_arr t []
            = some (arr1, t1, destroyed))
        ↔ reapable p_threads curproc.p_child_process_arr = true)
    ∧ (∀ p_threads parent_process t exitcode _MKWAIT_EXIT,
        (∃ r, sys__exit p_threads curproc parent_process t exitcode _MKWAIT_EXIT = some r)
        ↔ (parent_process.p_is_zombie ≠ 1
            ∧ reapable p_threads curproc.p_child_process_arr = true)) := by
  have hfork : ∀ t env r, sys_fork curproc t env = some (.returns r) →
      child_index_ok r.curproc := by
    intro t env r hr
    rcases sys_fork_curproc curproc t env _ hr with hs | ⟨r1, hr1, harr⟩
    · cases hs
    · cases hr1
      intro i c hc
      rcases harr with harr | ⟨child, harr⟩
      · rw [harr] at hc
        exact h i c hc
      · rw [harr] at hc
        by_cases hi : i < curproc.p_child_process_arr.length
        · rw [List.get?_eq_getElem?, List.getElem?_append_left hi] at hc
          exact h i c (by simpa using hc)
        · rw [List.get?_eq_getElem?, List.getElem?_append_right (by omega)] at hc
          have hi0 : i - curproc.p_child_process_arr.length = 0 := by
            by_contra hne
            have hpos : 1 ≤ i - curproc.p_child_process_arr.length := by omega
            rw [List.getElem?_eq_none (by simpa using hpos)] at hc
            simp at hc
          rw [hi0] at hc
          simp only [List.getElem?_cons_zero, Option.some.injEq] at hc
          rw [← hc]
          have : (child.set_child_index curproc.p_child_process_arr.length).p_child_index
              = curproc.p_child_process_arr.length := by
            cases child; rfl
          omega
  have hpass : ∀ t i c, (reap_pass 0 curproc.p_child_process_arr t).1.get? i = some c →
      c.p_child_index = i := by
    intro t i c hc
    have := reap_pass_child_index curproc.p_child_process_arr 0 0 t
      (fun p c hp => by have := h p c hp; omega) (by omega) i c hc
    omega
  refine ⟨hfork, ?_, ?_, ?_, ?_, ?_⟩
  · intro t env pid t1 v hk hp hc hpid hne hcopy has hm
    obtain ⟨r, hr, harr⟩ := sys_fork_inserts curproc t env pid t1 v hk hp hc hpid hne hcopy has hm
    exact ⟨r, hr, harr, hfork t env r hr⟩
  · intro p_threads t arr1 t1 destroyed hr i c hc
    rw [sys__exit_reap_start] at hr
    split at hr
    · cases hr
      exact hpass t i c hc
    · cases hr
  · intro p_threads parent_process t exitcode _MKWAIT_EXIT r hr i c hc
    obtain ⟨_, _, harr⟩ := sys__exit_some p_threads curproc parent_process t exitcode _ r hr
    rw [harr] at hc
    exact hpass t i c hc
  · intro p_threads t
    rw [sys__exit_reap_start]
    constructor
    · rintro ⟨arr1, t1, destroyed, hr⟩
      split at hr
      · assumption
      · cases hr
    · intro hre
      rw [if_pos hre]
      exact ⟨_, _, _, rfl⟩
  · intro p_threads parent_process t exitcode _MKWAIT_EXIT
    constructor
    · rintro ⟨r, hr⟩
      obtain ⟨h1, h2, _⟩ := sys__exit_some p_threads curproc parent_process t exitcode _ r hr
      exact ⟨h1, h2⟩
    · rintro ⟨h1, h2⟩
      exact ⟨_, sys__exit_live_parent p_threads curproc parent_process t exitcode _ h1 h2⟩

/-- C19 at a concrete process with the children `Z N Z N` (zombies at the positions 0
and 2, with no child and no thread) and the indices 0, 1, 2, 3: after `sys__exit` its
child array holds the two survivors with the indices 0 and 1; after `sys_fork` its child
array has a fifth entry with the index 4. -/
theorem child_index_preserved_witness :
    child_index_ok
      (.mk 2 [.mk 3 [] 0 0 4 1, .mk 4 [] 1 0 0 0, .mk 5 [] 2 0 8 1, .mk 6 [] 3 0 0 0] 0 2 0 0)
    ∧ (∃ r, sys__exit (fun pid => if pid = 3 ∨ pid = 5 then 0 else 1)
        (.mk 2 [.mk 3 [] 0 0 4 1, .mk 4 [] 1 0 0 0, .mk 5 [] 2 0 8 1, .mk 6 [] 3 0 0 0]
          0 2 0 0)
        (.mk 1 [] 0 1 0 0) [1, 1, 1, 1, 1, 1, 1, 0] 0 (fun x => x * 4) = some r
        ∧ r.curproc.p_child_process_arr = [.mk 4 [] 0 0 0 0, .mk 6 [] 1 0 0 0]
        ∧ child_index_ok r.curproc)
    ∧ (∃ r, sys_fork
        (.mk 2 [.mk 3 [] 0 0 4 1, .mk 4 [] 1 0 0 0, .mk 5 [] 2 0 8 1, .mk 6 [] 3 0 0 0]
          0 2 0 0)
        [1, 1, 1, 1, 1, 1, 1, 0] ⟨true, true, true, 99, 99, some (.returns 0), 0, true, 0⟩
          = some (.returns r)
        ∧ r.curproc.p_child_process_arr
          = [.mk 3 [] 0 0 4 1, .mk 4 [] 1 0 0 0, .mk 5 [] 2 0 8 1, .mk 6 [] 3 0 0 0,
             .mk 7 [] 4 0 0 0]
        ∧ child_index_ok r.curproc) :=
  have h0 : child_index_ok
      (.mk 2 [.mk 3 [] 0 0 4 1, .mk 4 [] 1 0 0 0, .mk 5 [] 2 0 8 1, .mk 6 [] 3 0 0 0]
        0 2 0 0) := by
    intro i c hc
    simp only [proc.p_child_process_arr] at hc
    match i, hc with
    | 0, hc => simp at hc; subst hc; rfl
    | 1, hc => simp at hc; subst hc; rfl
    | 2, hc => simp at hc; subst hc; rfl
    | 3, hc => simp at hc; subst hc; rfl
    | n + 4, hc => simp at hc
  have h := child_index_preserved _ h0 (by decide)
  have hrun : sys__exit (fun pid => if pid = 3 ∨ pid = 5 then 0 else 1)
      (.mk 2 [.mk 3 [] 0 0 4 1, .mk 4 [] 1 0 0 0, .mk 5 [] 2 0 8 1, .mk 6 [] 3 0 0 0]
        0 2 0 0)
      (.mk 1 [] 0 1 0 0) [1, 1, 1, 1, 1, 1, 1, 0] 0 (fun x => x * 4)
      = some { curproc := .mk 2 [.mk 4 [] 0 0 0 0, .mk 6 [] 1 0 0 0] 0 2 0 1,
               parent_process := .mk 1 [] 0 0 0 0,
               process_ID_table := [1, 1, 1, 0, 1, 0, 1, 0],
               destroyed := [.mk 3 [] 0 0 4 1, .mk 5 [] 1 0 8 1] } := rfl
  ⟨h0,
   ⟨_, hrun, rfl, h.2.2.2.1 _ _ _ _ _ _ hrun⟩,
   (by
    obtain ⟨r, hr, harr, hok⟩ := h.2.1 [1, 1, 1, 1, 1, 1, 1, 0]
      ⟨true, true, true, 99, 99, some (.returns 0), 0, true, 0⟩ 7 [1, 1, 1, 1, 1, 1, 1, 1] 0
      rfl rfl rfl rfl (by decide) rfl rfl rfl
    exact ⟨r, hr, harr, hok⟩)⟩

/-! ## The result of the reaping loop -/

/-- For every child array `arr` in which `proc_destroy` gets through every zombie (a
zombie with no child and no thread) and every PID table, the reaping loop of `sys__exit`
runs to completion, and with children compared up to `p_child_index` (the member the
loop rewrites):
the child array it leaves is exactly the list of the former children whose zombie flag
is not set, in their original order, and the list of the `proc_destroy` calls it made
is exactly the list of the former children whose zombie flag is set, each once, in
their original order. That child array is the child array of the exiting process
after a `sys__exit` that returns. -/
theorem reaping_loop_result (p_threads : Int → Nat) (arr : List proc) (t : List Nat)
    (hre : reapable p_threads arr = true) :
    ∃ arr1 t1 destroyed,
      sys__exit_reap p_threads arr.length 0 (arr.length : Int) arr t []
        = some (arr1, t1, destroyed)
      ∧ arr1.map proc.forget_child_index
          = (arr.filter (fun c => decide (c.p_is_zombie ≠ 1))).map proc.forget_child_index
      ∧ destroyed.map proc.forget_child_index
          = (arr.filter (fun c => decide (c.p_is_zombie = 1))).map proc.forget_child_index
      ∧ ∀ curproc parent_process exitcode _MKWAIT_EXIT r,
          curproc.p_child_process_arr = arr →
          sys__exit p_threads curproc parent_process t exitcode _MKWAIT_EXIT = some r →
          r.curproc.p_child_process_arr = arr1 := by
  refine ⟨_, _, _, by rw [sys__exit_reap_start, if_pos hre], (reap_pass_lists arr 0 t).1,
    (reap_pass_lists arr 0 t).2, ?_⟩
  intro curproc parent_process exitcode _MKWAIT_EXIT r harr hr
  obtain ⟨_, _, hch⟩ := sys__exit_some p_threads curproc parent_process t exitcode _ r hr
  rw [hch, harr]

/-- The reaping loop does not run to completion when `proc_destroy` does not get through
a zombie among the children: an assertion fails inside `proc_destroy`. -/
theorem reaping_loop_stops (p_threads : Int → Nat) (arr : List proc) (t : List Nat)
    (hre : reapable p_threads arr = false) :
    sys__exit_reap p_threads arr.length 0 (arr.length : Int) arr t [] = none := by
  rw [sys__exit_reap_start, hre]
  rfl

/-- C20 (the code at a failing input). The exiting process has the children `Z N`: the
zombie `Z` with the PID 5, which has no thread any more and still has its own child with
the PID 6 in its child array, and the running child `N` with the PID 7. The reaping loop
calls `proc_destroy` on `Z`; the loop of `proc_destroy` leaves the one child of `Z` in
the array of `Z`, `array_destroy` fails on it, and the reaping loop stops there: there
is no child list after it, `Z` has not been removed, and `sys__exit` does not return.
On the children `Z N Z N` with zombies that have no child the loop runs to completion
with the child list `N N` and two `proc_destroy` calls, one for each zombie. -/
theorem reaping_loop_zombie_with_child :
    sys__exit_reap (fun pid => if pid = 5 then 0 else 1) 2 0 2
        [.mk 5 [.mk 6 [] 0 0 0 0] 0 1 12 1, .mk 7 [] 1 0 0 0]
        [1, 1, 1, 1, 1, 1, 1, 1] []
      = none
    ∧ proc_destroy (fun pid => if pid = 5 then 0 else 1) (.mk 5 [.mk 6 [] 0 0 0 0] 0 1 12 1)
        [1, 1, 1, 1, 1, 1, 1, 1]
      = none
    ∧ threadarray_cleanup 0 = some ()
    ∧ proc_destroy_child_array (.mk 5 [.mk 6 [] 0 0 0 0] 0 1 12 1) = some [.mk 6 [] 0 0 0 0]
    ∧ array_destroy [.mk 6 [] 0 0 0 0] = none
    ∧ sys__exit (fun pid => if pid = 5 then 0 else 1)
        (.mk 4 [.mk 5 [.mk 6 [] 0 0 0 0] 0 1 12 1, .mk 7 [] 1 0 0 0] 0 1 0 0)
        (.mk 2 [.mk 4 [.mk 5 [.mk 6 [] 0 0 0 0] 0 1 12 1, .mk 7 [] 1 0 0 0] 0 1 0 0] 0 1 0 0)
        [1, 1, 1, 1, 1, 1, 1, 1] 0 (fun x => x * 4)
      = none
    ∧ sys__exit_reap (fun pid => if pid = 3 ∨ pid = 5 then 0 else 1) 4 0 4
        [.mk 3 [] 0 0 4 1, .mk 4 [] 1 0 0 0, .mk 5 [] 2 0 8 1, .mk 6 [] 3 0 0 0]
        [1, 1, 1, 1, 1, 1, 1, 0] []
      = some ([.mk 4 [] 0 0 0 0, .mk 6 [] 1 0 0 0], [1, 1, 1, 0, 1, 0, 1, 0],
          [.mk 3 [] 0 0 4 1, .mk 5 [] 1 0 8 1]) :=
  ⟨rfl, rfl, rfl, rfl, rfl, rfl, rfl⟩

/-! ## The frames that `as_copy` takes -/

/-- A core map has no free frame or it has a lowest free frame. -/
theorem core_map_cases (cm : List core_map_entry) :
    (∀ j e, cm.get? j = some e → e.page_allocated = PAGE_ALLOCATED)
    ∨ ∃ k e, cm.get? k = some e ∧ e.page_allocated = PAGE_FREE
        ∧ ∀ j e1, j < k → cm.get? j = some e1 → e1.page_allocated = PAGE_ALLOCATED := by
  induction cm with
  | nil =>
    left
    intro j e h
    simp at h
  | cons a rest ih =>
    by_cases ha : a.page_allocated = PAGE_FREE
    · right
      exact ⟨0, a, rfl, ha, fun j e1 hj _ => absurd hj (Nat.not_lt_zero _)⟩
    · have ha1 : a.page_allocated = PAGE_ALLOCATED := by
        cases h : a.page_allocated
        · exact absurd h ha
        · rfl
      rcases ih with hall | ⟨k, e, hk, hf, hb⟩
      · left
        intro j e h
        cases j with
        | zero =>
          simp only [List.get?_cons_zero, Option.some.injEq] at h
          rw [← h]
          exact ha1
        | succ j => exact hall j e (by simpa using h)
      · right
        refine ⟨k + 1, e, by simpa using hk, hf, ?_⟩
        intro j e1 hj h
        cases j with
        | zero =>
          simp only [List.get?_cons_zero, Option.some.injEq] at h
          rw [← h]
          exact ha1
        | succ j => exact hb j e1 (by omega) (by simpa using h)

/-- One iteration of the page-table loop of `as_copy` that carries on: the first free
frame `k` of the core map is taken for the new entry. -/
theorem as_copy_ptes_step (curr_pte : page_table_) (rest : List page_table_) (heap : Nat)
    (cm cm1 : core_map_state) (new_array r : List page_table_) (hs : core_map_ok cm)
    (h : as_copy_ptes (curr_pte :: rest) heap cm new_array = some (0, r, cm1)) :
    ∃ k e heap1, cm.core_map.get? k = some e ∧ e.page_allocated = PAGE_FREE
      ∧ kmalloc heap = some heap1
      ∧ getppages cm 1
          = some (frame_paddr cm k, { cm with core_map := cm.core_map.set k ⟨PAGE_ALLOCATED, 1⟩ })
      ∧ frame_paddr cm k ≠ 0
      ∧ frame_paddr cm k &&& PAGE_FRAME = frame_paddr cm k
      ∧ as_copy_ptes rest heap1 { cm with core_map := cm.core_map.set k ⟨PAGE_ALLOCATED, 1⟩ }
          (new_array ++ [⟨curr_pte.virtual_page_number, frame_paddr cm k⟩])
          = some (0, r, cm1) := by
  rcases core_map_cases cm.core_map with hall | ⟨k, e, hk, hf, hb⟩
  · have hg := getppages_one_full cm hall
    unfold as_copy_ptes at h
    rw [hg] at h
    cases hkm : kmalloc heap with
    | none =>
      rw [hkm] at h
      simp [ENOMEM] at h
    | some heap1 =>
      rw [hkm] at h
      simp [ENOMEM] at h
  · have hg := getppages_one_free cm hs k e hk hf hb
    have hklen : k < cm.core_map.length := by
      rw [List.get?_eq_some] at hk
      exact hk.1
    obtain ⟨_, h2, h3, _⟩ := frame_paddr_ok cm hs k hklen
    unfold as_copy_ptes at h
    rw [hg] at h
    cases hkm : kmalloc heap with
    | none =>
      rw [hkm] at h
      simp [ENOMEM] at h
    | some heap1 =>
      rw [hkm] at h
      simp only [h2, if_false, h3, ne_eq, not_true_eq_false] at h
      exact ⟨k, e, heap1, hk, hf, rfl, hg, h2, h3, h⟩

/-- The kernel-window ranges of two different tracked frames do not meet. -/
theorem kvaddr_frames_disjoint (cm : core_map_state) (hs : core_map_ok cm) (j k : Nat)
    (hj : j < cm.core_map.length) (hk : k < cm.core_map.length) (hjk : j ≠ k)
    (off : Nat) (hoff : off < PAGE_SIZE) :
    ¬ (PADDR_TO_KVADDR (frame_paddr cm k) ≤ PADDR_TO_KVADDR (frame_paddr cm j) + off
        ∧ PADDR_TO_KVADDR (frame_paddr cm j) + off
            < PADDR_TO_KVADDR (frame_paddr cm k) + PAGE_SIZE) := by
  obtain ⟨h0, hal, hend⟩ := hs
  unfold PADDR_TO_KVADDR frame_paddr MIPS_KSEG0
  unfold PAGE_SIZE at *
  omega

/-- The frames that the page-table loop of `as_copy` takes when it ends with 0: a list
`ks` of pairwise different frame indices, one per source entry, each free before and
an allocated run of length 1 after; the other cells of the core map are as before. The
new entries carry the virtual page numbers of the source and the addresses of these
frames. When the source entries map allocated frames, every new frame holds the bytes of
its source frame afterwards and memory outside the new frames is as before. -/
theorem as_copy_ptes_frames (rest : List page_table_) :
    ∀ (heap : Nat) (cm cm1 : core_map_state) (new_array r : List page_table_)
      (mem : Nat → Nat),
      core_map_ok cm →
      as_copy_ptes rest heap cm new_array = some (0, r, cm1) →
      ∃ ks : List Nat, ks.length = rest.length ∧ ks.Nodup
        ∧ r = new_array ++ List.zipWith
              (fun q k => (⟨q.virtual_page_number, frame_paddr cm k⟩ : page_table_)) rest ks
        ∧ (∀ k, k ∈ ks → ∃ e, cm.core_map.get? k = some e ∧ e.page_allocated = PAGE_FREE)
        ∧ cm1.physical_start = cm.physical_start
        ∧ cm1.core_map.length = cm.core_map.length
        ∧ (∀ k, k ∈ ks → cm1.core_map.get? k = some ⟨PAGE_ALLOCATED, 1⟩)
        ∧ (∀ j, j ∉ ks → cm1.core_map.get? j = cm.core_map.get? j)
        ∧ (frames_allocated cm rest →
            ∃ mem1, as_copy_ptes_memcpy rest heap cm mem = some mem1
              ∧ (∀ i k q, ks.get? i = some k → rest.get? i = some q →
                  ∀ off, off < PAGE_SIZE →
                    mem1 (PADDR_TO_KVADDR (frame_paddr cm k) + off)
                      = mem (PADDR_TO_KVADDR q.physical_page_number + off))
              ∧ (∀ a, (∀ k, k ∈ ks →
                    ¬ (PADDR_TO_KVADDR (frame_paddr cm k) ≤ a
                        ∧ a < PADDR_TO_KVADDR (frame_paddr cm k) + PAGE_SIZE)) →
                  mem1 a = mem a)) := by
  induction rest with
  | nil =>
    intro heap cm cm1 new_array r mem _ h
    simp only [as_copy_ptes, Option.some.injEq, Prod.mk.injEq] at h
    refine ⟨[], rfl, List.nodup_nil, ?_, ?_, ?_, ?_, ?_, ?_, ?_⟩
    · rw [← h.2.1]; simp
    · intro k hk; simp at hk
    · rw [h.2.2]
    · rw [h.2.2]
    · intro k hk; simp at hk
    · intro j _; rw [h.2.2]
    · intro _
      refine ⟨mem, rfl, ?_, ?_⟩
      · intro i k q hk; simp at hk
      · intro a _; rfl
  | cons curr_pte rest ih =>
    intro heap cm cm1 new_array r mem hs h
    obtain ⟨k, e, heap1, hk, hf, hkm, hg, hne, hal, hrest⟩ :=
      as_copy_ptes_step curr_pte rest heap cm cm1 new_array r hs h
    have hklen : k < cm.core_map.length := by
      rw [List.get?_eq_some] at hk
      exact hk.1
    have hs1 : core_map_ok { cm with core_map := cm.core_map.set k ⟨PAGE_ALLOCATED, 1⟩ } := by
      obtain ⟨h0, h1, h2⟩ := hs
      refine ⟨h0, h1, ?_⟩
      simpa using h2
    obtain ⟨ks, hlen, hnd, hr, hfree, hps, hcl, halloc, hother, hmem⟩ :=
      ih heap1 _ cm1 _ r
        (memcpy mem (PADDR_TO_KVADDR (frame_paddr cm k))
          (PADDR_TO_KVADDR curr_pte.physical_page_number) PAGE_SIZE) hs1 hrest
    have hfp : ∀ j, frame_paddr { cm with core_map := cm.core_map.set k ⟨PAGE_ALLOCATED, 1⟩ } j
        = frame_paddr cm j := fun j => rfl
    have hknot : k ∉ ks := by
      intro hmem1
      obtain ⟨e1, he1, hf1⟩ := hfree k hmem1
      simp only [List.get?_eq_getElem?, List.getElem?_set_self hklen, Option.some.injEq] at he1
      rw [← he1] at hf1
      exact absurd hf1 (by decide)
    have hfree0 : ∀ k1, k1 ∈ ks →
        ∃ e, cm.core_map.get? k1 = some e ∧ e.page_allocated = PAGE_FREE := by
      intro k1 hk1
      obtain ⟨e1, he1, hf1⟩ := hfree k1 hk1
      have hne1 : k ≠ k1 := fun h => hknot (h ▸ hk1)
      simp only [List.get?_eq_getElem?, List.getElem?_set_ne hne1] at he1
      exact ⟨e1, by simpa using he1, hf1⟩
    refine ⟨k :: ks, by simp [hlen], List.nodup_cons.mpr ⟨hknot, hnd⟩, ?_, ?_, hps,
      ?_, ?_, ?_, ?_⟩
    · rw [hr]
      simp [hfp]
    · intro k1 hk1
      rcases List.mem_cons.mp hk1 with h1 | h1
      · exact ⟨e, h1 ▸ hk, hf⟩
      · exact hfree0 k1 h1
    · rw [hcl]; simp
    · intro k1 hk1
      rcases List.mem_cons.mp hk1 with h1 | h1
      · rw [h1, hother k hknot]
        simp [List.getElem?_set_self hklen]
      · exact halloc k1 h1
    · intro j hj
      have hj1 : j ∉ ks := fun h => hj (List.mem_cons_of_mem _ h)
      have hj2 : k ≠ j := fun h => hj (h ▸ List.mem_cons_self _ _)
      rw [hother j hj1]
      simp [List.getElem?_set_ne hj2]
    · intro hfa
      have hfa1 : frames_allocated
          { cm with core_map := cm.core_map.set k ⟨PAGE_ALLOCATED, 1⟩ } rest := by
        intro q hq
        obtain ⟨j, e1, hj, ha, hq1⟩ := hfa q (List.mem_cons_of_mem _ hq)
        have hjk : k ≠ j := by
          intro hjk
          rw [← hjk, hk] at hj
          rw [← Option.some.inj hj, hf] at ha
          exact absurd ha (by decide)
        refine ⟨j, e1, ?_, ha, hq1⟩
        simpa [List.getElem?_set_ne hjk] using hj
      obtain ⟨mem1, hrun, hm1, hm2⟩ := hmem hfa1
      have hdisj : ∀ k1, k1 ∈ ks → ∀ off, off < PAGE_SIZE →
          ¬ (PADDR_TO_KVADDR (frame_paddr cm k1) ≤ PADDR_TO_KVADDR (frame_paddr cm k) + off
            ∧ PADDR_TO_KVADDR (frame_paddr cm k) + off
                < PADDR_TO_KVADDR (frame_paddr cm k1) + PAGE_SIZE) := by
        intro k1 hk1 off hoff
        obtain ⟨e1, he1, _⟩ := hfree0 k1 hk1
        have hk1len : k1 < cm.core_map.length := by
          rw [List.get?_eq_some] at he1
          exact he1.1
        exact kvaddr_frames_disjoint cm hs k k1 hklen hk1len
          (fun h => hknot (h ▸ hk1)) off hoff
      refine ⟨mem1, ?_, ?_, ?_⟩
      · unfold as_copy_ptes_memcpy
        rw [hkm, hg]
        simp only [hne, if_false, hal, ne_eq, not_true_eq_false]
        exact hrun
      · intro i k1 q hi hq off hoff
        cases i with
        | zero =>
          simp only [List.get?_cons_zero, Option.some.injEq] at hi hq
          subst hi hq
          rw [hm2 _ (fun k1 hk1 => by rw [hfp]; exact hdisj k1 hk1 off hoff)]
          unfold memcpy
          rw [if_pos ⟨Nat.le_add_right _ _, Nat.add_lt_add_left hoff _⟩,
            Nat.add_sub_cancel_left]
        | succ i =>
          simp only [List.get?_cons_succ] at hi hq
          rw [← hfp k1, hm1 i k1 q hi hq off hoff]
          obtain ⟨j, e1, hj, ha, hq1⟩ := hfa q (List.mem_cons_of_mem _ (List.get?_mem hq))
          have hjlen : j < cm.core_map.length := by
            rw [List.get?_eq_some] at hj
            exact hj.1
          have hjk : j ≠ k := by
            intro hjk
            rw [hjk, hk] at hj
            rw [← Option.some.inj hj, hf] at ha
            exact absurd ha (by decide)
          unfold memcpy
          rw [if_neg]
          rw [hq1]
          exact kvaddr_frames_disjoint cm hs j k hjlen hklen hjk off hoff
      · intro a ha
        rw [hm2 a (fun k1 hk1 => by rw [hfp]; exact ha k1 (List.mem_cons_of_mem _ hk1))]
        unfold memcpy
        rw [if_neg (ha k (List.mem_cons_self _ _))]

/-- The segment loop of `as_copy`, when it runs through, has appended the segments of
the source to the new array, field by field. -/
theorem as_copy_segments_append (rest : List segment) :
    ∀ (heap heap2 : Nat) (new_array segs : List segment),
      as_copy_segments rest heap new_array = .ok (segs, heap2) → segs = new_array ++ rest := by
  induction rest with
  | nil =>
    intro heap heap2 new_array segs h
    simp only [as_copy_segments, Except.ok.injEq, Prod.mk.injEq] at h
    rw [← h.1]
    simp
  | cons c rest ih =>
    intro heap heap2 new_array segs h
    unfold as_copy_segments at h
    split at h
    · simp at h
    · rw [ih _ _ _ _ h]
      simp

/-- The address space and the core map that a successful `as_copy` returns, in terms
of the frames `ks` that its page-table loop takes (see `as_copy_ptes_frames`). -/
theorem as_copy_frames (old new : addrspace) (cm cm1 : core_map_state) (heap : Nat)
    (mem : Nat → Nat) (hs : core_map_ok cm)
    (h : as_copy old cm heap = some (0, some new, cm1)) :
    new.as_segment_array.drop 1 = old.as_segment_array.drop 1
    ∧ ∃ ks : List Nat, ks.length = old.as_pt_array.length ∧ ks.Nodup
        ∧ new.as_pt_array = List.zipWith
            (fun q k => (⟨q.virtual_page_number, frame_paddr cm k⟩ : page_table_))
            old.as_pt_array ks
        ∧ (∀ k, k ∈ ks → ∃ e, cm.core_map.get? k = some e ∧ e.page_allocated = PAGE_FREE)
        ∧ cm1.physical_start = cm.physical_start
        ∧ cm1.core_map.length = cm.core_map.length
        ∧ (∀ k, k ∈ ks → cm1.core_map.get? k = some ⟨PAGE_ALLOCATED, 1⟩)
        ∧ (∀ j, j ∉ ks → cm1.core_map.get? j = cm.core_map.get? j)
        ∧ (frames_allocated cm old.as_pt_array →
            ∃ mem1, as_copy_memcpy old cm heap mem = some mem1
              ∧ (∀ i k q, ks.get? i = some k → old.as_pt_array.get? i = some q →
                  ∀ off, off < PAGE_SIZE →
                    mem1 (PADDR_TO_KVADDR (frame_paddr cm k) + off)
                      = mem (PADDR_TO_KVADDR q.physical_page_number + off))
              ∧ (∀ a, (∀ k, k ∈ ks →
                    ¬ (PADDR_TO_KVADDR (frame_paddr cm k) ≤ a
                        ∧ a < PADDR_TO_KVADDR (frame_paddr cm k) + PAGE_SIZE)) →
                  mem1 a = mem a)) := by
  unfold as_copy at h
  unfold as_copy_memcpy
  split at h
  · simp at h
  · simp [ENOMEM] at h
  · rename_i newas heap1 hcreate
    have hnewas : newas.as_pt_array = [] ∧ newas.as_segment_array.length = 1 := by
      unfold as_create at hcreate
      split at hcreate
      · simp at hcreate
      · split at hcreate
        · simp at hcreate
        · simp only [Option.some.injEq, Prod.mk.injEq] at hcreate
          rw [← hcreate.1]
          exact ⟨rfl, rfl⟩
    split at h
    · simp at h
    · rename_i new_segments heap2 hsegs
      have happ := as_copy_segments_append _ _ _ _ _ hsegs
      split at h
      · rename_i old_heap new_heap hold hnew
        dsimp only at h ⊢
        split at h
        · simp at h
        · rename_i err2 new_ptes cm2 hptes
          split at h
          · simp at h
          · rename_i herr
            have herr0 : err2 = 0 := by
              by_contra hne
              exact herr hne
            subst herr0
            simp only [Option.some.injEq, Prod.mk.injEq, true_and] at h
            rw [hnewas.1] at hptes
            obtain ⟨ks, h1, h2, h3, h4, h5, h6, h7, h8, h9⟩ :=
              as_copy_ptes_frames _ _ _ _ _ _ mem hs hptes
            rw [← h.1, ← h.2]
            refine ⟨?_, ks, h1, h2, by simpa using h3, h4, h5, h6, h7, h8, h9⟩
            obtain ⟨a, ha⟩ : ∃ a, newas.as_segment_array = [a] := by
              match hm : newas.as_segment_array, hnewas.2 with
              | [a], _ => exact ⟨a, rfl⟩
            rw [happ, ha]
            simp
      · simp at h

/-- The frame addresses of the entries that `as_copy` builds from the frames `ks`. -/
theorem zipWith_frame_paddr (cm : core_map_state) (pt : List page_table_) :
    ∀ ks : List Nat, ks.length = pt.length →
      (List.zipWith
          (fun q k => (⟨q.virtual_page_number, frame_paddr cm k⟩ : page_table_)) pt ks).map
        page_table_.physical_page_number = ks.map (frame_paddr cm) := by
  induction pt with
  | nil =>
    intro ks h
    cases ks with
    | nil => rfl
    | cons k ks => simp at h
  | cons q pt ih =>
    intro ks h
    cases ks with
    | nil => simp at h
    | cons k ks =>
      simp only [List.length_cons, add_left_inj] at h
      simp only [List.zipWith_cons_cons, List.map_cons, ih ks h]

/-- Different frame indices have different addresses. -/
theorem frame_paddr_injective (cm : core_map_state) :
    Function.Injective (frame_paddr cm) := by
  intro j k h
  unfold frame_paddr PAGE_SIZE at h
  omega

/-- Let the core map be initialised and let every page-table entry of the source
address space map a frame that the core map has marked allocated. When `as_copy`
returns 0 and the address space `new`: `new` has the non-heap segments of the source
in the same order, the heap start and end, the stack base and top of the source, and the
virtual page numbers of the source entry by entry; the frames of its entries are
pairwise different, each was free before the call and is allocated after it, and none
is mapped by an entry of the source; the `memcpy` calls of `as_copy` run through and
leave in every new frame the `PAGE_SIZE` bytes that the source frame of the same entry
had, and leave the source frames as they were. (The source address space is an argument
that `as_copy` does not write.) -/
theorem as_copy_clone (old new : addrspace) (cm cm1 : core_map_state) (heap : Nat)
    (mem : Nat → Nat) (hs : core_map_ok cm) (hfa : frames_allocated cm old.as_pt_array)
    (h : as_copy old cm heap = some (0, some new, cm1)) :
    new.as_segment_array.drop 1 = old.as_segment_array.drop 1
    ∧ (∃ old_heap new_heap, old.as_segment_array.get? 0 = some old_heap
        ∧ new.as_segment_array.get? 0 = some new_heap
        ∧ new_heap.segment_start = old_heap.segment_start
        ∧ new_heap.segment_end = old_heap.segment_end)
    ∧ new.as_stack_base = old.as_stack_base
    ∧ new.as_stack_top = old.as_stack_top
    ∧ vpns new.as_pt_array = vpns old.as_pt_array
    ∧ (new.as_pt_array.map page_table_.physical_page_number).Nodup
    ∧ (∀ p, p ∈ new.as_pt_array →
        ∃ k e, p.physical_page_number = frame_paddr cm k
          ∧ cm.core_map.get? k = some e ∧ e.page_allocated = PAGE_FREE
          ∧ cm1.core_map.get? k = some ⟨PAGE_ALLOCATED, 1⟩)
    ∧ (∀ p q, p ∈ new.as_pt_array → q ∈ old.as_pt_array →
        p.physical_page_number ≠ q.physical_page_number)
    ∧ ∃ mem1, as_copy_memcpy old cm heap mem = some mem1
        ∧ (∀ i p q, new.as_pt_array.get? i = some p → old.as_pt_array.get? i = some q →
            ∀ off, off < PAGE_SIZE →
              mem1 (PADDR_TO_KVADDR p.physical_page_number + off)
                = mem (PADDR_TO_KVADDR q.physical_page_number + off))
        ∧ (∀ q, q ∈ old.as_pt_array → ∀ off, off < PAGE_SIZE →
            mem1 (PADDR_TO_KVADDR q.physical_page_number + off)
              = mem (PADDR_TO_KVADDR q.physical_page_number + off)) := by
  obtain ⟨hv, hheap, hsb, hst⟩ := as_copy_result old new cm cm1 heap 0 h
  obtain ⟨hsegs, ks, hlen, hnd, hpt, hfree, _, _, halloc, _, hmem⟩ :=
    as_copy_frames old new cm cm1 heap mem hs h
  obtain ⟨mem1, hrun, hm1, hm2⟩ := hmem hfa
  have hppn : new.as_pt_array.map page_table_.physical_page_number
      = ks.map (frame_paddr cm) := by
    rw [hpt]
    exact zipWith_frame_paddr cm _ ks hlen
  have hklen : ∀ k, k ∈ ks → k < cm.core_map.length := by
    intro k hk
    obtain ⟨e, he, _⟩ := hfree k hk
    rw [List.get?_eq_some] at he
    exact he.1
  have hsrc : ∀ q, q ∈ old.as_pt_array → ∀ k, k ∈ ks →
      ∃ j, j < cm.core_map.length ∧ j ≠ k ∧ q.physical_page_number = frame_paddr cm j := by
    intro q hq k hk
    obtain ⟨j, e, hj, ha, hq1⟩ := hfa q hq
    obtain ⟨e1, he1, hf1⟩ := hfree k hk
    refine ⟨j, ?_, ?_, hq1⟩
    · rw [List.get?_eq_some] at hj
      exact hj.1
    · intro hjk
      rw [hjk, he1] at hj
      rw [Option.some.inj hj, ha] at hf1
      exact absurd hf1 (by decide)
  have hmemk : ∀ p, p ∈ new.as_pt_array →
      ∃ k, k ∈ ks ∧ p.physical_page_number = frame_paddr cm k := by
    intro p hp
    have h1 : p.physical_page_number ∈ ks.map (frame_paddr cm) := by
      rw [← hppn]
      exact List.mem_map_of_mem _ hp
    obtain ⟨k, hk, hk1⟩ := List.mem_map.mp h1
    exact ⟨k, hk, hk1.symm⟩
  refine ⟨hsegs, hheap, hsb, hst, hv, ?_, ?_, ?_, mem1, hrun, ?_, ?_⟩
  · rw [hppn]
    exact hnd.map (frame_paddr_injective cm)
  · intro p hp
    obtain ⟨k, hk, hk1⟩ := hmemk p hp
    obtain ⟨e, he, hf⟩ := hfree k hk
    exact ⟨k, e, hk1, he, hf, halloc k hk⟩
  · intro p q hp hq hpq
    obtain ⟨k, hk, hk1⟩ := hmemk p hp
    obtain ⟨j, _, hjk, hq1⟩ := hsrc q hq k hk
    rw [hk1, hq1] at hpq
    exact hjk (frame_paddr_injective cm hpq).symm
  · intro i p q hp hq off hoff
    have h1 : (new.as_pt_array.map page_table_.physical_page_number).get? i
        = some p.physical_page_number := by
      rw [List.get?_eq_getElem?, List.getElem?_map, ← List.get?_eq_getElem?, hp]
      rfl
    rw [hppn, List.get?_eq_getElem?, List.getElem?_map, ← List.get?_eq_getElem?] at h1
    cases hk : ks.get? i with
    | none => rw [hk] at h1; simp at h1
    | some k =>
      rw [hk] at h1
      simp only [Option.map_some', Option.some.injEq] at h1
      rw [← h1]
      exact hm1 i k q hk hq off hoff
  · intro q hq off hoff
    apply hm2
    intro k hk
    obtain ⟨j, hj, hjk, hq1⟩ := hsrc q hq k hk
    rw [hq1]
    exact kvaddr_frames_disjoint cm hs j k hj (hklen k hk) hjk off hoff

/-- The clone at a concrete input: the source maps the pages `0x400000` and `0x500000` to the
frames 0 and 2 of a core map `A F A F` that starts at `0x2000`. The copy maps the same
pages to the frames 1 and 3 (`0x3000`, `0x5000`), which were free, and byte 5 of each
new frame is byte 5 of its source frame. -/
theorem as_copy_clone_witness :
    core_map_ok ⟨[⟨true, 1⟩, ⟨false, 0⟩, ⟨true, 1⟩, ⟨false, 0⟩], 0x2000⟩
    ∧ frames_allocated ⟨[⟨true, 1⟩, ⟨false, 0⟩, ⟨true, 1⟩, ⟨false, 0⟩], 0x2000⟩
        [⟨0x400000, 0x2000⟩, ⟨0x500000, 0x4000⟩]
    ∧ as_copy
        ⟨[⟨0x600000, 0x602000, 4, 2, 0, 0⟩, ⟨0x400000, 0x401000, 4, 0, 1, 0⟩,
            ⟨0x500000, 0x501000, 4, 2, 0, 0⟩],
          [⟨0x400000, 0x2000⟩, ⟨0x500000, 0x4000⟩], 0x80000000, 0x7ffff000⟩
        ⟨[⟨true, 1⟩, ⟨false, 0⟩, ⟨true, 1⟩, ⟨false, 0⟩], 0x2000⟩ 6
      = some (0,
          some ⟨[⟨0x600000, 0x602000, 4, 2, 0, 0⟩, ⟨0x400000, 0x401000, 4, 0, 1, 0⟩,
              ⟨0x500000, 0x501000, 4, 2, 0, 0⟩],
            [⟨0x400000, 0x3000⟩, ⟨0x500000, 0x5000⟩], 0x80000000, 0x7ffff000⟩,
          ⟨[⟨true, 1⟩, ⟨true, 1⟩, ⟨true, 1⟩, ⟨true, 1⟩], 0x2000⟩)
    ∧ ∃ mem1, as_copy_memcpy
          ⟨[⟨0x600000, 0x602000, 4, 2, 0, 0⟩, ⟨0x400000, 0x401000, 4, 0, 1, 0⟩,
              ⟨0x500000, 0x501000, 4, 2, 0, 0⟩],
            [⟨0x400000, 0x2000⟩, ⟨0x500000, 0x4000⟩], 0x80000000, 0x7ffff000⟩
          ⟨[⟨true, 1⟩, ⟨false, 0⟩, ⟨true, 1⟩, ⟨false, 0⟩], 0x2000⟩ 6 (fun a => a % 251)
          = some mem1
        ∧ mem1 (PADDR_TO_KVADDR 0x3000 + 5) = (PADDR_TO_KVADDR 0x2000 + 5) % 251
        ∧ mem1 (PADDR_TO_KVADDR 0x5000 + 5) = (PADDR_TO_KVADDR 0x4000 + 5) % 251
        ∧ mem1 (PADDR_TO_KVADDR 0x2000 + 5) = (PADDR_TO_KVADDR 0x2000 + 5) % 251 :=
  have hs : core_map_ok ⟨[⟨true, 1⟩, ⟨false, 0⟩, ⟨true, 1⟩, ⟨false, 0⟩], 0x2000⟩ :=
    ⟨by decide, by decide, by decide⟩
  have hfa : frames_allocated ⟨[⟨true, 1⟩, ⟨false, 0⟩, ⟨true, 1⟩, ⟨false, 0⟩], 0x2000⟩
      [⟨0x400000, 0x2000⟩, ⟨0x500000, 0x4000⟩] := by
    intro q hq
    simp only [List.mem_cons, List.mem_singleton, List.not_mem_nil, or_false] at hq
    rcases hq with hq | hq
    · exact ⟨0, ⟨true, 1⟩, rfl, rfl, by rw [hq]; rfl⟩
    · exact ⟨2, ⟨true, 1⟩, rfl, rfl, by rw [hq]; rfl⟩
  have hrun : as_copy
        ⟨[⟨0x600000, 0x602000, 4, 2, 0, 0⟩, ⟨0x400000, 0x401000, 4, 0, 1, 0⟩,
            ⟨0x500000, 0x501000, 4, 2, 0, 0⟩],
          [⟨0x400000, 0x2000⟩, ⟨0x500000, 0x4000⟩], 0x80000000, 0x7ffff000⟩
        ⟨[⟨true, 1⟩, ⟨false, 0⟩, ⟨true, 1⟩, ⟨false, 0⟩], 0x2000⟩ 6
      = some (0,
          some ⟨[⟨0x600000, 0x602000, 4, 2, 0, 0⟩, ⟨0x400000, 0x401000, 4, 0, 1, 0⟩,
              ⟨0x500000, 0x501000, 4, 2, 0, 0⟩],
            [⟨0x400000, 0x3000⟩, ⟨0x500000, 0x5000⟩], 0x80000000, 0x7ffff000⟩,
          ⟨[⟨true, 1⟩, ⟨true, 1⟩, ⟨true, 1⟩, ⟨true, 1⟩], 0x2000⟩) := by decide
  have h := as_copy_clone _ _ _ _ _ (fun a => a % 251) hs hfa hrun
  ⟨hs, hfa, hrun, (by
    obtain ⟨mem1, hm, h1, h2⟩ := h.2.2.2.2.2.2.2.2
    refine ⟨mem1, hm, ?_, ?_, ?_⟩
    · exact h1 0 ⟨0x400000, 0x3000⟩ ⟨0x400000, 0x2000⟩ rfl rfl 5 (by decide)
    · exact h1 1 ⟨0x500000, 0x5000⟩ ⟨0x500000, 0x4000⟩ rfl rfl 5 (by decide)
    · exact h2 ⟨0x400000, 0x2000⟩ (by simp) 5 (by decide))⟩

/-! ## `as_copy` after `free_kpages` -/

/-- C21 (the code at a failing input). The core map tracks six free frames from
`0x2000`; the address space has a heap segment and two regions and no page-table entry.
`alloc_kpages(4)` returns the kernel address of frame 0 and marks the frames 0 and 1
only. A write fault at `0x500010` then gets frame 2 (`0x4000`) for the page `0x500000`.
`free_kpages` of the address that `alloc_kpages` returned reads the run length 4 at
frame 0 and marks the frames 0, 1 and 2 free, frame 2 being mapped. Two more faults get
the frames 0 and 1. Now `as_copy` returns 0, and `getppages(1)` has handed it frame 2 for
its first entry: the copy maps the page `0x500000` to the frame `0x4000`, the frame to
which the source maps that page. The frame was marked free before the call; it is mapped
by an entry of the source, and the two address spaces share it. -/
theorem as_copy_takes_mapped_frame :
    alloc_kpages ⟨[⟨false, 0⟩, ⟨false, 0⟩, ⟨false, 0⟩, ⟨false, 0⟩, ⟨false, 0⟩, ⟨false, 0⟩],
        0x2000⟩ 4
      = some (0x80002000,
          ⟨[⟨true, 4⟩, ⟨true, 3⟩, ⟨false, 0⟩, ⟨false, 0⟩, ⟨false, 0⟩, ⟨false, 0⟩], 0x2000⟩)
    ∧ vm_fault_helper VM_FAULT_WRITE 0x500010
        ⟨[⟨0x600000, 0x602000, 4, 2, 0, 0⟩, ⟨0x400000, 0x401000, 4, 0, 1, 0⟩,
            ⟨0x500000, 0x501000, 4, 2, 0, 0⟩], [], 0x80000000, 0x7ffff000⟩
        ⟨[⟨true, 4⟩, ⟨true, 3⟩, ⟨false, 0⟩, ⟨false, 0⟩, ⟨false, 0⟩, ⟨false, 0⟩], 0x2000⟩ 9
      = some (0,
          ⟨[⟨0x600000, 0x602000, 4, 2, 0, 0⟩, ⟨0x400000, 0x401000, 4, 0, 1, 0⟩,
              ⟨0x500000, 0x501000, 4, 2, 0, 0⟩],
            [⟨0x500000, 0x4000⟩], 0x80000000, 0x7ffff000⟩,
          ⟨[⟨true, 4⟩, ⟨true, 3⟩, ⟨true, 1⟩, ⟨false, 0⟩, ⟨false, 0⟩, ⟨false, 0⟩], 0x2000⟩)
    ∧ free_kpages
        ⟨[⟨true, 4⟩, ⟨true, 3⟩, ⟨true, 1⟩, ⟨false, 0⟩, ⟨false, 0⟩, ⟨false, 0⟩], 0x2000⟩
        0x80002000
      = some ⟨[⟨false, 0⟩, ⟨false, 0⟩, ⟨false, 0⟩, ⟨false, 0⟩, ⟨false, 0⟩, ⟨false, 0⟩],
          0x2000⟩
    ∧ vm_fault_helper VM_FAULT_READ 0x400000
        ⟨[⟨0x600000, 0x602000, 4, 2, 0, 0⟩, ⟨0x400000, 0x401000, 4, 0, 1, 0⟩,
            ⟨0x500000, 0x501000, 4, 2, 0, 0⟩],
          [⟨0x500000, 0x4000⟩], 0x80000000, 0x7ffff000⟩
        ⟨[⟨false, 0⟩, ⟨false, 0⟩, ⟨false, 0⟩, ⟨false, 0⟩, ⟨false, 0⟩, ⟨false, 0⟩], 0x2000⟩ 9
      = some (0,
          ⟨[⟨0x600000, 0x602000, 4, 2, 0, 0⟩, ⟨0x400000, 0x401000, 4, 0, 1, 0⟩,
              ⟨0x500000, 0x501000, 4, 2, 0, 0⟩],
            [⟨0x500000, 0x4000⟩, ⟨0x400000, 0x2000⟩], 0x80000000, 0x7ffff000⟩,
          ⟨[⟨true, 1⟩, ⟨false, 0⟩, ⟨false, 0⟩, ⟨false, 0⟩, ⟨false, 0⟩, ⟨false, 0⟩], 0x2000⟩)
    ∧ vm_fault_helper VM_FAULT_WRITE 0x600000
        ⟨[⟨0x600000, 0x602000, 4, 2, 0, 0⟩, ⟨0x400000, 0x401000, 4, 0, 1, 0⟩,
            ⟨0x500000, 0x501000, 4, 2, 0, 0⟩],
          [⟨0x500000, 0x4000⟩, ⟨0x400000, 0x2000⟩], 0x80000000, 0x7ffff000⟩
        ⟨[⟨true, 1⟩, ⟨false, 0⟩, ⟨false, 0⟩, ⟨false, 0⟩, ⟨false, 0⟩, ⟨false, 0⟩], 0x2000⟩ 9
      = some (0,
          ⟨[⟨0x600000, 0x602000, 4, 2, 0, 0⟩, ⟨0x400000, 0x401000, 4, 0, 1, 0⟩,
              ⟨0x500000, 0x501000, 4, 2, 0, 0⟩],
            [⟨0x500000, 0x4000⟩, ⟨0x400000, 0x2000⟩, ⟨0x600000, 0x3000⟩],
            0x80000000, 0x7ffff000⟩,
          ⟨[⟨true, 1⟩, ⟨true, 1⟩, ⟨false, 0⟩, ⟨false, 0⟩, ⟨false, 0⟩, ⟨false, 0⟩], 0x2000⟩)
    ∧ as_copy
        ⟨[⟨0x600000, 0x602000, 4, 2, 0, 0⟩, ⟨0x400000, 0x401000, 4, 0, 1, 0⟩,
            ⟨0x500000, 0x501000, 4, 2, 0, 0⟩],
          [⟨0x500000, 0x4000⟩, ⟨0x400000, 0x2000⟩, ⟨0x600000, 0x3000⟩],
          0x80000000, 0x7ffff000⟩
        ⟨[⟨true, 1⟩, ⟨true, 1⟩, ⟨false, 0⟩, ⟨false, 0⟩, ⟨false, 0⟩, ⟨false, 0⟩], 0x2000⟩ 9
      = some (0,
          some ⟨[⟨0x600000, 0x602000, 4, 2, 0, 0⟩, ⟨0x400000, 0x401000, 4, 0, 1, 0⟩,
              ⟨0x500000, 0x501000, 4, 2, 0, 0⟩],
            [⟨0x500000, 0x4000⟩, ⟨0x400000, 0x5000⟩, ⟨0x600000, 0x6000⟩],
            0x80000000, 0x7ffff000⟩,
          ⟨[⟨true, 1⟩, ⟨true, 1⟩, ⟨true, 1⟩, ⟨true, 1⟩, ⟨true, 1⟩, ⟨false, 0⟩], 0x2000⟩)
    ∧ core_map_ok
        ⟨[⟨true, 1⟩, ⟨true, 1⟩, ⟨false, 0⟩, ⟨false, 0⟩, ⟨false, 0⟩, ⟨false, 0⟩], 0x2000⟩
    ∧ ¬ frames_allocated
        ⟨[⟨true, 1⟩, ⟨true, 1⟩, ⟨false, 0⟩, ⟨false, 0⟩, ⟨false, 0⟩, ⟨false, 0⟩], 0x2000⟩
        [⟨0x500000, 0x4000⟩, ⟨0x400000, 0x2000⟩, ⟨0x600000, 0x3000⟩]
    ∧ (⟨0x500000, 0x4000⟩ : page_table_)
        ∈ [(⟨0x500000, 0x4000⟩ : page_table_), ⟨0x400000, 0x5000⟩, ⟨0x600000, 0x6000⟩]
    ∧ (⟨0x500000, 0x4000⟩ : page_table_)
        ∈ [(⟨0x500000, 0x4000⟩ : page_table_), ⟨0x400000, 0x2000⟩, ⟨0x600000, 0x3000⟩] := by
  refine ⟨by decide, by decide, by decide, by decide, by decide, by decide,
    ⟨by decide, by decide, by decide⟩, ?_, by decide, by decide⟩
  intro h
  obtain ⟨j, e, hj, ha, hq⟩ := h ⟨0x500000, 0x4000⟩ (by decide)
  simp only [frame_paddr, PAGE_SIZE] at hq
  have hj2 : j = 2 := by omega
  subst hj2
  simp only [List.get?_cons_succ, List.get?_cons_zero, Option.some.injEq] at hj
  subst hj
  exact absurd ha (by decide)

/-! ## `as_destroy` after `as_copy` -/

/-- The function `free_page` on the address of a tracked frame clears the allocation
flag of that frame and nothing else. -/
theorem free_page_frame (cm : core_map_state) (hs : core_map_ok cm) (k : Nat)
    (e : core_map_entry) (hk : cm.core_map.get? k = some e) :
    free_page cm (frame_paddr cm k)
      = some { cm with core_map := cm.core_map.set k { e with page_allocated := PAGE_FREE } } := by
  have hklen : k < cm.core_map.length := by
    rw [List.get?_eq_some] at hk
    exact hk.1
  obtain ⟨_, h0, _, _⟩ := frame_paddr_ok cm hs k hklen
  obtain ⟨hp, hal, hend⟩ := hs
  have hmod : frame_paddr cm k % PAGE_SIZE = 0 := by
    unfold frame_paddr PAGE_SIZE at *
    omega
  have hidx : (frame_paddr cm k + 2 ^ 32 - cm.physical_start) % 2 ^ 32 / PAGE_SIZE = k := by
    unfold frame_paddr PAGE_SIZE at *
    omega
  unfold free_page
  rw [if_neg h0, if_neg (not_not.mpr hmod)]
  dsimp only
  rw [hidx, hk]

/-- One iteration of the page-table loop of `as_destroy`: the last entry is removed and
its frame handed to `free_page`. -/
theorem as_destroy_ptes_append (pt : List page_table_) (p : page_table_)
    (cm : core_map_state) :
    as_destroy_ptes (pt.length + 1) (pt ++ [p]) cm
      = (free_page cm p.physical_page_number).bind
          (fun cm1 => as_destroy_ptes pt.length pt cm1) := by
  have h1 : (pt ++ [p]).get? pt.length = some p := by simp
  have h2 : (pt ++ [p]).eraseIdx pt.length = pt := by
    rw [List.eraseIdx_append_of_length_le (le_refl _)]
    simp
  rw [as_destroy_ptes, h1]
  dsimp only
  rw [h2]
  cases free_page cm p.physical_page_number <;> rfl

/-- The page-table loop of `as_destroy` over entries that map the tracked frames `ks`:
it runs through, empties the page table and leaves the frames `ks` free and the
other cells of the core map as they were. -/
theorem as_destroy_ptes_frames (pt : List page_table_) :
    ∀ (ks : List Nat) (cm : core_map_state), core_map_ok cm →
      pt.map page_table_.physical_page_number = ks.map (frame_paddr cm) →
      (∀ k, k ∈ ks → k < cm.core_map.length) →
      ∃ cm2, as_destroy_ptes pt.length pt cm = some ([], cm2)
        ∧ cm2.physical_start = cm.physical_start
        ∧ cm2.core_map.length = cm.core_map.length
        ∧ (∀ k, k ∈ ks → ∃ e, cm2.core_map.get? k = some e ∧ e.page_allocated = PAGE_FREE)
        ∧ (∀ j, j ∉ ks → cm2.core_map.get? j = cm.core_map.get? j) := by
  induction pt using List.reverseRecOn with
  | nil =>
    intro ks cm _ hmap _
    have hks : ks = [] := by
      cases ks with
      | nil => rfl
      | cons k ks => simp at hmap
    subst hks
    exact ⟨cm, rfl, rfl, rfl, by intro k hk; simp at hk, fun _ _ => rfl⟩
  | append_singleton pt p ih =>
    intro ks cm hs hmap hlen
    rcases List.eq_nil_or_concat ks with hks | ⟨ks1, k, hks⟩
    · subst hks
      simp at hmap
    · rw [List.concat_eq_append] at hks
      subst hks
      simp only [List.map_append, List.map_cons, List.map_nil] at hmap
      obtain ⟨hmap1, hp⟩ := List.append_inj' hmap rfl
      simp only [List.cons.injEq, and_true] at hp
      have hklen : k < cm.core_map.length := hlen k (by simp)
      obtain ⟨e, he⟩ : ∃ e, cm.core_map.get? k = some e :=
        ⟨cm.core_map.get ⟨k, hklen⟩, List.get?_eq_get hklen⟩
      have hs1 : core_map_ok
          { cm with core_map := cm.core_map.set k { e with page_allocated := PAGE_FREE } } := by
        obtain ⟨h0, h1, h2⟩ := hs
        refine ⟨h0, h1, ?_⟩
        simpa using h2
      obtain ⟨cm2, hrun, hps, hcl, hfree, hother⟩ :=
        ih ks1 { cm with core_map := cm.core_map.set k { e with page_allocated := PAGE_FREE } }
          hs1 hmap1 (fun k1 hk1 => by
            simpa using hlen k1 (List.mem_append_left _ hk1))
      refine ⟨cm2, ?_, hps, ?_, ?_, ?_⟩
      · rw [List.length_append, List.length_singleton, as_destroy_ptes_append, hp,
          free_page_frame cm hs k e he]
        exact hrun
      · rw [hcl]; simp
      · intro k1 hk1
        by_cases hmem : k1 ∈ ks1
        · exact hfree k1 hmem
        · have hk1k : k1 = k := by
            rcases List.mem_append.mp hk1 with h1 | h1
            · exact absurd h1 hmem
            · simpa using h1
          subst hk1k
          rw [hother k1 hmem]
          exact ⟨{ e with page_allocated := PAGE_FREE },
            by simp [List.getElem?_set_self hklen], rfl⟩
      · intro j hj
        have hj1 : j ∉ ks1 := fun h => hj (List.mem_append_left _ h)
        have hj2 : k ≠ j := fun h => hj (by simp [h])
        rw [hother j hj1]
        simp [List.getElem?_set_ne hj2]

/-- The segment loop of `as_destroy` empties the segment array. -/
theorem as_destroy_segments_all (segs : List segment) :
    as_destroy_segments segs.length segs = some [] := by
  induction segs using List.reverseRecOn with
  | nil => rfl
  | append_singleton segs c ih =>
    have h1 : (segs ++ [c]).get? segs.length = some c := by simp
    have h2 : (segs ++ [c]).eraseIdx segs.length = segs := by
      rw [List.eraseIdx_append_of_length_le (le_refl _)]
      simp
    rw [List.length_append, List.length_singleton, as_destroy_segments, h1]
    dsimp only
    rw [h2, ih]

/-- C22. Let the core map be initialised and let `as_copy` of the address space `old`
return 0 and the copy `new`. Then `as_destroy` of the copy runs through; afterwards
every frame that the copy mapped is free, the allocation flags of all frames are what
they were before `as_copy`, and, when the entries of `old` mapped allocated frames
before, they still do. (The page table of `old` is an argument that neither function
writes.) -/
theorem as_copy_then_as_destroy (old new : addrspace) (cm cm1 : core_map_state)
    (heap : Nat) (hs : core_map_ok cm)
    (h : as_copy old cm heap = some (0, some new, cm1)) :
    ∃ cm2, as_destroy new cm1 = some cm2
      ∧ (∀ p, p ∈ new.as_pt_array →
          ∃ k e, cm2.core_map.get? k = some e ∧ e.page_allocated = PAGE_FREE
            ∧ p.physical_page_number = frame_paddr cm2 k)
      ∧ allocation cm2 = allocation cm
      ∧ (frames_allocated cm old.as_pt_array → frames_allocated cm2 old.as_pt_array) := by
  obtain ⟨_, ks, hlen, _, hpt, hfree, hps, hcl, _, hother, _⟩ :=
    as_copy_frames old new cm cm1 heap (fun _ => 0) hs h
  have hs1 : core_map_ok cm1 := by
    obtain ⟨h0, h1, h2⟩ := hs
    exact ⟨by rw [hps]; exact h0, by rw [hps]; exact h1, by rw [hps, hcl]; exact h2⟩
  have hfp : ∀ j, frame_paddr cm1 j = frame_paddr cm j := by
    intro j
    unfold frame_paddr
    rw [hps]
  have hppn : new.as_pt_array.map page_table_.physical_page_number
      = ks.map (frame_paddr cm1) := by
    rw [hpt, zipWith_frame_paddr cm _ ks hlen]
    exact List.map_congr_left (fun k _ => (hfp k).symm)
  have hklen : ∀ k, k ∈ ks → k < cm1.core_map.length := by
    intro k hk
    obtain ⟨e, he, _⟩ := hfree k hk
    rw [List.get?_eq_some] at he
    rw [hcl]
    exact he.1
  obtain ⟨cm2, hrun, hps2, hcl2, hfree2, hother2⟩ :=
    as_destroy_ptes_frames new.as_pt_array ks cm1 hs1 hppn hklen
  have hfp2 : ∀ j, frame_paddr cm2 j = frame_paddr cm j := by
    intro j
    unfold frame_paddr
    rw [hps2, hps]
  have hget : ∀ j, (cm2.core_map.get? j).map core_map_entry.page_allocated
      = (cm.core_map.get? j).map core_map_entry.page_allocated := by
    intro j
    by_cases hj : j ∈ ks
    · obtain ⟨e2, he2, hf2⟩ := hfree2 j hj
      obtain ⟨e, he, hf⟩ := hfree j hj
      rw [he2, he, Option.map_some', Option.map_some', hf2, hf]
    · rw [hother2 j hj, hother j hj]
  refine ⟨cm2, ?_, ?_, ?_, ?_⟩
  · unfold as_destroy
    rw [hrun]
    simp only [List.length_nil, ne_eq, not_true_eq_false, if_false,
      as_destroy_segments_all]
  · intro p hp
    have h1 : p.physical_page_number ∈ ks.map (frame_paddr cm1) := by
      rw [← hppn]
      exact List.mem_map_of_mem _ hp
    obtain ⟨k, hk, hk1⟩ := List.mem_map.mp h1
    obtain ⟨e2, he2, hf2⟩ := hfree2 k hk
    exact ⟨k, e2, he2, hf2, by rw [← hk1, hfp, hfp2]⟩
  · unfold allocation
    apply List.ext_get?
    intro j
    simp only [List.get?_eq_getElem?, List.getElem?_map]
    simpa only [List.get?_eq_getElem?] using hget j
  · intro hfa q hq
    obtain ⟨j, e, hj, ha, hq1⟩ := hfa q hq
    have h2 := hget j
    rw [hj, Option.map_some', ha] at h2
    cases he2 : cm2.core_map.get? j with
    | none => rw [he2] at h2; simp at h2
    | some e2 =>
      rw [he2] at h2
      simp only [Option.map_some', Option.some.injEq] at h2
      exact ⟨j, e2, he2, h2, by rw [hq1, hfp2]⟩

/-- C22 at a concrete input: the source maps two pages to the frames 0 and 2 of the core
map `A F A F`; the copy takes the frames 1 and 3; after `as_destroy` of the copy the
core map reads `A F A F` again. -/
theorem as_copy_then_as_destroy_witness :
    core_map_ok ⟨[⟨true, 1⟩, ⟨false, 0⟩, ⟨true, 1⟩, ⟨false, 0⟩], 0x2000⟩
    ∧ as_copy
        ⟨[⟨0x600000, 0x602000, 4, 2, 0, 0⟩, ⟨0x400000, 0x401000, 4, 0, 1, 0⟩],
          [⟨0x400000, 0x2000⟩, ⟨0x500000, 0x4000⟩], 0x80000000, 0x7ffff000⟩
        ⟨[⟨true, 1⟩, ⟨false, 0⟩, ⟨true, 1⟩, ⟨false, 0⟩], 0x2000⟩ 5
      = some (0,
          some ⟨[⟨0x600000, 0x602000, 4, 2, 0, 0⟩, ⟨0x400000, 0x401000, 4, 0, 1, 0⟩],
            [⟨0x400000, 0x3000⟩, ⟨0x500000, 0x5000⟩], 0x80000000, 0x7ffff000⟩,
          ⟨[⟨true, 1⟩, ⟨true, 1⟩, ⟨true, 1⟩, ⟨true, 1⟩], 0x2000⟩)
    ∧ ∃ cm2, as_destroy
          ⟨[⟨0x600000, 0x602000, 4, 2, 0, 0⟩, ⟨0x400000, 0x401000, 4, 0, 1, 0⟩],
            [⟨0x400000, 0x3000⟩, ⟨0x500000, 0x5000⟩], 0x80000000, 0x7ffff000⟩
          ⟨[⟨true, 1⟩, ⟨true, 1⟩, ⟨true, 1⟩, ⟨true, 1⟩], 0x2000⟩ = some cm2
        ∧ allocation cm2 = [true, false, true, false] :=
  have hs : core_map_ok ⟨[⟨true, 1⟩, ⟨false, 0⟩, ⟨true, 1⟩, ⟨false, 0⟩], 0x2000⟩ :=
    ⟨by decide, by decide, by decide⟩
  have hrun : as_copy
        ⟨[⟨0x600000, 0x602000, 4, 2, 0, 0⟩, ⟨0x400000, 0x401000, 4, 0, 1, 0⟩],
          [⟨0x400000, 0x2000⟩, ⟨0x500000, 0x4000⟩], 0x80000000, 0x7ffff000⟩
        ⟨[⟨true, 1⟩, ⟨false, 0⟩, ⟨true, 1⟩, ⟨false, 0⟩], 0x2000⟩ 5
      = some (0,
          some ⟨[⟨0x600000, 0x602000, 4, 2, 0, 0⟩, ⟨0x400000, 0x401000, 4, 0, 1, 0⟩],
            [⟨0x400000, 0x3000⟩, ⟨0x500000, 0x5000⟩], 0x80000000, 0x7ffff000⟩,
          ⟨[⟨true, 1⟩, ⟨true, 1⟩, ⟨true, 1⟩, ⟨true, 1⟩], 0x2000⟩) := by decide
  have h := as_copy_then_as_destroy _ _ _ _ _ hs hrun
  ⟨hs, hrun, (by
    obtain ⟨cm2, h1, _, h3, _⟩ := h
    exact ⟨cm2, h1, h3⟩)⟩

/-! ## `sys_lseek`: SEEK_SET, then SEEK_CUR -/

/-- The two words that `sys_lseek` hands back for an offset in `[0, 2 ^ 63)` recombine to
that offset. -/
theorem offset_of_words_int32_of (p : Int) (h0 : 0 ≤ p) (h1 : p < 2 ^ 63) :
    offset_of_words (int32_of (p / 2 ^ 32)) (int32_of (p % 2 ^ 32)) = p := by
  have hu0 : 0 ≤ p / 2 ^ 32 := Int.ediv_nonneg h0 (by norm_num)
  have hu1 : p / 2 ^ 32 < 2 ^ 31 := by omega
  have hl0 : 0 ≤ p % 2 ^ 32 := Int.emod_nonneg _ (by norm_num)
  have hl1 : p % 2 ^ 32 < 2 ^ 32 := Int.emod_lt_of_pos _ (by norm_num)
  have hu : int32_of (p / 2 ^ 32) = p / 2 ^ 32 := by
    unfold int32_of to_int32
    have h2 : (p / 2 ^ 32) % 2 ^ 32 = p / 2 ^ 32 := Int.emod_eq_of_lt hu0 (by omega)
    rw [h2]
    have h3 : ((p / 2 ^ 32).toNat : Int) = p / 2 ^ 32 := Int.toNat_of_nonneg hu0
    split <;> omega
  have hl : int32_of (p % 2 ^ 32) % 2 ^ 32 = p % 2 ^ 32 := by
    unfold int32_of
    have h2 : (p % 2 ^ 32) % 2 ^ 32 = p % 2 ^ 32 := Int.emod_emod_of_dvd _ (dvd_refl _)
    rw [h2]
    have h3 : ((p % 2 ^ 32).toNat : Int) = p % 2 ^ 32 := Int.toNat_of_nonneg hl0
    rw [to_int32_emod _ (by omega), h3]
  unfold offset_of_words
  rw [hu, hl]
  omega

/-- The function `sys_lseek` with SEEK_SET on an open descriptor of a seekable vnode and
an offset that is not negative. -/
theorem sys_lseek_set (fs : vfs) (t : fd_table) (h : kheap) (n : Int) (g : Nat) (obj : fd)
    (p : Int) (hfd0 : 0 ≤ n) (hfd1 : n < OPEN_MAX t)
    (hslot : t.all_fds.get? n.toNat = some (some g)) (hobj : fd_deref h g = some obj)
    (hopen : h.vn_refcount obj.fd_vnode ≠ 0) (hseek : fs.isseekable obj.fd_vnode = true)
    (hp : 0 ≤ p) :
    sys_lseek fs n p SEEK_SET t h = sys_lseek_ret g obj p h := by
  have hr : ¬ (n < 0 ∨ n ≥ OPEN_MAX t) := by omega
  have hp1 : ¬ p < 0 := by omega
  simp only [sys_lseek, hr, if_false, hslot, hobj, if_true, hp1, hopen, hseek]

/-- The function `sys_lseek` with SEEK_CUR and `pos = 0` on an open descriptor of a
seekable vnode whose seek position lies in `[0, 2 ^ 63)`. -/
theorem sys_lseek_cur_zero (fs : vfs) (t : fd_table) (h : kheap) (n : Int) (g : Nat)
    (obj : fd) (hfd0 : 0 ≤ n) (hfd1 : n < OPEN_MAX t)
    (hslot : t.all_fds.get? n.toNat = some (some g)) (hobj : fd_deref h g = some obj)
    (hopen : h.vn_refcount obj.fd_vnode ≠ 0) (hseek : fs.isseekable obj.fd_vnode = true)
    (hp0 : 0 ≤ obj.fd_seek_pos) (hp1 : obj.fd_seek_pos < 2 ^ 63) :
    sys_lseek fs n 0 SEEK_CUR t h = sys_lseek_ret g obj obj.fd_seek_pos h := by
  have hr : ¬ (n < 0 ∨ n ≥ OPEN_MAX t) := by omega
  have hne : ¬ (SEEK_CUR = SEEK_SET) := by decide
  have hadd : off_t_add obj.fd_seek_pos 0 = some obj.fd_seek_pos := by
    unfold off_t_add
    rw [add_zero, if_neg (by omega)]
  have hp2 : ¬ obj.fd_seek_pos < 0 := by omega
  simp only [sys_lseek, hr, if_false, hslot, hobj, hne, if_true, hadd, hp2, hopen, hseek]

/-- The descriptor that `sys_lseek_ret` leaves behind the pointer `g`. -/
theorem fd_deref_set (h : kheap) (g : Nat) (obj obj1 : fd) (hobj : fd_deref h g = some obj) :
    fd_deref { h with fds := h.fds.set g (some obj1) } g = some obj1 := by
  have hlen : g < h.fds.length := by
    unfold fd_deref at hobj
    cases hg : h.fds.get? g with
    | none => rw [hg] at hobj; simp at hobj
    | some x =>
      rw [List.get?_eq_some] at hg
      exact hg.1
  simp [fd_deref, List.getElem?_set_self hlen]

/-- A seek with SEEK_SET through one slot, then a read of the position with SEEK_CUR
through a slot that points to the same descriptor. -/
theorem sys_lseek_set_then_cur (fs : vfs) (t : fd_table) (h : kheap) (a b : Int) (g : Nat)
    (obj : fd) (p : Int) (ha0 : 0 ≤ a) (ha1 : a < OPEN_MAX t) (hb0 : 0 ≤ b)
    (hb1 : b < OPEN_MAX t) (hsa : t.all_fds.get? a.toNat = some (some g))
    (hsb : t.all_fds.get? b.toNat = some (some g)) (hobj : fd_deref h g = some obj)
    (hopen : h.vn_refcount obj.fd_vnode ≠ 0) (hseek : fs.isseekable obj.fd_vnode = true)
    (hp0 : 0 ≤ p) (hp1 : p < 2 ^ 63) :
    ∃ u1 l1 h1, sys_lseek fs a p SEEK_SET t h = some (0, some (u1, l1), h1)
      ∧ offset_of_words u1 l1 = p
      ∧ ∃ u2 l2 h2, sys_lseek fs b 0 SEEK_CUR t h1 = some (0, some (u2, l2), h2)
          ∧ offset_of_words u2 l2 = p := by
  have h1 := sys_lseek_set fs t h a g obj p ha0 ha1 hsa hobj hopen hseek hp0
  have h2 := sys_lseek_cur_zero fs t
    { h with fds := h.fds.set g (some { obj with fd_seek_pos := p }) } b g
    { obj with fd_seek_pos := p } hb0 hb1 hsb (fd_deref_set h g obj _ hobj) hopen hseek
    hp0 hp1
  exact ⟨int32_of (p / 2 ^ 32), int32_of (p % 2 ^ 32),
    { h with fds := h.fds.set g (some { obj with fd_seek_pos := p }) }, h1,
    offset_of_words_int32_of p hp0 hp1, int32_of (p / 2 ^ 32), int32_of (p % 2 ^ 32), _, h2,
    offset_of_words_int32_of p hp0 hp1⟩

/-- What `VOP_INCREF` leaves when it has a result: the descriptors are as before and the
vnode has one more reference. -/
theorem VOP_INCREF_some (h h3 : kheap) (vn : Nat) (hrun : VOP_INCREF h vn = some h3) :
    h.vn_refcount vn ≠ 0 ∧ h3 = h.set_refcount vn (h.vn_refcount vn + 1) := by
  unfold VOP_INCREF at hrun
  split at hrun
  · simp at hrun
  · rename_i hne
    exact ⟨hne, (Option.some.inj hrun).symm⟩

/-- The reference count of a vnode right after it was set. -/
theorem set_refcount_same (h : kheap) (vn n : Nat) :
    (h.set_refcount vn n).vn_refcount vn = n := by
  simp [kheap.set_refcount]

/-- A change of a reference count leaves the descriptors. -/
theorem fd_deref_set_refcount (h : kheap) (vn n g : Nat) :
    fd_deref (h.set_refcount vn n) g = fd_deref h g := rfl

/-- The function `fd_destroy` on an occupied slot, when it has a result, leaves the
table with that slot emptied. -/
theorem fd_destroy_table (i : Nat) (t t1 : fd_table) (h h1 : kheap) (x : Nat)
    (hslot : t.all_fds.get? i = some (some x)) (hrun : fd_destroy i t h = some (t1, h1)) :
    t1 = fd_table_remove_fd i t := by
  unfold fd_destroy at hrun
  rw [hslot] at hrun
  dsimp only at hrun
  split at hrun
  · simp at hrun
  · split at hrun
    · simp at hrun
    · split at hrun
      · split at hrun
        · simp at hrun
        · simp only [Option.some.injEq, Prod.mk.injEq] at hrun
          exact hrun.1.symm
      · split at hrun
        · simp at hrun
        · simp only [Option.some.injEq, Prod.mk.injEq] at hrun
          exact hrun.1.symm

/-- The two table reads of `sys_dup2` for descriptor numbers inside `[0, OPEN_MAX)`. -/
theorem sys_dup2_slots (t : fd_table) (b : Int) (hb0 : 0 ≤ b) (hb1 : b < OPEN_MAX t) :
    ∃ x, t.all_fds.get? b.toNat = some x := by
  have hlen : b.toNat < t.all_fds.length := by
    unfold OPEN_MAX at hb1
    omega
  exact ⟨_, List.get?_eq_get hlen⟩

/-- The function `sys_dup2` with `oldfd != newfd`, the slot `oldfd` open on a descriptor
whose vnode is open, and the slot `newfd` empty. -/
theorem sys_dup2_new_empty (t : fd_table) (h : kheap) (a b : Int) (g : Nat) (obj : fd)
    (ha0 : 0 ≤ a) (ha1 : a < OPEN_MAX t) (hb0 : 0 ≤ b) (hb1 : b < OPEN_MAX t) (hab : a ≠ b)
    (hslot : t.all_fds.get? a.toNat = some (some g))
    (hnew : t.all_fds.get? b.toNat = some none) (hobj : fd_deref h g = some obj)
    (hopen : h.vn_refcount obj.fd_vnode ≠ 0) :
    sys_dup2 a b t h
      = some (0, some b, { all_fds := t.all_fds.set b.toNat (some g) },
          h.set_refcount obj.fd_vnode (h.vn_refcount obj.fd_vnode + 1)) := by
  have hr : ¬ (a < 0 ∨ a ≥ OPEN_MAX t ∨ b < 0 ∨ b ≥ OPEN_MAX t) := by omega
  have hne : ¬ (fd_deref h g = none) := by rw [hobj]; simp
  simp only [sys_dup2, hr, if_false, hab, hslot, hnew, hobj, VOP_INCREF, hopen,
    Option.map_some', reduceCtorEq]

/-- Every result of `sys_dup2` with `oldfd != newfd` inside `[0, OPEN_MAX)` and the slot
`oldfd` open: it returns 0, stores `newfd`, leaves the table with the slot `newfd`
pointing to the descriptor of the slot `oldfd`, and that descriptor exists on an open
vnode. -/
theorem sys_dup2_defined (t t1 : fd_table) (h h1 : kheap) (a b : Int) (g err : Nat)
    (ret : Option Int) (ha0 : 0 ≤ a) (ha1 : a < OPEN_MAX t) (hb0 : 0 ≤ b)
    (hb1 : b < OPEN_MAX t) (hab : a ≠ b) (hslot : t.all_fds.get? a.toNat = some (some g))
    (hrun : sys_dup2 a b t h = some (err, ret, t1, h1)) :
    err = 0 ∧ ret = some b ∧ t1 = { all_fds := t.all_fds.set b.toNat (some g) }
      ∧ ∃ obj, fd_deref h1 g = some obj ∧ h1.vn_refcount obj.fd_vnode ≠ 0 := by
  have hr : ¬ (a < 0 ∨ a ≥ OPEN_MAX t ∨ b < 0 ∨ b ≥ OPEN_MAX t) := by omega
  obtain ⟨x, hx⟩ := sys_dup2_slots t b hb0 hb1
  simp only [sys_dup2, hr, if_false, hab, hslot, hx] at hrun
  split at hrun
  · simp at hrun
  · cases x with
    | none =>
      dsimp only at hrun
      split at hrun
      · simp at hrun
      · rename_i old_obj hold
        cases hinc : VOP_INCREF h old_obj.fd_vnode with
        | none => rw [hinc] at hrun; simp at hrun
        | some h3 =>
          rw [hinc] at hrun
          simp only [Option.map_some', Option.some.injEq, Prod.mk.injEq] at hrun
          obtain ⟨hne, h3eq⟩ := VOP_INCREF_some _ _ _ hinc
          refine ⟨hrun.1.symm, hrun.2.1.symm, hrun.2.2.1.symm, old_obj, ?_, ?_⟩
          · rw [← hrun.2.2.2, h3eq, fd_deref_set_refcount, hold]
          · rw [← hrun.2.2.2, h3eq, set_refcount_same]
            omega
    | some ng =>
      dsimp only at hrun
      split at hrun
      · simp at hrun
      · split at hrun
        · simp at hrun
        · split at hrun
          · simp at hrun
          · rename_i h1a _
            split at hrun
            · simp at hrun
            · rename_i table1 h2 hdes
              have htab := fd_destroy_table _ _ _ _ _ ng hx hdes
              split at hrun
              · simp at hrun
              · rename_i old_obj hold
                cases hinc : VOP_INCREF h2 old_obj.fd_vnode with
                | none => rw [hinc] at hrun; simp at hrun
                | some h3 =>
                  rw [hinc] at hrun
                  simp only [Option.map_some', Option.some.injEq, Prod.mk.injEq] at hrun
                  obtain ⟨hne, h3eq⟩ := VOP_INCREF_some _ _ _ hinc
                  refine ⟨hrun.1.symm, hrun.2.1.symm, ?_, old_obj, ?_, ?_⟩
                  · rw [← hrun.2.2.1, htab]
                    simp [fd_table_remove_fd]
                  · rw [← hrun.2.2.2, h3eq, fd_deref_set_refcount, hold]
                  · rw [← hrun.2.2.2, h3eq, set_refcount_same]
                    omega

/-- C24. Let `a != b` lie in `[0, OPEN_MAX)`, let the slot `a` point to the descriptor
`g`, and let `sys_dup2(a, b)` return 0. Then it stores `b`, and afterwards the slots `a`
and `b` both point to `g`, which exists; and when the vnode of `g` is seekable, for
every offset `p` with `0 <= p < 2 ^ 63`, `sys_lseek(a, p, SEEK_SET)` returns 0 with the
offset `p`, and `sys_lseek(b, 0, SEEK_CUR)` right after it returns 0 with the offset
`p`. -/
theorem dup2_shares_seek (fs : vfs) (t t1 : fd_table) (h h1 : kheap) (a b : Int) (g : Nat)
    (ret : Option Int) (ha0 : 0 ≤ a) (ha1 : a < OPEN_MAX t) (hb0 : 0 ≤ b)
    (hb1 : b < OPEN_MAX t) (hab : a ≠ b) (hslot : t.all_fds.get? a.toNat = some (some g))
    (hrun : sys_dup2 a b t h = some (0, ret, t1, h1)) :
    ret = some b
    ∧ t1.all_fds.get? a.toNat = some (some g)
    ∧ t1.all_fds.get? b.toNat = some (some g)
    ∧ ∃ obj, fd_deref h1 g = some obj
        ∧ (fs.isseekable obj.fd_vnode = true → ∀ p : Int, 0 ≤ p → p < 2 ^ 63 →
            ∃ u1 l1 h2, sys_lseek fs a p SEEK_SET t1 h1 = some (0, some (u1, l1), h2)
              ∧ offset_of_words u1 l1 = p
              ∧ ∃ u2 l2 h3, sys_lseek fs b 0 SEEK_CUR t1 h2 = some (0, some (u2, l2), h3)
                  ∧ offset_of_words u2 l2 = p) := by
  obtain ⟨_, hret, ht1, obj, hobj, hopen⟩ :=
    sys_dup2_defined t t1 h h1 a b g 0 ret ha0 ha1 hb0 hb1 hab hslot hrun
  have hblen : b.toNat < t.all_fds.length := by
    unfold OPEN_MAX at hb1
    omega
  have hne : b.toNat ≠ a.toNat := by omega
  have hsa : t1.all_fds.get? a.toNat = some (some g) := by
    rw [ht1]
    simp only [List.get?_eq_getElem?, List.getElem?_set_ne hne]
    simpa using hslot
  have hsb : t1.all_fds.get? b.toNat = some (some g) := by
    rw [ht1]
    simp [List.getElem?_set_self hblen]
  have hmax : OPEN_MAX t1 = OPEN_MAX t := by
    rw [ht1]
    simp [OPEN_MAX]
  refine ⟨hret, hsa, hsb, obj, hobj, ?_⟩
  intro hseek p hp0 hp1
  exact sys_lseek_set_then_cur fs t1 h1 a b g obj p ha0 (by rw [hmax]; exact ha1) hb0
    (by rw [hmax]; exact hb1) hsa hsb hobj hopen hseek hp0 hp1

/-- C24 at the scenario of the spec: slot 3 is open on the file vnode 1 (after the three
console descriptors), `dup2(3, 4)`, `lseek(3, 10, SEEK_SET)`, then
`lseek(4, 0, SEEK_CUR)` gives 10. -/
theorem dup2_shares_seek_witness :
    (3 : Int) ≠ 4
    ∧ (⟨[some 0, some 1, some 2, some 3, none, none]⟩ : fd_table).all_fds.get? (3 : Int).toNat
        = some (some 3)
    ∧ sys_dup2 3 4 ⟨[some 0, some 1, some 2, some 3, none, none]⟩
        ⟨14, [some ⟨0, 0, 0, 0⟩, some ⟨0, 0, 0, 1⟩, some ⟨0, 0, 0, 1⟩, some ⟨1, 1, 0, 0⟩],
          [none, none], fun vn => if vn = 0 then 4 else if vn = 1 then 1 else 0⟩
      = some (0, some 4, ⟨[some 0, some 1, some 2, some 3, some 3, none]⟩,
          kheap.set_refcount
            ⟨14, [some ⟨0, 0, 0, 0⟩, some ⟨0, 0, 0, 1⟩, some ⟨0, 0, 0, 1⟩, some ⟨1, 1, 0, 0⟩],
              [none, none], fun vn => if vn = 0 then 4 else if vn = 1 then 1 else 0⟩ 1 2)
    ∧ ∃ u1 l1 h2, sys_lseek ⟨fun _ _ => (0, 1), fun vn => vn != 0, fun _ => 0⟩ 3 10 SEEK_SET
          ⟨[some 0, some 1, some 2, some 3, some 3, none]⟩
          (kheap.set_refcount
            ⟨14, [some ⟨0, 0, 0, 0⟩, some ⟨0, 0, 0, 1⟩, some ⟨0, 0, 0, 1⟩, some ⟨1, 1, 0, 0⟩],
              [none, none], fun vn => if vn = 0 then 4 else if vn = 1 then 1 else 0⟩ 1 2)
          = some (0, some (u1, l1), h2)
        ∧ offset_of_words u1 l1 = 10
        ∧ ∃ u2 l2 h3, sys_lseek ⟨fun _ _ => (0, 1), fun vn => vn != 0, fun _ => 0⟩ 4 0
              SEEK_CUR ⟨[some 0, some 1, some 2, some 3, some 3, none]⟩ h2
              = some (0, some (u2, l2), h3)
            ∧ offset_of_words u2 l2 = 10 :=
  have hrun : sys_dup2 3 4 ⟨[some 0, some 1, some 2, some 3, none, none]⟩
        ⟨14, [some ⟨0, 0, 0, 0⟩, some ⟨0, 0, 0, 1⟩, some ⟨0, 0, 0, 1⟩, some ⟨1, 1, 0, 0⟩],
          [none, none], fun vn => if vn = 0 then 4 else if vn = 1 then 1 else 0⟩
      = some (0, some 4, ⟨[some 0, some 1, some 2, some 3, some 3, none]⟩,
          kheap.set_refcount
            ⟨14, [some ⟨0, 0, 0, 0⟩, some ⟨0, 0, 0, 1⟩, some ⟨0, 0, 0, 1⟩, some ⟨1, 1, 0, 0⟩],
              [none, none], fun vn => if vn = 0 then 4 else if vn = 1 then 1 else 0⟩ 1 2) :=
    sys_dup2_new_empty ⟨[some 0, some 1, some 2, some 3, none, none]⟩
      ⟨14, [some ⟨0, 0, 0, 0⟩, some ⟨0, 0, 0, 1⟩, some ⟨0, 0, 0, 1⟩, some ⟨1, 1, 0, 0⟩],
        [none, none], fun vn => if vn = 0 then 4 else if vn = 1 then 1 else 0⟩
      3 4 3 ⟨1, 1, 0, 0⟩ (by decide) (by decide) (by decide)
      (by decide) (by decide) rfl rfl rfl (by decide)
  have h := dup2_shares_seek ⟨fun _ _ => (0, 1), fun vn => vn != 0, fun _ => 0⟩
    ⟨[some 0, some 1, some 2, some 3, none, none]⟩
    ⟨[some 0, some 1, some 2, some 3, some 3, none]⟩
    ⟨14, [some ⟨0, 0, 0, 0⟩, some ⟨0, 0, 0, 1⟩, some ⟨0, 0, 0, 1⟩, some ⟨1, 1, 0, 0⟩],
      [none, none], fun vn => if vn = 0 then 4 else if vn = 1 then 1 else 0⟩
    (kheap.set_refcount
      ⟨14, [some ⟨0, 0, 0, 0⟩, some ⟨0, 0, 0, 1⟩, some ⟨0, 0, 0, 1⟩, some ⟨1, 1, 0, 0⟩],
        [none, none], fun vn => if vn = 0 then 4 else if vn = 1 then 1 else 0⟩ 1 2)
    3 4 3 (some 4) (by decide) (by decide) (by decide) (by decide) (by decide) rfl hrun
  ⟨by decide, rfl, hrun, (by
    obtain ⟨_, _, _, obj, hobj, hseek⟩ := h
    have hobj1 : obj = ⟨1, 1, 0, 0⟩ := by
      have h2 : fd_deref (kheap.set_refcount
          ⟨14, [some ⟨0, 0, 0, 0⟩, some ⟨0, 0, 0, 1⟩, some ⟨0, 0, 0, 1⟩, some ⟨1, 1, 0, 0⟩],
            [none, none], fun vn => if vn = 0 then 4 else if vn = 1 then 1 else 0⟩ 1 2) 3
          = some ⟨1, 1, 0, 0⟩ := rfl
      rw [h2] at hobj
      exact (Option.some.inj hobj).symm
    subst hobj1
    exact hseek rfl 10 (by decide) (by decide))⟩

/-- C26 (the code at a failing input). A process has its three console descriptors on
the vnode 0, which has 4 references, and slot 3 open on the file vnode 1 with 1
reference. `sys_dup2(3, 1)` returns 0 and leaves the vnode 0 with 2 references and open:
`sys_dup2` drops one reference and `fd_destroy`, which it calls then, drops a second
one. The vnode 1 has gained one reference. In a second process the slots 3 and 4 are
open on two descriptors of the vnode 1 (2 references) and slot 5 on the vnode 2;
`sys_dup2(5, 4)` leaves the vnode 1 closed (0 references) although its count was 2, while
the descriptor of slot 3 still points to it. -/
theorem sys_dup2_drops_two_references :
    (∃ h1, sys_dup2 3 1 ⟨[some 0, some 1, some 2, some 3, none, none]⟩
        ⟨14, [some ⟨0, 0, 0, 0⟩, some ⟨0, 0, 0, 1⟩, some ⟨0, 0, 0, 1⟩, some ⟨1, 1, 0, 0⟩],
          [none, none], fun vn => if vn = 0 then 4 else if vn = 1 then 1 else 0⟩
      = some (0, some 1, ⟨[some 0, some 3, some 2, some 3, none, none]⟩, h1)
      ∧ h1.vn_refcount 0 = 2
      ∧ h1.vn_refcount 1 = 2)
    ∧ (∃ h1, sys_dup2 5 4 ⟨[some 0, some 1, some 2, some 3, some 4, some 5]⟩
        ⟨14, [some ⟨0, 0, 0, 0⟩, some ⟨0, 0, 0, 1⟩, some ⟨0, 0, 0, 1⟩, some ⟨1, 1, 0, 0⟩,
            some ⟨2, 1, 0, 0⟩, some ⟨3, 2, 0, 0⟩],
          [none, none, none, none],
          fun vn => if vn = 0 then 4 else if vn = 1 then 2 else if vn = 2 then 1 else 0⟩
      = some (0, some 4, ⟨[some 0, some 1, some 2, some 3, some 5, some 5]⟩, h1)
      ∧ h1.vn_refcount 1 = 0
      ∧ fd_deref h1 3 = some ⟨1, 1, 0, 0⟩
      ∧ h1.vn_refcount 2 = 2) :=
  ⟨⟨_, rfl, rfl, rfl⟩, ⟨_, rfl, rfl, rfl, rfl⟩⟩

/-! ## `fd_create` -/

/-- The loop of `fd_table_add_fd`, when it finds a slot: the slot `k` places after the
start is empty, the slots before it are not, and the descriptor is stored there. -/
theorem fd_table_add_fd_loop_some (p : Nat) (l : List (Option Nat)) :
    ∀ (i0 i : Nat) (l1 : List (Option Nat)), fd_table_add_fd_loop p l i0 = some (i, l1) →
      ∃ k, i = i0 + k ∧ l.get? k = some none ∧ (∀ j, j < k → l.get? j ≠ some none)
        ∧ l1 = l.set k (some p) := by
  induction l with
  | nil =>
    intro i0 i l1 h
    simp [fd_table_add_fd_loop] at h
  | cons slot rest ih =>
    intro i0 i l1 h
    unfold fd_table_add_fd_loop at h
    split at h
    · rename_i hs
      simp only [Option.some.injEq, Prod.mk.injEq] at h
      refine ⟨0, by omega, by simp [hs], fun j hj => absurd hj (Nat.not_lt_zero _), ?_⟩
      rw [← h.2]
      rfl
    · rename_i hs
      cases hr : fd_table_add_fd_loop p rest (i0 + 1) with
      | none => rw [hr] at h; simp at h
      | some r =>
        rw [hr] at h
        simp only [Option.map_some', Option.some.injEq, Prod.mk.injEq] at h
        obtain ⟨k, hk1, hk2, hk3, hk4⟩ := ih (i0 + 1) r.1 r.2 hr
        refine ⟨k + 1, by omega, by simpa using hk2, ?_, ?_⟩
        · intro j hj
          cases j with
          | zero => simpa using hs
          | succ j => simpa using hk3 j (by omega)
        · rw [← h.2, hk4]
          rfl

/-- The loop of `fd_table_add_fd` runs to its end exactly when no slot is empty. -/
theorem fd_table_add_fd_loop_none (p : Nat) (l : List (Option Nat)) :
    ∀ i0 : Nat, fd_table_add_fd_loop p l i0 = none ↔ ∀ j, l.get? j ≠ some none := by
  induction l with
  | nil =>
    intro i0
    simp [fd_table_add_fd_loop]
  | cons slot rest ih =>
    intro i0
    unfold fd_table_add_fd_loop
    constructor
    · intro h j
      split at h
      · simp at h
      · rename_i hs
        simp only [Option.map_eq_none'] at h
        cases j with
        | zero => simpa using hs
        | succ j => simpa using (ih (i0 + 1)).mp h j
    · intro h
      have hs : ¬ (slot = none) := by simpa using h 0
      rw [if_neg hs]
      simp only [Option.map_eq_none']
      exact (ih (i0 + 1)).mpr (fun j => by simpa using h (j + 1))

/-- The function `fd_table_add_fd` on a table without an empty slot. -/
theorem fd_table_add_fd_full (p : Nat) (t : fd_table) (hfull : table_full t) :
    fd_table_add_fd (some p) t = (-1, t) := by
  have h := (fd_table_add_fd_loop_none p t.all_fds 0).mpr hfull
  simp only [fd_table_add_fd, h]

/-- The function `fd_table_add_fd` on a table with an empty slot: the lowest empty slot
`i` is returned and filled. -/
theorem fd_table_add_fd_empty (p : Nat) (t : fd_table) (k : Nat) (hk : slot_empty t k) :
    ∃ i : Nat, fd_table_add_fd (some p) t = ((i : Int), { all_fds := t.all_fds.set i (some p) })
      ∧ slot_empty t i ∧ (∀ j, j < i → ¬ slot_empty t j) := by
  cases hr : fd_table_add_fd_loop p t.all_fds 0 with
  | none =>
    exact absurd hk ((fd_table_add_fd_loop_none p t.all_fds 0).mp hr k)
  | some r =>
    obtain ⟨i, hi1, hi2, hi3, hi4⟩ := fd_table_add_fd_loop_some p t.all_fds 0 r.1 r.2 hr
    refine ⟨i, ?_, hi2, hi3⟩
    simp only [fd_table_add_fd, hr]
    rw [hi4, hi1, Nat.zero_add]

/-- The reference count is not 0 right after `vfs_open` returned 0. -/
theorem vfs_open_refcount (fs : vfs) (h : kheap) (path : String) (flags : Int)
    (hok : (fs.lookup path flags).1 = 0) :
    vfs_open fs h path flags
      = (0, (fs.lookup path flags).2,
          h.set_refcount (fs.lookup path flags).2
            (h.vn_refcount (fs.lookup path flags).2 + 1)) := by
  simp only [vfs_open, hok, ne_eq, not_true_eq_false, if_false]

/-- The function `fd_create` when `kmalloc` fails. -/
theorem fd_create_enomem (fs : vfs) (fd_filename : Nat) (fd_flags : Int) (t : fd_table)
    (h : kheap) (hheap : h.heap = 0) :
    fd_create fs fd_filename fd_flags t h = some (ENOMEM, none, t, h) := by
  simp only [fd_create, kmalloc, hheap, if_true]

/-- The function `fd_create` when `vfs_open` fails: it returns the value of `vfs_open`
and leaves the table. -/
theorem fd_create_vfs_error (fs : vfs) (fd_filename : Nat) (fd_flags : Int) (t : fd_table)
    (h : kheap) (path : String) (hheap : h.heap ≠ 0)
    (hpath : buf_deref h fd_filename = some path)
    (hfail : (fs.lookup path fd_flags).1 ≠ 0) :
    ∃ h1, fd_create fs fd_filename fd_flags t h
      = some ((fs.lookup path fd_flags).1, none, t, h1) := by
  simp only [fd_create, kmalloc, hheap, if_false, hpath, vfs_open, hfail, ne_eq,
    not_false_eq_true, if_true]
  exact ⟨_, rfl⟩

/-- The function `fd_create` on a table without an empty slot, when `kmalloc` and
`vfs_open` succeed: it gives the vnode back, returns `EMFILE` and leaves the table. -/
theorem fd_create_emfile (fs : vfs) (fd_filename : Nat) (fd_flags : Int) (t : fd_table)
    (h : kheap) (path : String) (hheap : h.heap ≠ 0)
    (hpath : buf_deref h fd_filename = some path)
    (hok : (fs.lookup path fd_flags).1 = 0) (hfull : table_full t) :
    ∃ h1, fd_create fs fd_filename fd_flags t h = some (EMFILE, some (-1), t, h1) := by
  simp only [fd_create, kmalloc, hheap, if_false, hpath, vfs_open_refcount fs h path _ hok,
    ne_eq, not_true_eq_false, fd_table_add_fd_full _ t hfull, if_true, vfs_close,
    kheap.set_refcount, Function.update_same, Nat.add_one_ne_zero, Option.map_some']
  exact ⟨_, rfl⟩

/-- The function `fd_create` on a table with an empty slot, when `kmalloc` and `vfs_open`
succeed: the new descriptor goes to the lowest empty slot `i`. -/
theorem fd_create_ok (fs : vfs) (fd_filename : Nat) (fd_flags : Int) (t : fd_table)
    (h : kheap) (path : String) (k : Nat) (hheap : h.heap ≠ 0)
    (hpath : buf_deref h fd_filename = some path)
    (hok : (fs.lookup path fd_flags).1 = 0) (hk : slot_empty t k) :
    ∃ i : Nat, slot_empty t i ∧ (∀ j, j < i → ¬ slot_empty t j)
      ∧ fd_create fs fd_filename fd_flags t h
        = some (0, some (i : Int), { all_fds := t.all_fds.set i (some h.fds.length) },
            { heap := h.heap - 1,
              fds := h.fds ++ [some ⟨fd_filename, (fs.lookup path fd_flags).2, 0, fd_flags⟩],
              bufs := h.bufs,
              vn_refcount := Function.update h.vn_refcount (fs.lookup path fd_flags).2
                (h.vn_refcount (fs.lookup path fd_flags).2 + 1) }) := by
  obtain ⟨i, hadd, hi1, hi2⟩ := fd_table_add_fd_empty h.fds.length t k hk
  refine ⟨i, hi1, hi2, ?_⟩
  have hne : ¬ ((i : Int) = -1) := by omega
  simp only [fd_create, kmalloc, hheap, if_false, hpath, vfs_open_refcount fs h path _ hok,
    ne_eq, not_true_eq_false, hadd, hne, kheap.set_refcount]

/-- The function `fd_create` has no result when the buffer of the file name has been
freed and `kmalloc` succeeds. -/
theorem fd_create_freed_name (fs : vfs) (fd_filename : Nat) (fd_flags : Int) (t : fd_table)
    (h : kheap) (hheap : h.heap ≠ 0) (hpath : buf_deref h fd_filename = none) :
    fd_create fs fd_filename fd_flags t h = none := by
  simp only [fd_create, kmalloc, hheap, if_false, hpath]

/-- Every result 0 of `fd_create`: `kmalloc` and `vfs_open` succeeded and the new
descriptor, a new object of the heap, went to the lowest empty slot `i`, which is the
value stored in `*fd_num`; the heap has the new descriptor appended and one more
reference to its vnode. -/
theorem fd_create_success (fs : vfs) (fd_filename : Nat) (fd_flags : Int) (t t1 : fd_table)
    (h h1 : kheap) (fd_num : Option Int)
    (hrun : fd_create fs fd_filename fd_flags t h = some (0, fd_num, t1, h1)) :
    ∃ (i : Nat) (path : String), h.heap ≠ 0 ∧ buf_deref h fd_filename = some path
      ∧ (fs.lookup path fd_flags).1 = 0
      ∧ fd_num = some (i : Int) ∧ slot_empty t i ∧ (∀ j, j < i → ¬ slot_empty t j)
      ∧ t1 = { all_fds := t.all_fds.set i (some h.fds.length) }
      ∧ h1 = { heap := h.heap - 1,
               fds := h.fds ++ [some ⟨fd_filename, (fs.lookup path fd_flags).2, 0, fd_flags⟩],
               bufs := h.bufs,
               vn_refcount := Function.update h.vn_refcount (fs.lookup path fd_flags).2
                 (h.vn_refcount (fs.lookup path fd_flags).2 + 1) } := by
  by_cases hheap : h.heap = 0
  · rw [fd_create_enomem fs fd_filename fd_flags t h hheap] at hrun
    simp [ENOMEM] at hrun
  · cases hpath : buf_deref h fd_filename with
    | none =>
      rw [fd_create_freed_name fs fd_filename fd_flags t h hheap hpath] at hrun
      simp at hrun
    | some path =>
      by_cases hok : (fs.lookup path fd_flags).1 = 0
      · by_cases hex : ∃ k, slot_empty t k
        · obtain ⟨k, hk⟩ := hex
          obtain ⟨i, hi1, hi2, hi3⟩ :=
            fd_create_ok fs fd_filename fd_flags t h path k hheap hpath hok hk
          rw [hi3] at hrun
          simp only [Option.some.injEq, Prod.mk.injEq, true_and] at hrun
          exact ⟨i, path, hheap, rfl, hok, hrun.1.symm, hi1, hi2, hrun.2.1.symm,
            hrun.2.2.symm⟩
        · have hfull : table_full t := fun i hi => hex ⟨i, hi⟩
          obtain ⟨h2, hrun2⟩ :=
            fd_create_emfile fs fd_filename fd_flags t h path hheap hpath hok hfull
          rw [hrun2] at hrun
          simp [EMFILE] at hrun
      · obtain ⟨h2, hrun2⟩ :=
          fd_create_vfs_error fs fd_filename fd_flags t h path hheap hpath hok
        rw [hrun2] at hrun
        simp only [Option.some.injEq, Prod.mk.injEq] at hrun
        exact absurd hrun.1 hok

/-- The pointer that the next allocation of a descriptor returns points to nothing
yet. -/
theorem fd_deref_fresh (h : kheap) : fd_deref h h.fds.length = none := by
  simp [fd_deref]

/-- The descriptor at the end of the heap. -/
theorem fd_deref_append (l : List (Option fd)) (obj : fd) (n : Nat)
    (b : List (Option String)) (r : Nat → Nat) :
    fd_deref { heap := n, fds := l ++ [some obj], bufs := b, vn_refcount := r } l.length
      = some obj := by
  simp [fd_deref]

/-- C23 (the code at a counterexample). The table has no empty slot and `vfs_open` fails
with the error 19 for the path: `fd_create` returns 19, not `EMFILE`, because it opens
the vnode before it looks for a slot. -/
theorem fd_create_full_table_open_error :
    table_full ⟨[some 0]⟩
    ∧ (∃ h1, fd_create ⟨fun _ _ => (19, 0), fun _ => true, fun _ => 0⟩ 1 0 ⟨[some 0]⟩
        ⟨5, [some ⟨0, 0, 0, 0⟩], [none, some "nofile"], fun vn => if vn = 0 then 1 else 0⟩
        = some (19, none, ⟨[some 0]⟩, h1))
    ∧ 19 ≠ EMFILE := by
  refine ⟨?_, ⟨_, rfl⟩, by decide⟩
  intro i hi
  cases i with
  | zero => simp [slot_empty] at hi
  | succ i => simp [slot_empty] at hi

/-- C23. For every descriptor table and heap. Every call of `fd_create` that returns 0
has put the new descriptor, an object that did not exist before, into the lowest empty
slot `i`, has stored `i` in `*fd_num` and has left the other slots; the descriptor has
the file name, the flags, the seek position 0 and the vnode that `vfs_open` gave. The
call returns 0 when `kmalloc` and `vfs_open` succeed and a slot is empty. On a table
without an empty slot the call leaves the table and returns an error: `ENOMEM` when
`kmalloc` fails, the value of `vfs_open` when that is not 0, and `EMFILE` otherwise. -/
theorem fd_create_cases (fs : vfs) (fd_filename : Nat) (fd_flags : Int) (t : fd_table)
    (h : kheap) :
    (∀ fd_num t1 h1, fd_create fs fd_filename fd_flags t h = some (0, fd_num, t1, h1) →
      ∃ i : Nat, fd_num = some (i : Int) ∧ slot_empty t i ∧ (∀ j, j < i → ¬ slot_empty t j)
        ∧ t1.all_fds = t.all_fds.set i (some h.fds.length)
        ∧ fd_deref h h.fds.length = none
        ∧ ∃ path, buf_deref h fd_filename = some path
            ∧ fd_deref h1 h.fds.length
                = some ⟨fd_filename, (fs.lookup path fd_flags).2, 0, fd_flags⟩)
    ∧ (∀ path k, h.heap ≠ 0 → buf_deref h fd_filename = some path →
        (fs.lookup path fd_flags).1 = 0 → slot_empty t k →
        ∃ fd_num t1 h1, fd_create fs fd_filename fd_flags t h = some (0, fd_num, t1, h1))
    ∧ (table_full t → ∀ path, buf_deref h fd_filename = some path →
        ∃ err fd_num h1, fd_create fs fd_filename fd_flags t h = some (err, fd_num, t, h1)
          ∧ err ≠ 0
          ∧ (h.heap = 0 → err = ENOMEM)
          ∧ (h.heap ≠ 0 → (fs.lookup path fd_flags).1 ≠ 0 → err = (fs.lookup path fd_flags).1)
          ∧ (h.heap ≠ 0 → (fs.lookup path fd_flags).1 = 0 → err = EMFILE)) := by
  refine ⟨?_, ?_, ?_⟩
  · intro fd_num t1 h1 hrun
    obtain ⟨i, path, _, hpath, _, hnum, hi1, hi2, ht1, hh1⟩ :=
      fd_create_success fs fd_filename fd_flags t t1 h h1 fd_num hrun
    refine ⟨i, hnum, hi1, hi2, by rw [ht1], fd_deref_fresh h, path, hpath, ?_⟩
    rw [hh1]
    exact fd_deref_append _ _ _ _ _
  · intro path k hheap hpath hok hk
    obtain ⟨i, _, _, hi3⟩ := fd_create_ok fs fd_filename fd_flags t h path k hheap hpath hok hk
    exact ⟨_, _, _, hi3⟩
  · intro hfull path hpath
    by_cases hheap : h.heap = 0
    · exact ⟨ENOMEM, none, h, fd_create_enomem fs fd_filename fd_flags t h hheap,
        by decide, fun _ => rfl, fun hne => absurd hheap hne, fun hne => absurd hheap hne⟩
    · by_cases hok : (fs.lookup path fd_flags).1 = 0
      · obtain ⟨h1, hrun⟩ :=
          fd_create_emfile fs fd_filename fd_flags t h path hheap hpath hok hfull
        exact ⟨EMFILE, some (-1), h1, hrun, by decide, fun h0 => absurd h0 hheap,
          fun _ hne => absurd hok hne, fun _ _ => rfl⟩
      · obtain ⟨h1, hrun⟩ :=
          fd_create_vfs_error fs fd_filename fd_flags t h path hheap hpath hok
        exact ⟨_, none, h1, hrun, hok, fun h0 => absurd h0 hheap, fun _ _ => rfl,
          fun _ h0 => absurd h0 hok⟩

/-- C23 at concrete inputs: on the table `[D, empty, D, empty]` the new descriptor goes
to slot 1; on the table `[D, D]` the call returns `EMFILE` and leaves the table. -/
theorem fd_create_cases_witness :
    (∃ h1, fd_create ⟨fun _ _ => (0, 1), fun _ => true, fun _ => 0⟩ 1 0
        ⟨[some 0, none, some 1, none]⟩
        ⟨5, [some ⟨0, 0, 0, 0⟩, some ⟨0, 0, 0, 1⟩], [none, some "f"],
          fun vn => if vn = 0 then 2 else 0⟩
        = some (0, some 1, ⟨[some 0, some 2, some 1, none]⟩, h1)
      ∧ fd_deref h1 2 = some ⟨1, 1, 0, 0⟩)
    ∧ table_full ⟨[some 0, some 1]⟩
    ∧ (∃ err fd_num h1, fd_create ⟨fun _ _ => (0, 1), fun _ => true, fun _ => 0⟩ 1 0
        ⟨[some 0, some 1]⟩
        ⟨5, [some ⟨0, 0, 0, 0⟩, some ⟨0, 0, 0, 1⟩], [none, some "f"],
          fun vn => if vn = 0 then 2 else 0⟩
        = some (err, fd_num, ⟨[some 0, some 1]⟩, h1) ∧ err = EMFILE) :=
  have hfull : table_full ⟨[some 0, some 1]⟩ := by
    intro i hi
    match i, hi with
    | 0, hi => simp [slot_empty] at hi
    | 1, hi => simp [slot_empty] at hi
    | n + 2, hi => simp [slot_empty] at hi
  have hrun : fd_create ⟨fun _ _ => (0, 1), fun _ => true, fun _ => 0⟩ 1 0
        ⟨[some 0, none, some 1, none]⟩
        ⟨5, [some ⟨0, 0, 0, 0⟩, some ⟨0, 0, 0, 1⟩], [none, some "f"],
          fun vn => if vn = 0 then 2 else 0⟩
      = some (0, some 1, ⟨[some 0, some 2, some 1, none]⟩,
          ⟨4, [some ⟨0, 0, 0, 0⟩, some ⟨0, 0, 0, 1⟩, some ⟨1, 1, 0, 0⟩], [none, some "f"],
            Function.update (fun vn => if vn = 0 then 2 else 0) 1 1⟩) := rfl
  ⟨⟨_, hrun, (by
      obtain ⟨i, _, _, _, _, _, path, hpath, hobj⟩ :=
        (fd_create_cases ⟨fun _ _ => (0, 1), fun _ => true, fun _ => 0⟩ 1 0
          ⟨[some 0, none, some 1, none]⟩
          ⟨5, [some ⟨0, 0, 0, 0⟩, some ⟨0, 0, 0, 1⟩], [none, some "f"],
            fun vn => if vn = 0 then 2 else 0⟩).1 _ _ _ hrun
      exact hobj)⟩,
   hfull,
   (by
      obtain ⟨err, fd_num, h1, hr, _, _, _, he⟩ :=
        (fd_create_cases ⟨fun _ _ => (0, 1), fun _ => true, fun _ => 0⟩ 1 0
          ⟨[some 0, some 1]⟩
          ⟨5, [some ⟨0, 0, 0, 0⟩, some ⟨0, 0, 0, 1⟩], [none, some "f"],
            fun vn => if vn = 0 then 2 else 0⟩).2.2 hfull "f" rfl
      exact ⟨err, fd_num, h1, hr, he (by decide) rfl⟩)⟩

/-! ## The console descriptors of a new process -/

/-- One console block of `proc_create_runprogram` that has a result: `kmalloc` and
`vfs_open` of `"con:"` succeeded, and the new descriptor went to the lowest empty slot
`i`. -/
theorem proc_create_runprogram_console_some (fs : vfs) (filename : Nat) (flags : Int)
    (t t1 : fd_table) (h h1 : kheap) (hlen : filename < h.bufs.length)
    (hrun : proc_create_runprogram_console fs filename flags t h = some (t1, h1)) :
    ∃ i : Nat, h.heap ≠ 0 ∧ (fs.lookup "con:" flags).1 = 0
      ∧ slot_empty t i ∧ (∀ j, j < i → ¬ slot_empty t j)
      ∧ t1 = { all_fds := t.all_fds.set i (some h.fds.length) }
      ∧ h1 = { heap := h.heap - 1,
               fds := h.fds ++ [some ⟨filename, (fs.lookup "con:" flags).2, 0, flags⟩],
               bufs := h.bufs.set filename (some "con:"),
               vn_refcount := Function.update h.vn_refcount (fs.lookup "con:" flags).2
                 (h.vn_refcount (fs.lookup "con:" flags).2 + 1) } := by
  unfold proc_create_runprogram_console at hrun
  dsimp only at hrun
  split at hrun
  · simp at hrun
  · rename_i result fd_num t2 h2 hcreate
    split at hrun
    · simp at hrun
    · rename_i hres
      have hres0 : result = 0 := by
        by_contra hne
        exact hres hne
      subst hres0
      simp only [Option.some.injEq, Prod.mk.injEq] at hrun
      obtain ⟨i, path, hheap, hpath, hok, _, hi1, hi2, ht, hh⟩ :=
        fd_create_success _ _ _ _ _ _ _ _ hcreate
      have hp : path = "con:" := by
        simp only [buf_deref, List.get?_eq_getElem?, List.getElem?_set_self hlen,
          Option.join, Option.bind_eq_bind, Option.some_bind, id_eq,
          Option.some.injEq] at hpath
        exact hpath.symm
      subst hp
      exact ⟨i, hheap, hok, hi1, hi2, by rw [← hrun.1, ht], by rw [← hrun.2, hh]⟩

/-- The lowest empty slot of a table whose first `k` slots are occupied and whose other
slots are empty is the slot `k`. -/
theorem lowest_empty_slot (occ : List (Option Nat)) (m i : Nat)
    (hocc : ∀ x, x ∈ occ → x ≠ none)
    (hi : slot_empty ⟨occ ++ List.replicate m none⟩ i)
    (hlow : ∀ j, j < i → ¬ slot_empty ⟨occ ++ List.replicate m none⟩ j) :
    i = occ.length ∧ 0 < m := by
  unfold slot_empty at hi hlow
  have hge : occ.length ≤ i := by
    by_contra hlt
    have hlt1 : i < occ.length := by omega
    simp only [List.get?_eq_getElem?, List.getElem?_append_left hlt1] at hi
    have hmem : occ[i] ∈ occ := List.getElem_mem hlt1
    rw [List.getElem?_eq_getElem hlt1] at hi
    exact hocc _ hmem (Option.some.inj hi)
  have him : i - occ.length < m := by
    simp only [List.get?_eq_getElem?, List.getElem?_append_right hge] at hi
    by_contra hnot
    rw [List.getElem?_eq_none (by simpa using hnot)] at hi
    simp at hi
  refine ⟨?_, by omega⟩
  by_contra hne
  have hlt : occ.length < i := by omega
  apply hlow occ.length hlt
  simp only [List.get?_eq_getElem?, List.getElem?_append_right (le_refl _), Nat.sub_self]
  rw [List.getElem?_eq_getElem (by simpa using (by omega : 0 < m))]
  simp

/-- Filling the first empty slot of such a table. -/
theorem set_first_empty (occ : List (Option Nat)) (m : Nat) (x : Option Nat) :
    (occ ++ List.replicate (m + 1) none).set occ.length x
      = (occ ++ [x]) ++ List.replicate m none := by
  rw [List.set_append_right _ _ (le_refl _), Nat.sub_self, List.replicate_succ]
  simp

/-- The descriptor table and the descriptors that `proc_create_runprogram` leaves when
it gets past the three console blocks, started on the empty table of `open_max` slots:
`vfs_open` of `"con:"` succeeded with both sets of flags, the table has at least 3 slots,
and the slots 0, 1, 2 point to three new descriptors. -/
theorem proc_create_runprogram_fds_some (fs : vfs) (open_max : Nat) (h h1 : kheap)
    (t : fd_table)
    (hrun : proc_create_runprogram_fds fs ⟨List.replicate open_max none⟩ h = some (t, h1)) :
    (fs.lookup "con:" O_RDONLY).1 = 0 ∧ (fs.lookup "con:" O_WRONLY).1 = 0
    ∧ 3 ≤ open_max
    ∧ t.all_fds = [some h.fds.length, some (h.fds.length + 1), some (h.fds.length + 2)]
        ++ List.replicate (open_max - 3) none
    ∧ h1.fds = h.fds ++
        [some ⟨h.bufs.length, (fs.lookup "con:" O_RDONLY).2, 0, O_RDONLY⟩,
         some ⟨h.bufs.length, (fs.lookup "con:" O_WRONLY).2, 0, O_WRONLY⟩,
         some ⟨h.bufs.length, (fs.lookup "con:" O_WRONLY).2, 0, O_WRONLY⟩]
    ∧ h1.bufs = h.bufs ++ [none] := by
  unfold proc_create_runprogram_fds at hrun
  split at hrun
  · simp at hrun
  · rename_i heap1 _
    dsimp only at hrun
    split at hrun
    · simp at hrun
    · rename_i ta ha hstep1
      split at hrun
      · simp at hrun
      · rename_i tb hb hstep2
        split at hrun
        · simp at hrun
        · rename_i tc hc hstep3
          simp only [Option.some.injEq, Prod.mk.injEq] at hrun
          obtain ⟨i1, _, hok1, hi1, hl1, hta, hha⟩ :=
            proc_create_runprogram_console_some fs _ _ _ _ _ _ (by simp) hstep1
          obtain ⟨hi1eq, hm1⟩ := lowest_empty_slot [] open_max i1 (by simp)
            (by simpa using hi1) (by simpa using hl1)
          obtain ⟨m1, hm1eq⟩ : ∃ m1, open_max = m1 + 1 := ⟨open_max - 1, by omega⟩
          subst hm1eq
          simp only [List.length_nil] at hi1eq
          subst hi1eq
          have hta1 : ta = ⟨[some h.fds.length] ++ List.replicate m1 none⟩ := by
            rw [hta]
            simp [List.replicate_succ]
          subst hta1
          subst hha
          obtain ⟨i2, _, hok2, hi2, hl2, htb, hhb⟩ :=
            proc_create_runprogram_console_some fs _ _ _ _ _ _ (by simp) hstep2
          obtain ⟨hi2eq, hm2⟩ := lowest_empty_slot [some h.fds.length] m1 i2 (by simp) hi2 hl2
          obtain ⟨m2, hm2eq⟩ : ∃ m2, m1 = m2 + 1 := ⟨m1 - 1, by omega⟩
          subst hm2eq
          simp only [List.length_singleton] at hi2eq
          subst hi2eq
          have htb1 : tb = ⟨[some h.fds.length, some (h.fds.length + 1)]
              ++ List.replicate m2 none⟩ := by
            rw [htb]
            simp [List.replicate_succ]
          subst htb1
          subst hhb
          obtain ⟨i3, _, _, hi3, hl3, htc, hhc⟩ :=
            proc_create_runprogram_console_some fs _ _ _ _ _ _ (by simp) hstep3
          obtain ⟨hi3eq, hm3⟩ := lowest_empty_slot
            [some h.fds.length, some (h.fds.length + 1)] m2 i3 (by simp) hi3 hl3
          obtain ⟨m3, hm3eq⟩ : ∃ m3, m2 = m3 + 1 := ⟨m2 - 1, by omega⟩
          subst hm3eq
          simp only [List.length_cons, List.length_nil] at hi3eq
          subst hi3eq
          refine ⟨hok1, hok2, by omega, ?_, ?_, ?_⟩
          · rw [← hrun.1, htc]
            simp [List.replicate_succ]
          · rw [← hrun.2, hhc]
            simp [kheap.kfree_buf]
          · rw [← hrun.2, hhc]
            simp [kheap.kfree_buf]

/-- The descriptor `k` places after the end of the former heap. -/
theorem fd_deref_appended (h : kheap) (l ext : List (Option fd)) (k : Nat) (obj : fd)
    (hfds : h.fds = l ++ ext) (hk : ext.get? k = some (some obj)) :
    fd_deref h (l.length + k) = some obj := by
  unfold fd_deref
  rw [hfds, List.get?_eq_getElem?, List.getElem?_append_right (Nat.le_add_right _ _),
    Nat.add_sub_cancel_left, ← List.get?_eq_getElem?, hk]
  rfl

/-- C29. Let `proc_create_runprogram` get past the creation of the console descriptors,
started on the empty descriptor table of `open_max` slots that `proc_create` made (every
other path ends in `return NULL`). Then `vfs_open` of `"con:"` has returned 0; the slots
0, 1 and 2 of the table point to three descriptors whose vnode is the one `vfs_open`
gave for `"con:"`, with the flags `O_RDONLY` in slot 0 and `O_WRONLY` in the slots 1 and
2; and every slot from 3 on is empty. -/
theorem proc_create_runprogram_console_slots (fs : vfs) (open_max : Nat) (h h1 : kheap)
    (t : fd_table)
    (hrun : proc_create_runprogram_fds fs ⟨List.replicate open_max none⟩ h = some (t, h1)) :
    (fs.lookup "con:" O_RDONLY).1 = 0 ∧ (fs.lookup "con:" O_WRONLY).1 = 0
    ∧ OPEN_MAX t = open_max
    ∧ (∃ p obj, t.all_fds.get? 0 = some (some p) ∧ fd_deref h1 p = some obj
        ∧ obj.fd_vnode = (fs.lookup "con:" O_RDONLY).2 ∧ obj.fd_flags = O_RDONLY)
    ∧ (∃ p obj, t.all_fds.get? 1 = some (some p) ∧ fd_deref h1 p = some obj
        ∧ obj.fd_vnode = (fs.lookup "con:" O_WRONLY).2 ∧ obj.fd_flags = O_WRONLY)
    ∧ (∃ p obj, t.all_fds.get? 2 = some (some p) ∧ fd_deref h1 p = some obj
        ∧ obj.fd_vnode = (fs.lookup "con:" O_WRONLY).2 ∧ obj.fd_flags = O_WRONLY)
    ∧ (∀ i, 3 ≤ i → i < open_max → slot_empty t i) := by
  obtain ⟨hok1, hok2, hmax, ht, hfds, _⟩ :=
    proc_create_runprogram_fds_some fs open_max h h1 t hrun
  refine ⟨hok1, hok2, ?_, ?_, ?_, ?_, ?_⟩
  · unfold OPEN_MAX
    rw [ht]
    simp
    omega
  · refine ⟨h.fds.length, ⟨h.bufs.length, (fs.lookup "con:" O_RDONLY).2, 0, O_RDONLY⟩,
      by rw [ht]; rfl, fd_deref_appended h1 _ _ 0 _ hfds rfl, rfl, rfl⟩
  · refine ⟨h.fds.length + 1, ⟨h.bufs.length, (fs.lookup "con:" O_WRONLY).2, 0, O_WRONLY⟩,
      by rw [ht]; rfl, fd_deref_appended h1 _ _ 1 _ hfds rfl, rfl, rfl⟩
  · refine ⟨h.fds.length + 2, ⟨h.bufs.length, (fs.lookup "con:" O_WRONLY).2, 0, O_WRONLY⟩,
      by rw [ht]; rfl, fd_deref_appended h1 _ _ 2 _ hfds rfl, rfl, rfl⟩
  · intro i hi1 hi2
    unfold slot_empty
    rw [ht]
    obtain ⟨k, hk⟩ : ∃ k, i = k + 3 := ⟨i - 3, by omega⟩
    subst hk
    simp only [List.cons_append, List.nil_append, List.get?_cons_succ,
      List.get?_eq_getElem?]
    rw [List.getElem?_eq_getElem (by simp; omega)]
    simp

/-- C29 at a concrete input: a table of 5 slots, a heap without descriptors and the
console vnode 0. The new process has the descriptors 0, 1, 2 in the slots 0, 1, 2, on the
vnode 0 with the flags `O_RDONLY`, `O_WRONLY`, `O_WRONLY`, and the slots 3 and 4 are
empty. -/
theorem proc_create_runprogram_console_slots_witness :
    ∃ h1, proc_create_runprogram_fds
        ⟨fun p _ => if p = "con:" then (0, 0) else (19, 0), fun _ => false, fun _ => 0⟩
        ⟨List.replicate 5 none⟩ ⟨9, [], [], fun vn => if vn = 0 then 1 else 0⟩
      = some (⟨[some 0, some 1, some 2, none, none]⟩, h1)
      ∧ h1.fds = [some ⟨0, 0, 0, O_RDONLY⟩, some ⟨0, 0, 0, O_WRONLY⟩, some ⟨0, 0, 0, O_WRONLY⟩]
      ∧ (∀ i, 3 ≤ i → i < 5 → slot_empty ⟨[some 0, some 1, some 2, none, none]⟩ i) :=
  have hrun : proc_create_runprogram_fds
        ⟨fun p _ => if p = "con:" then (0, 0) else (19, 0), fun _ => false, fun _ => 0⟩
        ⟨List.replicate 5 none⟩ ⟨9, [], [], fun vn => if vn = 0 then 1 else 0⟩
      = some (⟨[some 0, some 1, some 2, none, none]⟩,
          (proc_create_runprogram_fds
            ⟨fun p _ => if p = "con:" then (0, 0) else (19, 0), fun _ => false, fun _ => 0⟩
            ⟨List.replicate 5 none⟩
            ⟨9, [], [], fun vn => if vn = 0 then 1 else 0⟩).elim
              ⟨0, [], [], fun _ => 0⟩ (fun r => r.2)) := by
    rfl
  ⟨_, hrun, rfl,
    (proc_create_runprogram_console_slots _ 5 _ _ _ hrun).2.2.2.2.2.2⟩

/-! ## `free_page` -/

/-- The call `free_page(0)` changes nothing. -/
theorem free_page_null (s : core_map_state) : free_page s 0 = some s := by
  unfold free_page
  rw [if_pos rfl]

/-- The call `free_page` of an address that is not page-aligned changes nothing. -/
theorem free_page_unaligned (s : core_map_state) (addr : Nat) (h : addr % PAGE_SIZE ≠ 0) :
    free_page s addr = some s := by
  unfold free_page
  have h0 : addr ≠ 0 := by
    intro h1
    rw [h1] at h
    exact h rfl
  rw [if_neg h0, if_pos h]

/-- C31 (the code at a failing input). On two free frames `getppages(1)` returns the frame
0 at `0x41000` and leaves its entry allocated with `num_pages_track = 1`; `free_page` of
that address clears `page_allocated` and leaves `num_pages_track = 1` in the entry. -/
theorem free_page_keeps_run_length :
    getppages ⟨[⟨PAGE_FREE, 0⟩, ⟨PAGE_FREE, 0⟩], 0x41000⟩ 1
      = some (0x41000, ⟨[⟨PAGE_ALLOCATED, 1⟩, ⟨PAGE_FREE, 0⟩], 0x41000⟩)
    ∧ free_page ⟨[⟨PAGE_ALLOCATED, 1⟩, ⟨PAGE_FREE, 0⟩], 0x41000⟩ 0x41000
      = some ⟨[⟨PAGE_FREE, 1⟩, ⟨PAGE_FREE, 0⟩], 0x41000⟩ := by
  constructor
  · rfl
  · rfl

/-! ## The allocator on the core map `FFFAAFFFAF` -/

/-- C32 (counterexample). On the core map `FFFAAFFFAF` with `physical_start = 0x41000`,
`getppages(3)` returns the address `0x41000` of the frame at index 0; the frame at index 5
has the address `0x46000`. -/
theorem getppages_FFFAAFFFAF_not_frame_5 :
    (getppages (core_map_FFFAAFFFAF 0x41000) 3).map Prod.fst = some 0x41000
    ∧ frame_paddr (core_map_FFFAAFFFAF 0x41000) 0 = 0x41000
    ∧ frame_paddr (core_map_FFFAAFFFAF 0x41000) 5 = 0x46000 :=
  ⟨rfl, rfl, rfl⟩

/-- C32 (amended). On the core map `FFFAAFFFAF`, whatever its initialised
`physical_start`, `getppages(3)` returns the frame at index 0, which heads three free
frames. -/
theorem getppages_FFFAAFFFAF (physical_start : Nat)
    (hs : core_map_ok (core_map_FFFAAFFFAF physical_start)) :
    free_run (core_map_FFFAAFFFAF physical_start).core_map 0 3
    ∧ ∃ s, getppages (core_map_FFFAAFFFAF physical_start) 3
      = some (frame_paddr (core_map_FFFAAFFFAF physical_start) 0, s) := by
  obtain ⟨h1, _, _, _⟩ :=
    frame_paddr_ok _ hs 0 (by simp only [core_map_FFFAAFFFAF, List.length_cons]; omega)
  constructor
  · intro k hk
    interval_cases k <;> rfl
  · rw [← h1]
    exact ⟨_, rfl⟩

/-- C32 at a concrete input: `physical_start = 0x41000`. -/
theorem getppages_FFFAAFFFAF_witness :
    core_map_ok (core_map_FFFAAFFFAF 0x41000)
    ∧ free_run (core_map_FFFAAFFFAF 0x41000).core_map 0 3
    ∧ ∃ s, getppages (core_map_FFFAAFFFAF 0x41000) 3
      = some (frame_paddr (core_map_FFFAAFFFAF 0x41000) 0, s) :=
  ⟨⟨by decide, by decide, by decide⟩,
    getppages_FFFAAFFFAF 0x41000 ⟨by decide, by decide, by decide⟩⟩

/-! ## `as_define_region` -/

/-- The mask `~PAGE_FRAME` keeps the offset inside the page. -/
theorem and_not_page_frame (a : Nat) : a &&& (2 ^ 32 - 1 - PAGE_FRAME) = a % 4096 := by
  have h : 2 ^ 32 - 1 - PAGE_FRAME = 2 ^ 12 - 1 := by norm_num [PAGE_FRAME]
  rw [h, Nat.and_pow_two_sub_one_eq_mod]

/-- When `kmalloc` returns `NULL`, `as_define_region` returns `ENOMEM` and leaves the
address space as it was. -/
theorem as_define_region_enomem (as : addrspace) (vaddr sz : Nat)
    (readable writeable executable : Int) :
    as_define_region as vaddr sz readable writeable executable 0 = (ENOMEM, as, 0) := rfl

/-- The segment that `as_define_region` appends, in 32-bit arithmetic. -/
theorem as_define_region_ok (as : addrspace) (vaddr sz : Nat)
    (readable writeable executable : Int) (heap : Nat) (hheap : heap ≠ 0) :
    as_define_region as vaddr sz readable writeable executable heap
      = (0, { as with as_segment_array := as.as_segment_array ++
          [⟨vaddr &&& PAGE_FRAME,
            ((vaddr &&& PAGE_FRAME)
              + ((((sz + (vaddr &&& (2 ^ 32 - 1 - PAGE_FRAME))) % 2 ^ 32 + PAGE_SIZE - 1)
                  % 2 ^ 32) &&& PAGE_FRAME)) % 2 ^ 32,
            readable, writeable, executable, NOT_WRITEABLE⟩] }, heap - 1) := by
  unfold as_define_region kmalloc
  rw [if_neg hheap]

/-- C33 (counterexample). The region of one byte at `0xfffff000` does not wrap
(`0xfffff000 + 1 < 2 ^ 32`), and `as_define_region` appends the segment
`[0xfffff000, 0)`: the end, rounded up to the page boundary `2 ^ 32`, is 0 in 32 bits and
the byte is not below it. With no kernel heap left, `as_define_region` returns `ENOMEM`
and appends nothing. -/
theorem as_define_region_wraps :
    0xfffff000 + 1 < 2 ^ 32
    ∧ as_define_region ⟨[⟨0, 0, 4, 2, 0, 0⟩], [], USERSTACK, USERSTACK⟩ 0xfffff000 1 4 0 1 5
      = (0, ⟨[⟨0, 0, 4, 2, 0, 0⟩, ⟨0xfffff000, 0, 4, 0, 1, 0⟩], [], USERSTACK, USERSTACK⟩, 4)
    ∧ ¬ (0xfffff000 + 1 ≤ 0)
    ∧ as_define_region ⟨[⟨0, 0, 4, 2, 0, 0⟩], [], USERSTACK, USERSTACK⟩ 0x400000 0x1000 4 0 1 0
      = (ENOMEM, ⟨[⟨0, 0, 4, 2, 0, 0⟩], [], USERSTACK, USERSTACK⟩, 0) := by
  refine ⟨by decide, rfl, by decide, rfl⟩

/-- C33 (amended). Let `vaddr` and `sz` be such that `vaddr + sz` is at most
`2 ^ 32 - PAGE_SIZE`, so that the end rounded up to a page boundary stays a 32-bit address.
When `kmalloc` returns `NULL`, `as_define_region` returns `ENOMEM` and changes nothing.
Otherwise it returns 0 and appends exactly one segment `[s, e)` to the existing ones,
which stay as they are: `s` is `vaddr` rounded down to a page boundary, `e` is
`s + (sz + (vaddr - s))` rounded up to a page boundary, both are page-aligned,
`[vaddr, vaddr + sz)` lies in `[s, e)`, `e - s` is the smallest multiple `m` of the page
size with `vaddr + sz <= s + m`, and the segment has the given flags and
`originally_writeable = 0`. -/
theorem as_define_region_segment (as : addrspace) (vaddr sz : Nat)
    (readable writeable executable : Int) (heap : Nat)
    (hend : vaddr + sz ≤ 2 ^ 32 - PAGE_SIZE) :
    (heap = 0 →
      as_define_region as vaddr sz readable writeable executable heap = (ENOMEM, as, heap))
    ∧ (heap ≠ 0 → ∃ s e,
        as_define_region as vaddr sz readable writeable executable heap
          = (0, { as with as_segment_array := as.as_segment_array ++
              [⟨s, e, readable, writeable, executable, 0⟩] }, heap - 1)
        ∧ s = PAGE_SIZE * (vaddr / PAGE_SIZE)
        ∧ e = s + PAGE_SIZE * ((sz + (vaddr - s) + PAGE_SIZE - 1) / PAGE_SIZE)
        ∧ s % PAGE_SIZE = 0 ∧ e % PAGE_SIZE = 0
        ∧ s ≤ vaddr ∧ vaddr + sz ≤ e ∧ e < 2 ^ 32
        ∧ ∀ m, m % PAGE_SIZE = 0 → vaddr + sz ≤ s + m → e - s ≤ m) := by
  constructor
  · intro h0
    subst h0
    rfl
  · intro hheap
    refine ⟨_, _, as_define_region_ok as vaddr sz readable writeable executable heap hheap,
      ?_⟩
    unfold PAGE_SIZE at hend
    have hva : vaddr < 2 ^ 32 := by omega
    rw [and_not_page_frame, and_page_frame vaddr hva]
    have h1 : (sz + vaddr % 4096) % 2 ^ 32 = sz + vaddr % 4096 :=
      Nat.mod_eq_of_lt (by omega)
    have h2 : (sz + vaddr % 4096 + PAGE_SIZE - 1) % 2 ^ 32 = sz + vaddr % 4096 + 4095 := by
      unfold PAGE_SIZE
      exact Nat.mod_eq_of_lt (by omega)
    rw [h1, h2, and_page_frame _ (by omega)]
    have h3 : (4096 * (vaddr / 4096) + 4096 * ((sz + vaddr % 4096 + 4095) / 4096)) % 2 ^ 32
        = 4096 * (vaddr / 4096) + 4096 * ((sz + vaddr % 4096 + 4095) / 4096) :=
      Nat.mod_eq_of_lt (by omega)
    rw [h3]
    unfold PAGE_SIZE
    have h4 : vaddr - 4096 * (vaddr / 4096) = vaddr % 4096 := by omega
    rw [h4]
    refine ⟨rfl, by omega, by omega, by omega, by omega, by omega, by omega, ?_⟩
    intro m hm hle
    omega

/-- C33 at a concrete input: the region of `0x1ff1` bytes at `0x400010`, which gets the
segment `[0x400000, 0x403000)`, with kernel heap left. -/
theorem as_define_region_segment_witness :
    0x400010 + 0x1ff1 ≤ 2 ^ 32 - PAGE_SIZE
    ∧ (5 ≠ 0 → ∃ s e,
        as_define_region ⟨[⟨0, 0, 4, 2, 0, 0⟩], [], USERSTACK, USERSTACK⟩ 0x400010 0x1ff1 4 0 1 5
          = (0, { (⟨[⟨0, 0, 4, 2, 0, 0⟩], [], USERSTACK, USERSTACK⟩ : addrspace) with
              as_segment_array := [⟨0, 0, 4, 2, 0, 0⟩] ++ [⟨s, e, 4, 0, 1, 0⟩] }, 5 - 1)
        ∧ s = PAGE_SIZE * (0x400010 / PAGE_SIZE)
        ∧ e = s + PAGE_SIZE * ((0x1ff1 + (0x400010 - s) + PAGE_SIZE - 1) / PAGE_SIZE)
        ∧ s % PAGE_SIZE = 0 ∧ e % PAGE_SIZE = 0
        ∧ s ≤ 0x400010 ∧ 0x400010 + 0x1ff1 ≤ e ∧ e < 2 ^ 32
        ∧ ∀ m, m % PAGE_SIZE = 0 → 0x400010 + 0x1ff1 ≤ s + m → e - s ≤ m) :=
  ⟨by decide,
    (as_define_region_segment ⟨[⟨0, 0, 4, 2, 0, 0⟩], [], USERSTACK, USERSTACK⟩ 0x400010 0x1ff1
      4 0 1 5 (by decide)).2⟩

/-! ## `as_prepare_load` and `as_complete_load` -/

/-- The loop of `as_prepare_load` applies its body to every segment. -/
theorem as_prepare_load_loop_map (l : List segment) (largest_vaddr : Nat) :
    (as_prepare_load_loop l largest_vaddr).1 = l.map as_prepare_load_segment := by
  induction l generalizing largest_vaddr with
  | nil => rfl
  | cons c rest ih =>
    simp only [as_prepare_load_loop, List.map_cons, ih]
    rfl

/-- After the body of the loop of `as_prepare_load`, an executable segment is
writeable. -/
theorem as_prepare_load_segment_writeable (c : segment)
    (h : (as_prepare_load_segment c).executable ≠ 0) :
    (as_prepare_load_segment c).writeable = WRITEABLE := by
  unfold as_prepare_load_segment at h ⊢
  by_cases hx : c.executable ≠ 0
  · rw [if_pos hx]
  · rw [if_neg hx] at h
    exact absurd h hx

/-- The body of the loop of `as_complete_load` after that of `as_prepare_load` gives
back the flags and the bounds of the segment. -/
theorem as_complete_load_segment_prepare (c : segment) :
    (as_complete_load_segment (as_prepare_load_segment c)).readable = c.readable
    ∧ (as_complete_load_segment (as_prepare_load_segment c)).writeable = c.writeable
    ∧ (as_complete_load_segment (as_prepare_load_segment c)).executable = c.executable
    ∧ (as_complete_load_segment (as_prepare_load_segment c)).segment_start = c.segment_start
    ∧ (as_complete_load_segment (as_prepare_load_segment c)).segment_end = c.segment_end := by
  unfold as_complete_load_segment as_prepare_load_segment
  by_cases hx : c.executable ≠ 0
  · simp only [if_pos hx]
    trivial
  · simp only [if_neg hx]
    trivial

/-- C34. For every address space with its heap slot, `as_prepare_load` returns 0; after
it every non-heap segment (index 1 and up) whose `executable` flag is set has
`writeable = WRITEABLE`; `as_complete_load` after it returns 0 and leaves as many segments
as there were, every non-heap segment with the `readable`, `writeable` and `executable`
flags and the bounds that it had before `as_prepare_load`. -/
theorem as_prepare_load_as_complete_load (as : addrspace) (heap_segment : segment)
    (h0 : as.as_segment_array.get? 0 = some heap_segment) :
    ∃ as1, as_prepare_load as = some (0, as1)
      ∧ (∀ i c, 1 ≤ i → as1.as_segment_array.get? i = some c → c.executable ≠ 0 →
          c.writeable = WRITEABLE)
      ∧ ∃ as2, as_complete_load as1 = (0, as2)
        ∧ as2.as_segment_array.length = as.as_segment_array.length
        ∧ ∀ i c, 1 ≤ i → as.as_segment_array.get? i = some c →
            ∃ c2, as2.as_segment_array.get? i = some c2
              ∧ c2.readable = c.readable ∧ c2.writeable = c.writeable
              ∧ c2.executable = c.executable
              ∧ c2.segment_start = c.segment_start ∧ c2.segment_end = c.segment_end := by
  obtain ⟨segs, pt, sb, st⟩ := as
  cases segs with
  | nil => simp at h0
  | cons hs rest =>
    simp only [List.get?_cons_zero, Option.some.injEq] at h0
    subst h0
    refine ⟨_, rfl, ?_, _, rfl, ?_, ?_⟩
    · intro i c hi hc hx
      obtain ⟨j, rfl⟩ : ∃ j, i = j + 1 := ⟨i - 1, by omega⟩
      simp only [List.drop_succ_cons, List.drop_zero, as_prepare_load_loop_map,
        List.get?_eq_getElem?, List.getElem?_cons_succ, List.getElem?_map] at hc
      cases hr : rest[j]? with
      | none => rw [hr] at hc; simp at hc
      | some c0 =>
        rw [hr] at hc
        simp only [Option.map_some', Option.some.injEq] at hc
        subst hc
        exact as_prepare_load_segment_writeable c0 hx
    · simp [as_prepare_load_loop_map]
    · intro i c hi hc
      obtain ⟨j, rfl⟩ : ∃ j, i = j + 1 := ⟨i - 1, by omega⟩
      simp only [List.get?_eq_getElem?, List.getElem?_cons_succ] at hc
      refine ⟨as_complete_load_segment (as_prepare_load_segment c), ?_,
        as_complete_load_segment_prepare c⟩
      simp [as_prepare_load_loop_map, hc]

/-- C34 at a concrete input: the heap slot, a code segment (readable, executable, not
writeable) and a data segment (readable, writeable). -/
theorem as_prepare_load_as_complete_load_witness :
    ∃ as1, as_prepare_load ⟨[⟨0, 0, 4, 2, 0, 0⟩, ⟨0x400000, 0x401000, 4, 0, 1, 0⟩,
          ⟨0x500000, 0x501000, 4, 2, 0, 0⟩], [], USERSTACK, USERSTACK⟩ = some (0, as1)
      ∧ (∀ i c, 1 ≤ i → as1.as_segment_array.get? i = some c → c.executable ≠ 0 →
          c.writeable = WRITEABLE)
      ∧ ∃ as2, as_complete_load as1 = (0, as2)
        ∧ as2.as_segment_array.length = 3
        ∧ ∀ i c, 1 ≤ i → ([⟨0, 0, 4, 2, 0, 0⟩, ⟨0x400000, 0x401000, 4, 0, 1, 0⟩,
              ⟨0x500000, 0x501000, 4, 2, 0, 0⟩] : List segment).get? i = some c →
            ∃ c2, as2.as_segment_array.get? i = some c2
              ∧ c2.readable = c.readable ∧ c2.writeable = c.writeable
              ∧ c2.executable = c.executable
              ∧ c2.segment_start = c.segment_start ∧ c2.segment_end = c.segment_end :=
  as_prepare_load_as_complete_load ⟨[⟨0, 0, 4, 2, 0, 0⟩, ⟨0x400000, 0x401000, 4, 0, 1, 0⟩,
    ⟨0x500000, 0x501000, 4, 2, 0, 0⟩], [], USERSTACK, USERSTACK⟩ ⟨0, 0, 4, 2, 0, 0⟩ rfl

/-! ## `core_map_init` -/

/-- When `core_map_init` returns 0, the tracked frames start one page after
`core_map_paddr`, whatever the number of pages of the core map, and every entry is free
with `num_pages_track = 0`. -/
theorem core_map_init_physical_start (sizeof_core_map_entry : Nat) (r : ram)
    (b : core_map_boot) (h : core_map_init sizeof_core_map_entry r = some (0, some b)) :
    b.cm.physical_start = (b.core_map_paddr + PAGE_SIZE) % 2 ^ 32
    ∧ b.cm.physical_start < b.physical_end
    ∧ ∀ e, e ∈ b.cm.core_map → e = ⟨PAGE_FREE, 0⟩ := by
  unfold core_map_init at h
  dsimp only at h
  split at h
  · simp [ENOMEM] at h
  · split at h
    · simp [ENOMEM] at h
    · split at h
      · rename_i hlt
        simp only [Option.some.injEq, Prod.mk.injEq, true_and] at h
        subst h
        refine ⟨rfl, hlt, ?_⟩
        intro e he
        exact List.eq_of_mem_replicate he
      · simp at h

/-- C35 (the code at a failing input). With 4 MB of RAM, the first free address `0x40000`
and 8 bytes per entry, `core_map_init` returns 0; the core map needs two pages,
`[0x40000, 0x42000)`, and the tracked frames start at `physical_start = 0x41000`, inside
the second of them. The 959 entries are free with `num_pages_track = 0`, and the first
`getppages(1)` hands out the frame at `0x41000`. -/
theorem core_map_init_tracks_core_map :
    ∃ b s1, core_map_init 8
        ⟨fun npages => if 0x40000 + npages * 4096 > 0x400000 then 0 else 0x40000, 0x400000⟩
        = some (0, some b)
      ∧ b.core_map_paddr = 0x40000 ∧ b.core_map_pages = 2 ∧ b.physical_end = 0x400000
      ∧ b.cm.physical_start = 0x41000
      ∧ b.cm.physical_start < b.core_map_paddr + b.core_map_pages * PAGE_SIZE
      ∧ b.cm.core_map = List.replicate 959 ⟨PAGE_FREE, 0⟩
      ∧ getppages b.cm 1 = some (0x41000, s1) := by
  have hok : core_map_ok ⟨List.replicate 959 ⟨PAGE_FREE, 0⟩, 0x41000⟩ := by
    refine ⟨by decide, by decide, ?_⟩
    simp only [List.length_replicate]
    decide
  exact ⟨_, _, rfl, rfl, rfl, rfl, rfl, by decide, rfl,
    getppages_one_free ⟨List.replicate 959 ⟨PAGE_FREE, 0⟩, 0x41000⟩ hok 0 ⟨PAGE_FREE, 0⟩ rfl rfl
      (fun j _ hj _ => absurd hj (Nat.not_lt_zero j))⟩

/-! ## A fault outside the segments and the stack -/

/-- C36 (the code at a failing input). The address space has the heap `[0x401000,
0x401000)`, the code segment `[0x400000, 0x401000)` and the empty stack at `0x80000000`.
A READ fault at `0x10000000` returns 0: `as_stack_top` goes down by one page to
`0x7ffff000` and the page `0x10000000` gets a page-table entry with the frame `0x41000`,
although the page lies in no segment and not in `[0x7ffff000, 0x80000000)`. -/
theorem vm_fault_helper_maps_page_outside :
    vm_fault_helper VM_FAULT_READ 0x10000000
        ⟨[⟨0x401000, 0x401000, 4, 2, 0, 0⟩, ⟨0x400000, 0x401000, 4, 0, 1, 0⟩], [],
          0x80000000, 0x80000000⟩
        ⟨[⟨PAGE_FREE, 0⟩, ⟨PAGE_FREE, 0⟩], 0x41000⟩ 5
      = some (0,
          ⟨[⟨0x401000, 0x401000, 4, 2, 0, 0⟩, ⟨0x400000, 0x401000, 4, 0, 1, 0⟩],
            [⟨0x10000000, 0x41000⟩], 0x80000000, 0x7ffff000⟩,
          ⟨[⟨PAGE_ALLOCATED, 1⟩, ⟨PAGE_FREE, 0⟩], 0x41000⟩)
    ∧ in_segment 0x10000000 ⟨0x401000, 0x401000, 4, 2, 0, 0⟩ = false
    ∧ in_segment 0x10000000 ⟨0x400000, 0x401000, 4, 0, 1, 0⟩ = false
    ∧ ¬ (0x7ffff000 ≤ 0x10000000 ∧ 0x10000000 < 0x80000000) :=
  ⟨rfl, rfl, rfl, by decide⟩

/-! ## The child array at the end of `proc_destroy` -/

/-- The loop at the end of `proc_destroy` removes the entries above index 0. -/
theorem proc_destroy_child_loop_take (index : Nat) (arr : List proc)
    (h : arr.length = index + 1) :
    proc_destroy_child_loop index arr = some (arr.take 1) := by
  induction index generalizing arr with
  | zero =>
    simp only [proc_destroy_child_loop]
    rw [List.take_of_length_le (by omega)]
  | succ n ih =>
    have hlt : n + 1 < arr.length := by omega
    simp only [proc_destroy_child_loop, List.get?_eq_getElem?, List.getElem?_eq_getElem hlt]
    rw [ih (arr.eraseIdx (n + 1)) (by rw [List.length_eraseIdx, if_pos hlt]; omega)]
    congr 1
    rw [List.eraseIdx_eq_take_drop_succ, List.take_append_eq_append_take,
      List.take_take]
    simp [List.length_take]
    omega

/-- C37 (the code at the failing inputs). For every process the loop at the end of
`proc_destroy` runs through and leaves in the child array its first entry: the array
that is handed to `array_destroy` is empty only if the process had no child. For a
process with one child the loop is not entered and the child stays; of three children
the first stays. -/
theorem proc_destroy_leaves_first_child :
    (∀ p : proc, proc_destroy_child_array p = some (p.p_child_process_arr.take 1))
    ∧ proc_destroy_child_array (.mk 2 [.mk 3 [] 0 0 0 0] 0 1 0 1)
        = some [.mk 3 [] 0 0 0 0]
    ∧ proc_destroy_child_array
          (.mk 2 [.mk 3 [] 0 0 0 0, .mk 4 [] 1 0 0 0, .mk 5 [] 2 0 0 0] 0 3 0 1)
        = some [.mk 3 [] 0 0 0 0] := by
  refine ⟨?_, rfl, rfl⟩
  intro p
  unfold proc_destroy_child_array
  cases harr : p.p_child_process_arr with
  | nil => rfl
  | cons c rest =>
    apply proc_destroy_child_loop_take
    simp only [List.length_cons]
    omega

/-! ## Descriptors at fork -/

/-- C27 (the code at two failing inputs). First input: a process with its three console
descriptors calls `sys_open` of the file `"f"`, which returns 0 with the descriptor
number 3; `sys_open` frees the buffer of the file name that the new descriptor points
to (buffer 1). For a child that `proc_create_runprogram` has given its console descriptors,
`fd_table_copy_entries` (both table locks free) then reads the file name through the freed
buffer and has no defined result. Second input: the buffer of the file name of slot 3 is
still allocated, and `vfs_open` of that name with the flags of the descriptor fails with
the error 22; `fd_table_copy_entries` returns 0 and the slot 3 of the child is empty,
while the slot 3 of the parent is open. -/
theorem fd_table_copy_entries_fails :
    (∃ tp hp tc hc,
      sys_open ⟨fun p _ => if p = "con:" then (0, 0) else (0, 1), fun _ => true, fun _ => 0⟩
          false (.ok "f") O_RDONLY ⟨[some 0, some 1, some 2, none, none]⟩
          ⟨20, [some ⟨0, 0, 0, 0⟩, some ⟨0, 0, 0, 1⟩, some ⟨0, 0, 0, 1⟩], [none],
            fun vn => if vn = 0 then 4 else 0⟩
        = some (0, some 3, tp, hp)
      ∧ tp.all_fds = [some 0, some 1, some 2, some 3, none]
      ∧ hp.heap = 18
      ∧ proc_create_runprogram_fds
          ⟨fun p _ => if p = "con:" then (0, 0) else (0, 1), fun _ => true, fun _ => 0⟩
          ⟨List.replicate 5 none⟩ hp = some (tc, hc)
      ∧ tc.all_fds = [some 4, some 5, some 6, none, none]
      ∧ hc.heap = 14
      ∧ fd_deref hc 3 = some ⟨1, 1, 0, O_RDONLY⟩
      ∧ buf_deref hc 1 = none
      ∧ fd_table_copy_entries
          ⟨fun p _ => if p = "con:" then (0, 0) else (0, 1), fun _ => true, fun _ => 0⟩
          1 tp tc lock_create lock_create hc = none)
    ∧ (∃ tc1 h1,
      fd_table_copy_entries
          ⟨fun p fl => if p = "con:" then (0, 0) else if fl = 5 then (22, 0) else (0, 1),
            fun _ => true, fun _ => 0⟩
          1 ⟨[some 0, some 1, some 2, some 3, none]⟩ ⟨[some 4, some 5, some 6, none, none]⟩
          lock_create lock_create
          ⟨14, [some ⟨0, 0, 0, 0⟩, some ⟨0, 0, 0, 1⟩, some ⟨0, 0, 0, 1⟩, some ⟨1, 1, 0, 5⟩,
              some ⟨2, 0, 0, 0⟩, some ⟨2, 0, 0, 1⟩, some ⟨2, 0, 0, 1⟩],
            [none, some "f", none], fun vn => if vn = 0 then 7 else if vn = 1 then 1 else 0⟩
        = some (.returns (0, tc1, lock_create, lock_create, h1))
      ∧ tc1.all_fds = [some 4, some 5, some 6, none, none]) :=
  ⟨⟨_, _, _, _, rfl, rfl, rfl, rfl, rfl, rfl, rfl, rfl, rfl⟩, ⟨_, _, rfl, rfl⟩⟩

/-- C28 (the code at a failing input). A process with its three console descriptors
opens the seekable file `"f"` (descriptor number 3), makes it its standard input with
`sys_dup2(3, 0)` and closes the number 3: slot 0 of its table points to the descriptor 3 on
the file. On descriptors `sys_fork` then runs `proc_create_runprogram` and
`fd_table_copy_entries`, which leave the child with the new console descriptors 4, 5, 6 in
the slots 0 to 2: no descriptor is shared, and slot 0 of the child is not on the file.
`sys_lseek(0, 10, SEEK_SET)` of the parent returns the offset 10; `sys_lseek(0, 0,
SEEK_CUR)` of the child after it fails with `ESPIPE`, while that of the parent returns
10. -/
theorem sys_fork_descriptors_not_shared :
    ∃ t1 h1 t2 h2 t3 h3 tc h4 h5 h6,
      sys_open
          ⟨fun p _ => if p = "con:" then (0, 0) else (0, 1), fun vn => vn != 0, fun _ => 0⟩
          false (.ok "f") O_RDONLY ⟨[some 0, some 1, some 2, none, none]⟩
          ⟨20, [some ⟨0, 0, 0, 0⟩, some ⟨0, 0, 0, 1⟩, some ⟨0, 0, 0, 1⟩], [none],
            fun vn => if vn = 0 then 4 else 0⟩
        = some (0, some 3, t1, h1)
      ∧ sys_dup2 3 0 t1 h1 = some (0, some 0, t2, h2)
      ∧ sys_close 3 t2 h2 = some (0, t3, h3)
      ∧ t3.all_fds = [some 3, some 1, some 2, none, none]
      ∧ fd_deref h3 3 = some ⟨1, 1, 0, O_RDONLY⟩
      ∧ sys_fork_fds
          ⟨fun p _ => if p = "con:" then (0, 0) else (0, 1), fun vn => vn != 0, fun _ => 0⟩
          1 5 t3 lock_create h3
        = some (.returns (some tc, h4))
      ∧ tc.all_fds = [some 4, some 5, some 6, none, none]
      ∧ fd_deref h4 4 = some ⟨2, 0, 0, O_RDONLY⟩
      ∧ sys_lseek
          ⟨fun p _ => if p = "con:" then (0, 0) else (0, 1), fun vn => vn != 0, fun _ => 0⟩
          0 10 SEEK_SET t3 h4
        = some (0, some (0, 10), h5)
      ∧ sys_lseek
          ⟨fun p _ => if p = "con:" then (0, 0) else (0, 1), fun vn => vn != 0, fun _ => 0⟩
          0 0 SEEK_CUR tc h5
        = some (ESPIPE, none, h5)
      ∧ sys_lseek
          ⟨fun p _ => if p = "con:" then (0, 0) else (0, 1), fun vn => vn != 0, fun _ => 0⟩
          0 0 SEEK_CUR t3 h5
        = some (0, some (0, 10), h6)
      ∧ offset_of_words 0 10 = 10 :=
  ⟨_, _, _, _, _, _, _, _, _, _, rfl, rfl, rfl, rfl, rfl, rfl, rfl, rfl, rfl, rfl, rfl, rfl⟩

/-! ## The lock of the child table in `fd_table_copy_entries` -/

/-- A call of `lock_acquire` on a lock whose `lk_flag` is set sleeps. -/
theorem lock_acquire_held (curthread : Nat) (lk : lock) (h : lk.lk_flag = true) :
    lock_acquire curthread lk = .sleeps := by
  unfold lock_acquire
  rw [if_pos h]

/-- A call of `lock_acquire` on a free lock returns with the lock held by the caller. -/
theorem lock_acquire_free (curthread : Nat) (lk : lock) (h : lk.lk_flag = false) :
    lock_acquire curthread lk = .returns ⟨true, some curthread⟩
    ∧ lock_do_i_hold curthread ⟨true, some curthread⟩ = true := by
  unfold lock_acquire lock_do_i_hold
  rw [h]
  simp

/-- When `fd_create_at_pos` gets its descriptor from `kmalloc` and `vfs_open` succeeds,
the call sleeps on the lock of the table if that lock is held. -/
theorem fd_create_at_pos_held (fs : vfs) (curthread fd_filename : Nat) (fd_flags : Int)
    (pos : Nat) (cur_table : fd_table) (fd_table_lock : lock) (h : kheap) (path : String)
    (hheap : h.heap ≠ 0) (hname : buf_deref h fd_filename = some path)
    (hopen : (fs.lookup path fd_flags).1 = 0) (hheld : fd_table_lock.lk_flag = true) :
    fd_create_at_pos fs curthread fd_filename fd_flags pos cur_table fd_table_lock h
      = some .sleeps := by
  unfold fd_create_at_pos kmalloc
  rw [if_neg hheap]
  simp only [hname]
  have hv : (vfs_open fs h path fd_flags).1 = 0 := by
    unfold vfs_open
    simp only [hopen, ne_eq, not_true_eq_false, if_false]
  simp only [hv, ne_eq, not_true_eq_false, if_false, lock_acquire_held curthread _ hheld]

/-- The loop of `fd_table_copy_entries` sleeps at the first open slot of the parent when
the lock of the child table is held, the descriptor of the slot and its file name can be
read, `kmalloc` supplies the name buffer and the descriptor, and `vfs_open` of the name
succeeds. -/
theorem fd_table_copy_entries_loop_held (fs : vfs) (curthread : Nat) (k : Nat)
    (curr_parent_fd : Nat) (rest : List (Option Nat)) (i : Nat) (child_table : fd_table)
    (child_table_lock : lock) (h : kheap) (parent_fd : fd) (name : String)
    (hheap : 2 ≤ h.heap) (hfd : fd_deref h curr_parent_fd = some parent_fd)
    (hname : buf_deref h parent_fd.fd_file_name = some name)
    (hopen : (fs.lookup name parent_fd.fd_flags).1 = 0)
    (hheld : child_table_lock.lk_flag = true) :
    fd_table_copy_entries_loop fs curthread
        (List.replicate k none ++ some curr_parent_fd :: rest) i child_table
        child_table_lock h
      = some .sleeps := by
  induction k generalizing i with
  | succ n ih =>
    simp only [List.replicate_succ, List.cons_append, fd_table_copy_entries_loop]
    exact ih (i + 1)
  | zero =>
    simp only [List.replicate_zero, List.nil_append, fd_table_copy_entries_loop, kmalloc]
    rw [if_neg (by omega)]
    simp only [hfd, hname]
    rw [fd_create_at_pos_held fs curthread h.bufs.length parent_fd.fd_flags i child_table
      child_table_lock _ name (by simp only; omega) ?_ hopen hheld]
    unfold buf_deref
    simp

/-- For every parent table with an open descriptor in a slot from 3 on, the first of
them with a file name that can be read and that `vfs_open` opens: when both table locks
are free at the call and `kmalloc` can supply the name buffer and the descriptor,
`fd_table_copy_entries` sleeps in the `lock_acquire` of `fd_create_at_pos`. -/
theorem fd_table_copy_entries_open_slot (fs : vfs) (curthread : Nat) (k : Nat)
    (curr_parent_fd : Nat) (rest : List (Option Nat)) (parent_table child_table : fd_table)
    (parent_table_lock child_table_lock : lock) (h : kheap) (parent_fd : fd) (name : String)
    (hslots : parent_table.all_fds.drop 3 = List.replicate k none ++ some curr_parent_fd :: rest)
    (hheap : 2 ≤ h.heap) (hfd : fd_deref h curr_parent_fd = some parent_fd)
    (hname : buf_deref h parent_fd.fd_file_name = some name)
    (hopen : (fs.lookup name parent_fd.fd_flags).1 = 0)
    (hp : parent_table_lock.lk_flag = false) (hc : child_table_lock.lk_flag = false) :
    fd_table_copy_entries fs curthread parent_table child_table parent_table_lock
        child_table_lock h
      = some .sleeps := by
  unfold fd_table_copy_entries
  rw [(lock_acquire_free curthread parent_table_lock hp).1,
    (lock_acquire_free curthread child_table_lock hc).1]
  simp only [hslots]
  rw [fd_table_copy_entries_loop_held fs curthread k curr_parent_fd rest 3 child_table
    ⟨true, some curthread⟩ h parent_fd name hheap hfd hname hopen rfl]

/-- C38 (the code at a failing input). The parent has its console descriptors and slot 3
open on the file `"f"`; the child has the console descriptors that
`proc_create_runprogram` gave it; both table locks are free. `fd_table_copy_entries`
acquires the lock of the child table, which leaves it held by the calling thread 1, and
calls `fd_create_at_pos` for slot 3, which calls `lock_acquire` on that lock and sleeps:
`fd_table_copy_entries` does not return. For a parent with no open slot from 3 on it
returns 0 with both locks free. -/
theorem fd_table_copy_entries_sleeps :
    lock_acquire 1 lock_create = .returns ⟨true, some 1⟩
    ∧ lock_do_i_hold 1 ⟨true, some 1⟩ = true
    ∧ fd_create_at_pos
        ⟨fun p _ => if p = "con:" then (0, 0) else (0, 1), fun vn => vn != 0, fun _ => 0⟩
        1 3 O_RDONLY 3 ⟨[some 4, some 5, some 6, none, none]⟩ ⟨true, some 1⟩
        ⟨13, [some ⟨0, 0, 0, 0⟩, some ⟨0, 0, 0, 1⟩, some ⟨0, 0, 0, 1⟩, some ⟨1, 1, 0, 0⟩,
            some ⟨2, 0, 0, 0⟩, some ⟨2, 0, 0, 1⟩, some ⟨2, 0, 0, 1⟩],
          [none, some "f", none, some "f"],
          fun vn => if vn = 0 then 7 else if vn = 1 then 1 else 0⟩
      = some .sleeps
    ∧ fd_table_copy_entries
        ⟨fun p _ => if p = "con:" then (0, 0) else (0, 1), fun vn => vn != 0, fun _ => 0⟩
        1 ⟨[some 0, some 1, some 2, some 3, none]⟩ ⟨[some 4, some 5, some 6, none, none]⟩
        lock_create lock_create
        ⟨14, [some ⟨0, 0, 0, 0⟩, some ⟨0, 0, 0, 1⟩, some ⟨0, 0, 0, 1⟩, some ⟨1, 1, 0, 0⟩,
            some ⟨2, 0, 0, 0⟩, some ⟨2, 0, 0, 1⟩, some ⟨2, 0, 0, 1⟩],
          [none, some "f", none], fun vn => if vn = 0 then 7 else if vn = 1 then 1 else 0⟩
      = some .sleeps
    ∧ ∃ h1, fd_table_copy_entries
        ⟨fun p _ => if p = "con:" then (0, 0) else (0, 1), fun vn => vn != 0, fun _ => 0⟩
        1 ⟨[some 0, some 1, some 2, none, none]⟩ ⟨[some 4, some 5, some 6, none, none]⟩
        lock_create lock_create
        ⟨14, [some ⟨0, 0, 0, 0⟩, some ⟨0, 0, 0, 1⟩, some ⟨0, 0, 0, 1⟩,
            some ⟨2, 0, 0, 0⟩, some ⟨2, 0, 0, 1⟩, some ⟨2, 0, 0, 1⟩],
          [none, none], fun vn => if vn = 0 then 7 else 0⟩
      = some (.returns (0, ⟨[some 4, some 5, some 6, none, none]⟩, lock_create, lock_create,
          h1)) :=
  ⟨rfl, rfl, rfl, rfl, _, rfl⟩

/-! ## The lock of the descriptor in `sys_lseek` -/

/-- The paths of `sys_lseek` by `whence`. With `SEEK_CUR` and `SEEK_END` a path that
acquires the lock writes `fd_seek_pos` at most once, before its one `lock_release`; with
`SEEK_SET` the path of a seekable descriptor releases the lock, writes and releases again;
with any other `whence` the path ends after `lock_acquire`. -/
theorem sys_lseek_fd_lock_cases (fs : vfs) (n pos whence : Int) (cur_proc_fd_table : fd_table)
    (h : kheap) (events : List fd_lock_event)
    (he : sys_lseek_fd_lock fs n pos whence cur_proc_fd_table h = some events) :
    (whence = SEEK_CUR ∨ whence = SEEK_END →
      events = [] ∨ events = [.acquire, .release]
        ∨ events = [.acquire, .write_seek_pos, .release])
    ∧ (whence = SEEK_SET →
      events = [] ∨ events = [.acquire, .release]
        ∨ events = [.acquire, .release, .write_seek_pos, .release])
    ∧ (whence ≠ SEEK_SET ∧ whence ≠ SEEK_CUR ∧ whence ≠ SEEK_END →
      events = [] ∨ events = [.acquire]) := by
  unfold sys_lseek_fd_lock at he
  have hne1 : SEEK_CUR ≠ SEEK_SET := by decide
  have hne2 : SEEK_END ≠ SEEK_SET := by decide
  have hne3 : SEEK_END ≠ SEEK_CUR := by decide
  split at he
  · cases he
    exact ⟨fun _ => Or.inl rfl, fun _ => Or.inl rfl, fun _ => Or.inl rfl⟩
  · split at he
    · cases he
    · cases he
      exact ⟨fun _ => Or.inl rfl, fun _ => Or.inl rfl, fun _ => Or.inl rfl⟩
    · split at he
      · cases he
      · by_cases hset : whence = SEEK_SET
        · rw [if_pos hset] at he
          refine ⟨fun hw => ?_, fun _ => ?_, fun hw => absurd hset hw.1⟩
          · rcases hw with hw | hw
            · exact absurd (hset.symm.trans hw).symm hne1
            · exact absurd (hset.symm.trans hw).symm hne2
          · split at he
            · cases he
              exact Or.inr (Or.inl rfl)
            · split at he
              · cases he
              · split at he
                · cases he
                  exact Or.inr (Or.inr rfl)
                · cases he
                  exact Or.inr (Or.inl rfl)
        · rw [if_neg hset] at he
          by_cases hcur : whence = SEEK_CUR
          · rw [if_pos hcur] at he
            refine ⟨fun _ => ?_, fun hw => absurd hw hset, fun hw => absurd hcur hw.2.1⟩
            split at he
            · cases he
            · split at he
              · cases he
                exact Or.inr (Or.inl rfl)
              · split at he
                · cases he
                · split at he
                  · cases he
                    exact Or.inr (Or.inr rfl)
                  · cases he
                    exact Or.inr (Or.inl rfl)
          · rw [if_neg hcur] at he
            by_cases hend : whence = SEEK_END
            · rw [if_pos hend] at he
              refine ⟨fun _ => ?_, fun hw => absurd hw hset, fun hw => absurd hend hw.2.2⟩
              split at he
              · cases he
              · split at he
                · cases he
                · split at he
                  · cases he
                    exact Or.inr (Or.inl rfl)
                  · split at he
                    · cases he
                      exact Or.inr (Or.inr rfl)
                    · cases he
                      exact Or.inr (Or.inl rfl)
            · rw [if_neg hend] at he
              cases he
              refine ⟨fun hw => ?_, fun hw => absurd hw hset, fun _ => Or.inr rfl⟩
              rcases hw with hw | hw
              · exact absurd hw hcur
              · exact absurd hw hend

/-- C39 (the code at two failing inputs). Slot 3 is open on a seekable file and the lock
of its descriptor is free. With the `whence` value 3, `sys_lseek` returns `EINVAL` and its
path ends after `lock_acquire`: the lock is held by the calling thread 1 at return, and
the `lock_acquire` of its next `sys_lseek` on the descriptor sleeps. With
`sys_lseek(3, 10, SEEK_SET)` the path releases the lock, writes `fd_seek_pos` and releases
the lock again: one write and one release happen while the lock is not held. With
`SEEK_CUR` the path writes under the lock and releases it once. -/
theorem sys_lseek_fd_lock_paths :
    (∃ h1, sys_lseek
        ⟨fun p _ => if p = "con:" then (0, 0) else (0, 1), fun vn => vn != 0, fun _ => 0⟩
        3 0 3 ⟨[some 0, some 1, some 2, some 3, none]⟩
        ⟨18, [some ⟨0, 0, 0, 0⟩, some ⟨0, 0, 0, 1⟩, some ⟨0, 0, 0, 1⟩, some ⟨1, 1, 0, 0⟩],
          [none, none], fun vn => if vn = 0 then 4 else if vn = 1 then 1 else 0⟩
      = some (EINVAL, none, h1))
    ∧ sys_lseek_fd_lock
        ⟨fun p _ => if p = "con:" then (0, 0) else (0, 1), fun vn => vn != 0, fun _ => 0⟩
        3 0 3 ⟨[some 0, some 1, some 2, some 3, none]⟩
        ⟨18, [some ⟨0, 0, 0, 0⟩, some ⟨0, 0, 0, 1⟩, some ⟨0, 0, 0, 1⟩, some ⟨1, 1, 0, 0⟩],
          [none, none], fun vn => if vn = 0 then 4 else if vn = 1 then 1 else 0⟩
      = some [.acquire]
    ∧ fd_lock_after 1 lock_create [.acquire] = .returns ⟨true, some 1⟩
    ∧ lock_do_i_hold 1 ⟨true, some 1⟩ = true
    ∧ fd_lock_after 1 ⟨true, some 1⟩ [.acquire, .write_seek_pos, .release] = .sleeps
    ∧ sys_lseek_fd_lock
        ⟨fun p _ => if p = "con:" then (0, 0) else (0, 1), fun vn => vn != 0, fun _ => 0⟩
        3 10 SEEK_SET ⟨[some 0, some 1, some 2, some 3, none]⟩
        ⟨18, [some ⟨0, 0, 0, 0⟩, some ⟨0, 0, 0, 1⟩, some ⟨0, 0, 0, 1⟩, some ⟨1, 1, 0, 0⟩],
          [none, none], fun vn => if vn = 0 then 4 else if vn = 1 then 1 else 0⟩
      = some [.acquire, .release, .write_seek_pos, .release]
    ∧ writes_not_held 1 lock_create [.acquire, .release, .write_seek_pos, .release] = 1
    ∧ releases_not_held 1 lock_create [.acquire, .release, .write_seek_pos, .release] = 1
    ∧ sys_lseek_fd_lock
        ⟨fun p _ => if p = "con:" then (0, 0) else (0, 1), fun vn => vn != 0, fun _ => 0⟩
        3 10 SEEK_CUR ⟨[some 0, some 1, some 2, some 3, none]⟩
        ⟨18, [some ⟨0, 0, 0, 0⟩, some ⟨0, 0, 0, 1⟩, some ⟨0, 0, 0, 1⟩, some ⟨1, 1, 0, 0⟩],
          [none, none], fun vn => if vn = 0 then 4 else if vn = 1 then 1 else 0⟩
      = some [.acquire, .write_seek_pos, .release]
    ∧ writes_not_held 1 lock_create [.acquire, .write_seek_pos, .release] = 0
    ∧ releases_not_held 1 lock_create [.acquire, .write_seek_pos, .release] = 0
    ∧ fd_lock_after 1 lock_create [.acquire, .write_seek_pos, .release]
      = .returns lock_create :=
  ⟨⟨_, rfl⟩, rfl, rfl, rfl, rfl, rfl, rfl, rfl, rfl, rfl, rfl, rfl⟩

/-! ## `sys_dup2` called twice -/

/-- C40 (the code at two failing inputs). Slot 3 is open on a file whose vnode has one
reference. `sys_dup2(3, 4)` returns 4 and leaves the slots 3 and 4 on the descriptor 3,
the vnode with two references. The second `sys_dup2(3, 4)` drops both references, closes
the vnode and frees the descriptor 3, which it then reads: it has no defined result. On
the console descriptors (vnode 0, four references) `sys_dup2(0, 1)` returns 1 and leaves
the vnode with three references; the second `sys_dup2(0, 1)` returns 1 with the same table
and leaves the vnode with two references. -/
theorem sys_dup2_twice :
    (∃ t1 h1,
      sys_dup2 3 4 ⟨[some 0, some 1, some 2, some 3, none]⟩
          ⟨18, [some ⟨0, 0, 0, 0⟩, some ⟨0, 0, 0, 1⟩, some ⟨0, 0, 0, 1⟩, some ⟨1, 1, 0, 0⟩],
            [none, none], fun vn => if vn = 0 then 4 else if vn = 1 then 1 else 0⟩
        = some (0, some 4, t1, h1)
      ∧ t1.all_fds = [some 0, some 1, some 2, some 3, some 3]
      ∧ fd_deref h1 3 = some ⟨1, 1, 0, 0⟩
      ∧ h1.vn_refcount 1 = 2
      ∧ sys_dup2 3 4 t1 h1 = none)
    ∧ (∃ t1 h1 t2 h2,
      sys_dup2 0 1 ⟨[some 0, some 1, some 2, some 3, none]⟩
          ⟨18, [some ⟨0, 0, 0, 0⟩, some ⟨0, 0, 0, 1⟩, some ⟨0, 0, 0, 1⟩, some ⟨1, 1, 0, 0⟩],
            [none, none], fun vn => if vn = 0 then 4 else if vn = 1 then 1 else 0⟩
        = some (0, some 1, t1, h1)
      ∧ t1.all_fds = [some 0, some 0, some 2, some 3, none]
      ∧ h1.vn_refcount 0 = 3
      ∧ sys_dup2 0 1 t1 h1 = some (0, some 1, t2, h2)
      ∧ t2 = t1
      ∧ fd_deref h2 0 = fd_deref h1 0
      ∧ h2.vn_refcount 0 = 2) :=
  ⟨⟨_, _, rfl, rfl, rfl, rfl, rfl⟩, ⟨_, _, _, _, rfl, rfl, rfl, rfl, rfl, rfl, rfl⟩⟩

end Kernel
